import Mathlib

/-!
# sam-app-boilerplate: authorizer, token verification and response shaping

A shallow embedding of `src/utils/auth-utils.js`, `src/utils/lambda.js`,
`src/utils/errors.js` and `src/handlers/middleWare/auth.js`.

JavaScript values are modelled by the inductive type `JsVal`.  Objects carry
their prototype, their enumerable own properties (in insertion order) and
their non-enumerable own properties (such as the `message` an `Error`
constructor installs).  Code that lives outside the repository (the JWT
library, `fetch`, `jwk-to-pem`, `JSON.parse`, the text rendering of
`JSON.stringify`, `Buffer`) is taken from an environment `Env`.

Limits of the value model: numbers are integers; accessor properties other
than `Object.prototype.__proto__` do not exist; methods that primitives
inherit from their wrapper prototypes, and the indexed code units of
strings, are not values of the model; the
engine-specific `stack` property of errors is left out; properties are
enumerated in insertion order.
-/

namespace SamApp

/-! ## Values -/

/-- Prototype objects that exist before any request is handled: the language
built-ins and the prototypes of the classes declared in `errors.js`. -/
inductive Proto where
  | object
  | error
  | typeError
  | syntaxError
  | customError
  | authError
  | notFoundError
  | queryError
  | paramMissingError
  | attributeError
  | fieldError
  | notSupportedError
  | noAvailableResponder
  | noAvailableHospitalAdmin
  | responderError
  | badRequestError
  deriving DecidableEq, Repr

/-- JavaScript values.  `obj proto props hidden` is an ordinary object with
prototype `proto`, enumerable own properties `props` and non-enumerable own
properties `hidden`; `proto p` is one of the pre-existing prototype objects;
`builtin n` is the built-in function named `n`. -/
inductive JsVal where
  | undefined
  | null
  | bool (b : Bool)
  | num (n : Int)
  | str (s : String)
  | arr (items : List JsVal)
  | obj (proto : JsVal) (props : List (String × JsVal)) (hidden : List (String × JsVal))
  | proto (p : Proto)
  | builtin (name : String)
  deriving Repr

instance : Inhabited JsVal := ⟨JsVal.undefined⟩

/-- The prototype chain of a pre-existing prototype, itself first. -/
def Proto.chain : Proto → List Proto
  | .object => [.object]
  | .error => [.error, .object]
  | .typeError => [.typeError, .error, .object]
  | .syntaxError => [.syntaxError, .error, .object]
  | .customError => [.customError, .error, .object]
  | .authError => [.authError, .error, .object]
  | p => [p, .customError, .error, .object]

/-- Name of the constructor function a prototype belongs to. -/
def Proto.ctorName : Proto → String
  | .object => "Object"
  | .error => "Error"
  | .typeError => "TypeError"
  | .syntaxError => "SyntaxError"
  | .customError => "CustomError"
  | .authError => "AuthError"
  | .notFoundError => "NotFoundError"
  | .queryError => "QueryError"
  | .paramMissingError => "ParamMissingError"
  | .attributeError => "AttributeError"
  | .fieldError => "FieldError"
  | .notSupportedError => "NotSupportedError"
  | .noAvailableResponder => "NoAvailableResponder"
  | .noAvailableHospitalAdmin => "NoAvailableHospitalAdmin"
  | .responderError => "ResponderError"
  | .badRequestError => "BadRequestError"

/-- Method names every object inherits from `Object.prototype`. -/
def objectPrototypeMethods : List String :=
  ["__defineGetter__", "__defineSetter__", "hasOwnProperty", "__lookupGetter__",
   "__lookupSetter__", "isPrototypeOf", "propertyIsEnumerable", "toString", "valueOf",
   "toLocaleString"]

/-- Own data properties of a pre-existing prototype object. -/
def Proto.own (p : Proto) (k : String) : Option JsVal :=
  if k = "constructor" then some (.builtin p.ctorName)
  else match p with
    | .object => if k ∈ objectPrototypeMethods then some (.builtin k) else none
    | .error =>
      if k = "name" then some (.str "Error")
      else if k = "message" then some (.str "")
      else if k = "toString" then some (.builtin k)
      else none
    | .typeError =>
      if k = "name" then some (.str "TypeError")
      else if k = "message" then some (.str "")
      else none
    | .syntaxError =>
      if k = "name" then some (.str "SyntaxError")
      else if k = "message" then some (.str "")
      else none
    | _ => none

/-- Data property `k` of a pre-existing prototype, searched along its chain. -/
def Proto.find (p : Proto) (k : String) : Option JsVal :=
  p.chain.findSome? (fun q => q.own k)

/-- Data property `k` of a value, searched through own properties and then
the prototype chain; `none` when no object of the chain has it. -/
def findProp : JsVal → String → Option JsVal
  | .obj proto props hidden, k =>
    match props.lookup k with
    | some v => some v
    | none =>
      match hidden.lookup k with
      | some v => some v
      | none => findProp proto k
  | .proto p, k => p.find k
  | _, _ => none

/-- Whether the prototype chain of a value ends in `Object.prototype`. -/
def reachesObjectPrototype : JsVal → Bool
  | .obj proto _ _ => reachesObjectPrototype proto
  | .proto _ => true
  | _ => false

/-- The value of `Object.getPrototypeOf` on objects of the model. -/
def prototypeOf : JsVal → JsVal
  | .obj proto _ _ => proto
  | .proto p =>
    match p.chain with
    | _ :: q :: _ => .proto q
    | _ => .null
  | _ => .null

/-- Number of UTF-16 code units of a string (the JavaScript `length`). -/
def utf16Length (s : String) : Nat :=
  (s.toList.map (fun c => if c.val < 0x10000 then 1 else 2)).sum

/-- Names of the `Array.prototype` methods. -/
def arrayPrototypeMethods : List String :=
  ["concat", "copyWithin", "entries", "every", "fill", "filter", "find", "findIndex",
   "flat", "flatMap", "forEach", "includes", "indexOf", "join", "keys", "lastIndexOf",
   "map", "pop", "push", "reduce", "reduceRight", "reverse", "shift", "slice", "some",
   "sort", "splice", "unshift", "values"]

/-- Decimal digits of an array index, `none` when `k` is not a canonical
array index. -/
def arrayIndex (k : String) : Option Nat :=
  match k.toNat? with
  | some n => if toString n = k then some n else none
  | none => none

/-- Property read `v[k]` on a value that is neither `undefined` nor `null`. -/
def getMember (v : JsVal) (k : String) : JsVal :=
  match v with
  | .obj _ _ _ | .proto _ =>
    match findProp v k with
    | some x => x
    | none =>
      if k = "__proto__" ∧ reachesObjectPrototype v = true then prototypeOf v
      else .undefined
  | .arr items =>
    if k = "length" then .num items.length
    else match arrayIndex k with
      | some i => items.getD i .undefined
      | none =>
        if k ∈ arrayPrototypeMethods then .builtin k
        else if k = "__proto__" then .builtin "Array.prototype"
        else (Proto.object.find k).getD .undefined
  | .str s => if k = "length" then .num (utf16Length s) else .undefined
  | .builtin n => if k = "name" then .str n else .undefined
  | _ => .undefined

/-! ## Primitive operations -/

/-- An object literal whose prototype is `Object.prototype`. -/
def objectLiteral (props : List (String × JsVal)) : JsVal :=
  .obj (.proto .object) props []

/-- The value a failing language operation throws: `new TypeError(msg)`. -/
def typeError (msg : String) : JsVal :=
  .obj (.proto .typeError) [] [("message", .str msg)]

/-- The value `new Error(message)` for a string message. -/
def newError (message : String) : JsVal :=
  .obj (.proto .error) [] [("message", .str message)]

/-- Truthiness (`ToBoolean`). -/
def truthy : JsVal → Bool
  | .undefined => false
  | .null => false
  | .bool b => b
  | .num n => n != 0
  | .str s => s != ""
  | _ => true

/-- The operator `a || b`. -/
def jsOr (a b : JsVal) : JsVal := if truthy a then a else b

/-- Whether a value is the string `s` (`v === "s"`). -/
def isStr (v : JsVal) (s : String) : Bool :=
  match v with
  | .str t => t == s
  | _ => false

/-- Whether a value is `undefined` (`v === undefined`). -/
def isUndefined : JsVal → Bool
  | .undefined => true
  | _ => false

/-- Property read `v[k]`, which throws on `undefined` and `null`. -/
def getProp (v : JsVal) (k : String) : Except JsVal JsVal :=
  match v with
  | .undefined =>
    .error (typeError ("Cannot read properties of undefined (reading \x27" ++ k ++ "\x27)"))
  | .null =>
    .error (typeError ("Cannot read properties of null (reading \x27" ++ k ++ "\x27)"))
  | _ => .ok (getMember v k)

/-- Replace the value bound to `k` wherever `k` is bound. -/
def updateBinding (k : String) (v : JsVal) (props : List (String × JsVal)) :
    List (String × JsVal) :=
  props.map (fun p => if p.1 = k then (k, v) else p)

/-- Whether `k` is bound in a property list. -/
def hasBinding (k : String) (props : List (String × JsVal)) : Bool :=
  props.any (fun p => p.1 == k)

/-- Definition of an own enumerable data property (object literals, spread). -/
def defineBinding (k : String) (v : JsVal) (props : List (String × JsVal)) :
    List (String × JsVal) :=
  if hasBinding k props then updateBinding k v props else props ++ [(k, v)]

/-- Whether a value can serve as a prototype through the `__proto__` setter. -/
def isObjectOrNull : JsVal → Bool
  | .null => true
  | .arr _ => true
  | .obj _ _ _ => true
  | .proto _ => true
  | .builtin _ => true
  | _ => false

/-- Effect of the assignment `o[k] = v` in sloppy mode on a value `o` that is
neither `undefined` nor `null`, returning the updated `o`.  An own property
is overwritten in place; `__proto__` reaches the setter inherited from
`Object.prototype`, which replaces the prototype when `v` is an object or
`null` and does nothing otherwise; any other name becomes a new enumerable
own property.  Assignment to a primitive is silently dropped; arrays and
built-in objects, to which the source never assigns, are left as they are. -/
def assign (o : JsVal) (k : String) (v : JsVal) : JsVal :=
  match o with
  | .obj proto props hidden =>
    if hasBinding k props then .obj proto (updateBinding k v props) hidden
    else if hasBinding k hidden then .obj proto props (updateBinding k v hidden)
    else if k = "__proto__" ∧ (findProp proto k).isNone ∧ reachesObjectPrototype proto = true then
      if isObjectOrNull v then .obj v props hidden else o
    else .obj proto (props ++ [(k, v)]) hidden
  | _ => o

/-- Assignment `o[k] = v`, which throws on `undefined` and `null`. -/
def setProp (o : JsVal) (k : String) (v : JsVal) : Except JsVal JsVal :=
  match o with
  | .undefined =>
    .error (typeError ("Cannot set properties of undefined (setting \x27" ++ k ++ "\x27)"))
  | .null =>
    .error (typeError ("Cannot set properties of null (setting \x27" ++ k ++ "\x27)"))
  | _ => .ok (assign o k v)

/-- The statement `delete o[k]` on an ordinary object. -/
def deleteProp (o : JsVal) (k : String) : JsVal :=
  match o with
  | .obj proto props hidden =>
    .obj proto (props.filter (fun p => p.1 != k)) (hidden.filter (fun p => p.1 != k))
  | _ => o

/-- Decimal indices paired with the items of a list. -/
def indexed (items : List JsVal) : List (String × JsVal) :=
  (List.range items.length).zip items |>.map (fun p => (toString p.1, p.2))

/-- Enumerable own properties of a value, as object spread, rest
destructuring and `Object.keys` see them.  A string, whose own properties are
its code units, is never the mapping the source works on and is given none. -/
def ownEnumerable : JsVal → List (String × JsVal)
  | .obj _ props _ => props
  | .arr items => indexed items
  | _ => []

/-- The object spread `{ ...a, ...b }` for already extracted property lists. -/
def spreadProps (a b : List (String × JsVal)) : List (String × JsVal) :=
  b.foldl (fun acc p => defineBinding p.1 p.2 acc) a

/-- Whether `cls.prototype` is on the prototype chain of `v` (`v instanceof cls`). -/
def instanceOf : JsVal → Proto → Bool
  | .obj proto _ _, cls =>
    match proto with
    | .proto p => decide (cls ∈ p.chain)
    | other => instanceOf other cls
  | .proto p, cls => decide (cls ∈ p.chain.tail)
  | _, _ => false

/-! ## Strings -/

/-- Pieces of a character list between occurrences of `sep`. -/
def splitChars (sep : Char) : List Char → List (List Char)
  | [] => [[]]
  | c :: cs =>
    if c = sep then [] :: splitChars sep cs
    else match splitChars sep cs with
      | [] => [[c]]
      | piece :: pieces => (c :: piece) :: pieces

/-- The method `s.split(sep)` for a one-character separator. -/
def jsSplit (sep : Char) (s : String) : List String :=
  (splitChars sep s.toList).map String.mk

/-- The call `v.split(sep)`: defined on strings, a `TypeError` otherwise. -/
def callSplit (v : JsVal) (sep : Char) : Except JsVal (List JsVal) :=
  match v with
  | .str s => .ok ((jsSplit sep s).map JsVal.str)
  | .undefined => .error (typeError "Cannot read properties of undefined (reading \x27split\x27)")
  | .null => .error (typeError "Cannot read properties of null (reading \x27split\x27)")
  | _ => .error (typeError "split is not a function")

/-! ## The environment and effects -/

/-- Everything the repository calls but does not define.
* `objectToString`: the string an object converts to (its `toString` method);
* `base64Decode`: `Buffer.from(s, "base64").toString("utf8")`;
* `jsonParse`: `JSON.parse`, which throws on malformed text;
* `renderJson`: the text `JSON.stringify` writes for a document tree;
* `fetchJson`: `fetch(url, { method: "get" })` followed by `response.json()`;
* `jwkToPem`: the `jwk-to-pem` conversion of a key descriptor;
* `verify`: `jsonwebtoken.verify(token, key)`, promisified. -/
structure Env where
  objectToString : JsVal → String
  base64Decode : String → String
  jsonParse : String → Except JsVal JsVal
  renderJson : JsVal → String
  fetchJson : String → Except JsVal JsVal
  jwkToPem : JsVal → Except JsVal JsVal
  verify : JsVal → JsVal → Except JsVal JsVal

/-- Calls that leave the process. -/
inductive Call where
  | fetch (url : String)
  | verify (token : JsVal) (key : JsVal)
  deriving Repr

/-- Result of running effectful code: the outbound calls made, in order, and
the value returned or thrown. -/
structure Run (α : Type) where
  calls : List Call
  outcome : Except JsVal α

/-- A computation that makes no call. -/
def Run.lift {α : Type} (r : Except JsVal α) : Run α := ⟨[], r⟩

/-- A computation that makes one call, whose answer is `r`. -/
def Run.call {α : Type} (c : Call) (r : Except JsVal α) : Run α := ⟨[c], r⟩

/-- Sequencing: the second computation runs only if the first returned. -/
def Run.bind {α β : Type} (r : Run α) (f : α → Run β) : Run β :=
  match r.outcome with
  | .ok a => ⟨r.calls ++ (f a).calls, (f a).outcome⟩
  | .error e => ⟨r.calls, .error e⟩

instance : Monad Run where
  pure a := Run.lift (.ok a)
  bind := Run.bind

/-- The statement `try body catch (error) handler`, for a handler that makes
no call. -/
def Run.tryCatch {α : Type} (body : Run α) (handler : JsVal → Except JsVal α) : Run α :=
  match body.outcome with
  | .ok a => ⟨body.calls, .ok a⟩
  | .error e => ⟨body.calls, handler e⟩

/-- String conversion (`ToString`), as template literals and property keys
apply it. -/
def toStr (env : Env) : JsVal → String
  | .undefined => "undefined"
  | .null => "null"
  | .bool b => if b then "true" else "false"
  | .num n => toString n
  | .str s => s
  | v => env.objectToString v

mutual
/-- The document tree `JSON.stringify` writes for a value; `none` when the
value is left out (`undefined`, functions). -/
def toJson : JsVal → Option JsVal
  | .undefined => none
  | .null => some .null
  | .bool b => some (.bool b)
  | .num n => some (.num n)
  | .str s => some (.str s)
  | .arr items => some (.arr (toJsonItems items))
  | .obj _ props _ => some (.obj (.proto .object) (toJsonProps props) [])
  | .proto _ => some (.obj (.proto .object) [] [])
  | .builtin _ => none
/-- Array elements that are left out are written as `null`. -/
def toJsonItems : List JsVal → List JsVal
  | [] => []
  | x :: xs => ((toJson x).getD .null) :: toJsonItems xs
/-- Properties whose value is left out are dropped together with their key. -/
def toJsonProps : List (String × JsVal) → List (String × JsVal)
  | [] => []
  | (k, v) :: rest =>
    match toJson v with
    | some j => (k, j) :: toJsonProps rest
    | none => toJsonProps rest
end

/-- The call `JSON.stringify(v)`. -/
def jsonStringify (env : Env) (v : JsVal) : JsVal :=
  match toJson v with
  | some doc => .str (env.renderJson doc)
  | none => .undefined

/-! ## `auth-utils.js` -/

/-- `AuthError(code, message)`, lines 334-339. -/
def AuthError (code message : String) : JsVal :=
  let error := newError message
  let error := assign error "name" (.str "AuthError")
  let error := assign error "code" (.str ("auth/" ++ code))
  error

/-- The call `xs.reduce(f, init)`: a `TypeError` unless `xs` is an array. -/
def callReduce (xs : JsVal) (f : JsVal → JsVal → Except JsVal JsVal) (init : JsVal) :
    Except JsVal JsVal :=
  match xs with
  | .arr items => items.foldlM f init
  | .undefined => .error (typeError "Cannot read properties of undefined (reading \x27reduce\x27)")
  | .null => .error (typeError "Cannot read properties of null (reading \x27reduce\x27)")
  | _ => .error (typeError "reduce is not a function")

/-- `getPublicKeys(cognitoIssuer)`, lines 314-324. -/
def getPublicKeys (env : Env) (cognitoIssuer : JsVal) : Run JsVal := do
  let url := toStr env cognitoIssuer ++ "/.well-known/jwks.json"
  let publicKeys ← Run.call (.fetch url) (env.fetchJson url)
  Run.lift (do
    let keys ← getProp publicKeys "keys"
    callReduce keys (fun total currentValue => do
      let pem ← env.jwkToPem currentValue
      let kid ← getProp currentValue "kid"
      setProp total (toStr env kid) (objectLiteral [("instance", currentValue), ("pem", pem)]))
      (objectLiteral []))

/-- The call `Buffer.from(v, "base64").toString("utf8")`. -/
def bufferFromBase64 (env : Env) (v : JsVal) : Except JsVal String :=
  match v with
  | .str s => .ok (env.base64Decode s)
  | _ => .error (typeError "The first argument must be of type string")

/-- Body of the `try` block of `grantAPIAccess`, lines 18-36. -/
def grantAPIAccessTry (env : Env) (headers : JsVal) : Run JsVal := do
  let cognitoIssuer ← Run.lift (getProp headers "x-cognito-issuer")
  let authorization ← Run.lift (getProp headers "authorization")
  let parts ← Run.lift (callSplit authorization ' ')
  let token := parts.getD 1 .undefined
  let tokenSections ← Run.lift (callSplit (jsOr token (.str "")) '.')
  if tokenSections.length < 2 then
    Run.lift (.error (AuthError "invalid_token" "Requested token is incomplete"))
  else do
    let headerJSON ← Run.lift (bufferFromBase64 env (tokenSections.getD 0 .undefined))
    let header ← Run.lift (env.jsonParse headerJSON)
    let keys ← getPublicKeys env cognitoIssuer
    let kid ← Run.lift (getProp header "kid")
    let key ← Run.lift (getProp keys (toStr env kid))
    if isUndefined key then
      Run.lift (.error (AuthError "invalid_token" "Claims made for unknown kid"))
    else do
      let pem ← Run.lift (getProp key "pem")
      let claims ← Run.call (.verify token pem) (env.verify token pem)
      pure (objectLiteral [("claims", jsonStringify env claims)])

/-- The `catch` block of `grantAPIAccess`, lines 37-46. -/
def grantAPIAccessCatch (env : Env) (error : JsVal) : Except JsVal JsVal := do
  let name ← getProp error "name"
  let msg ← getProp error "message"
  let message := toStr env name ++ " - " ++ toStr env msg
  if isStr name "TokenExpiredError" then .error (AuthError "expired_token" message)
  else if isStr name "JsonWebTokenError" then .error (AuthError "invalid_token" message)
  else .error error

/-- `grantAPIAccess(headers)`, lines 16-47. -/
def grantAPIAccess (env : Env) (headers : JsVal) : Run JsVal :=
  Run.tryCatch (grantAPIAccessTry env headers) (grantAPIAccessCatch env)

/-- `generatePolicy(principalId, effect, resource = "*", context = {})`,
lines 58-80.  An argument that is omitted is `undefined`. -/
def generatePolicy (principalId effect resource context : JsVal) : JsVal :=
  let resource := if isUndefined resource then .str "*" else resource
  let context := if isUndefined context then objectLiteral [] else context
  let authResponse := objectLiteral [
    ("principalId", principalId),
    ("policyDocument", objectLiteral [
      ("Version", .str "2012-10-17"),
      ("Statement", .arr [objectLiteral [
        ("Action", .str "execute-api:Invoke"),
        ("Effect", effect),
        ("Resource", resource)]])]),
    ("context", context)]
  authResponse

/-! ## `lambda.js` -/

/-- The call `Object.keys(v)`: a `TypeError` on `undefined` and `null`. -/
def objectKeys (v : JsVal) : Except JsVal (List String) :=
  match v with
  | .undefined => .error (typeError "Cannot convert undefined or null to object")
  | .null => .error (typeError "Cannot convert undefined or null to object")
  | _ => .ok ((ownEnumerable v).map Prod.fst)

/-- The method `s.toLowerCase()`, modelled on ASCII letters: header names
are ASCII. -/
def toLowerCase (s : String) : String :=
  String.mk (s.toList.map Char.toLower)

/-- `parseEventHeaders(event)`, lines 252-259. -/
def parseEventHeaders (event : JsVal) : Except JsVal JsVal := do
  let headers ← getProp event "headers"
  let headersLowerCase := objectLiteral []
  let keys ← objectKeys headers
  keys.foldlM (fun headersLowerCase key =>
    setProp headersLowerCase (toLowerCase key) (getMember headers key)) headersLowerCase

/-- Status codes of the `http-status-codes` package that the source names. -/
def StatusCodes.OK : JsVal := .num 200
/-- Status 400. -/
def StatusCodes.BAD_REQUEST : JsVal := .num 400
/-- Status 403. -/
def StatusCodes.FORBIDDEN : JsVal := .num 403
/-- Status 404. -/
def StatusCodes.NOT_FOUND : JsVal := .num 404
/-- Status 406. -/
def StatusCodes.NOT_ACCEPTABLE : JsVal := .num 406
/-- Status 422. -/
def StatusCodes.UNPROCESSABLE_ENTITY : JsVal := .num 422
/-- Status 500. -/
def StatusCodes.INTERNAL_SERVER_ERROR : JsVal := .num 500

/-- Strict equality `a === b` when `b` is a number. -/
def isNum (v : JsVal) (n : Int) : Bool :=
  match v with
  | .num m => m == n
  | _ => false

/-- The assignment `o.inner.k = v` for a nested object. -/
def assignIn (o : JsVal) (inner k : String) (v : JsVal) : JsVal :=
  assign o inner (assign (getMember o inner) k v)

/-- Names that the destructuring pattern of `makeResponse` binds, and which
the rest element therefore leaves out. -/
def destructured : List String := ["error", "code", "data", "message"]

/-- First part of `makeResponse`, lines 19-95: the status code and the object
`{ ...rest, ...body }` that is handed to `JSON.stringify`.  The
destructuring throws on `undefined` and `null`. -/
def makeResponseParts (responseBody statusCode : JsVal) : Except JsVal (JsVal × JsVal) := do
  let statusCode := if isUndefined statusCode then StatusCodes.OK else statusCode
  let error ← getProp responseBody "error"
  let code ← getProp responseBody "code"
  let data ← getProp responseBody "data"
  let message ← getProp responseBody "message"
  let rest := objectLiteral
    (spreadProps [] ((ownEnumerable responseBody).filter (fun p => p.1 ∉ destructured)))
  let body := objectLiteral [
    ("data", .null),
    ("error", objectLiteral [("name", .str ""), ("message", .str ""), ("code", .str "")]),
    ("message", .str ""),
    ("status", .str "")]
  let responseStatusCode := statusCode
  if truthy error then
    let fresh := truthy statusCode && isNum statusCode 200
    let responseStatusCode :=
      if fresh then StatusCodes.INTERNAL_SERVER_ERROR else responseStatusCode
    let body := if fresh then assignIn body "error" "code" (.str "internal-server-error") else body
    let responseStatusCode :=
      if instanceOf error .paramMissingError then StatusCodes.UNPROCESSABLE_ENTITY
      else responseStatusCode
    let responseStatusCode :=
      if instanceOf error .fieldError then StatusCodes.UNPROCESSABLE_ENTITY
      else responseStatusCode
    let responseStatusCode :=
      if instanceOf error .notFoundError then StatusCodes.NOT_FOUND else responseStatusCode
    let responseStatusCode :=
      if instanceOf error .queryError then StatusCodes.UNPROCESSABLE_ENTITY
      else responseStatusCode
    let responseStatusCode :=
      if instanceOf error .notSupportedError then StatusCodes.NOT_ACCEPTABLE
      else responseStatusCode
    let responseStatusCode :=
      if instanceOf error .badRequestError then StatusCodes.BAD_REQUEST
      else responseStatusCode
    let responseStatusCode :=
      if isStr (getMember error "name") "UserNotFoundException" then StatusCodes.NOT_FOUND
      else responseStatusCode
    let responseStatusCode :=
      if isStr (getMember error "name") "ValidationError" then StatusCodes.BAD_REQUEST
      else responseStatusCode
    let conditional := isStr (getMember error "name") "ConditionalCheckFailedException"
    let responseStatusCode :=
      if conditional then StatusCodes.BAD_REQUEST else responseStatusCode
    let error :=
      if conditional then
        assign error "message"
          (.str "Condition request failed; This resource may not exist in the table")
      else error
    let responseStatusCode :=
      if isStr (getMember error "name") "AmbulanceRequestError" then StatusCodes.BAD_REQUEST
      else responseStatusCode
    let responseStatusCode :=
      if isStr (getMember error "name") "SubscriptionError" then StatusCodes.BAD_REQUEST
      else responseStatusCode
    let body := assign body "status" (.str "error")
    let body := assignIn body "error" "name" (getMember error "name")
    let body := assignIn body "error" "message" (jsOr (getMember error "message") (.str ""))
    let body := assignIn body "error" "code"
      (jsOr (getMember error "code") (jsOr code (.str "error")))
    let body := assign body "message" (jsOr (getMember error "message") (.str ""))
    let body := deleteProp body "data"
    pure (responseStatusCode,
      objectLiteral (spreadProps (spreadProps [] (ownEnumerable rest)) (ownEnumerable body)))
  else
    let body := assign body "status" (.str "success")
    let body := assign body "data" data
    let body := assign body "message" message
    let responseStatusCode := StatusCodes.OK
    let body := deleteProp body "error"
    pure (responseStatusCode,
      objectLiteral (spreadProps (spreadProps [] (ownEnumerable rest)) (ownEnumerable body)))

/-- The CORS headers every response carries, lines 98-103. -/
def corsHeaders : JsVal := objectLiteral [
  ("Access-Control-Allow-Headers",
    .str ("Origin, X-Requested-With, Content-Type, Authorization, Accept, " ++
      "x-www-form-urlencoded, X-Cognito-Issuer, X-API-Key")),
  ("Access-Control-Allow-Origin", .str "*"),
  ("Access-Control-Allow-Methods", .str "OPTIONS,POST,GET,PUT,DELETE")]

/-- `makeResponse(responseBody, statusCode = StatusCodes.OK)`, lines 18-107. -/
def makeResponse (env : Env) (responseBody statusCode : JsVal) : Except JsVal JsVal := do
  let parts ← makeResponseParts responseBody statusCode
  pure (objectLiteral [
    ("headers", corsHeaders),
    ("statusCode", parts.1),
    ("body", jsonStringify env parts.2)])

/-- The JSON document that `makeResponse` serializes into the `body` of its
response for the given arguments. -/
def serializedBody (responseBody statusCode : JsVal) : Option JsVal :=
  match makeResponseParts responseBody statusCode with
  | .ok parts => toJson parts.2
  | .error _ => none

/-- Value of the key `k` in a serialized document; `none` when the document
has no such key. -/
def docField (doc : Option JsVal) (k : String) : Option JsVal :=
  match doc with
  | some d => (ownEnumerable d).lookup k
  | none => none

/-- Whether a serialized document has the key `k`. -/
def docHasKey (doc : Option JsVal) (k : String) : Bool :=
  (docField doc k).isSome

/-! ## `handlers/middleWare/auth.js` -/

/-- What the authorizer handler did: the outbound calls, the invocations of
the gateway callback as pairs (error argument, result argument), and the
exception that escaped from the handler, if any. -/
structure HandlerRun where
  calls : List Call
  callbacks : List (JsVal × JsVal)
  escaped : Option JsVal

/-- The call `denyErrors.includes(code)` for an array of strings. -/
def includesStr (xs : List String) (v : JsVal) : Bool :=
  xs.any (fun x => isStr v x)

/-- The `try` block of `handler` up to the call of the callback, lines 16-17. -/
def handlerTry (env : Env) (event : JsVal) : Run JsVal := do
  let headers ← Run.lift (parseEventHeaders event)
  grantAPIAccess env headers

/-- `handler(event, context, callback)`, lines 13-31.  The callback belongs
to the gateway runtime and is taken not to throw; `logEvent` only writes to the
console. -/
def handler (env : Env) (event : JsVal) : HandlerRun :=
  let principalId := JsVal.str "client"
  let attempt := handlerTry env event
  match attempt.outcome with
  | .ok response =>
    ⟨attempt.calls,
     [(.null, generatePolicy principalId (.str "Allow") (.str "*") response)], none⟩
  | .error error =>
    let denyErrors := ["auth/invalid_token", "auth/expired_token"]
    match getProp error "code" with
    | .error raised => ⟨attempt.calls, [], some raised⟩
    | .ok code =>
      if includesStr denyErrors code then
        ⟨attempt.calls, [(.str "Unauthorized", .undefined)], none⟩
      else
        ⟨attempt.calls,
         [(.null, generatePolicy principalId (.str "Deny") .undefined .undefined)], none⟩

/-! ## A concrete environment

One issuer, `https://issuer.example`, publishes a single key `k1`.  Tokens
are written `header.payload.signature`; the library oracle classifies them by
their payload. -/

/-- An error object of an external library: an `Error` whose constructor set
its own `name`. -/
def libraryError (name message : String) : JsVal :=
  assign (newError message) "name" (.str name)

/-- Text of a token header that names key `k1`. -/
def headerTextK1 : String := "\x7b\"kid\":\"k1\"\x7d"

/-- Text of a token header that names key `constructor`. -/
def headerTextConstructor : String := "\x7b\"kid\":\"constructor\"\x7d"

/-- The sample environment. -/
def sampleEnv : Env where
  objectToString := fun _ => "[object Object]"
  base64Decode := fun s =>
    if s = "eyJraWQiOiJrMSJ9" then headerTextK1
    else if s = "eyJraWQiOiJjb25zdHJ1Y3RvciJ9" then headerTextConstructor
    else ""
  jsonParse := fun s =>
    if s = headerTextK1 then .ok (objectLiteral [("kid", .str "k1")])
    else if s = headerTextConstructor then .ok (objectLiteral [("kid", .str "constructor")])
    else .error (.obj (.proto .syntaxError) [] [("message", .str "Unexpected end of JSON input")])
  renderJson := fun doc =>
    match doc with
    | .obj _ [("sub", .str sub)] _ => "\x7b\"sub\":\"" ++ sub ++ "\"\x7d"
    | _ => "null"
  fetchJson := fun url =>
    if url = "https://issuer.example/.well-known/jwks.json" then
      .ok (objectLiteral [("keys", .arr [objectLiteral [("kid", .str "k1"), ("kty", .str "RSA")]])])
    else .error (libraryError "FetchError" "request failed")
  jwkToPem := fun _ => .ok (.str "-----BEGIN PUBLIC KEY-----")
  verify := fun token key =>
    if isUndefined key then
      .error (libraryError "JsonWebTokenError" "secret or public key must be provided")
    else if isStr token "eyJraWQiOiJrMSJ9.expired.sig" then
      .error (libraryError "TokenExpiredError" "jwt expired")
    else if isStr token "eyJraWQiOiJrMSJ9.early.sig" then
      .error (libraryError "NotBeforeError" "jwt not active")
    else if isStr token "eyJraWQiOiJrMSJ9.forged.sig" then
      .error (libraryError "JsonWebTokenError" "invalid signature")
    else .ok (objectLiteral [("sub", .str "u1")])

/-- The sample environment with another verification library. -/
def sampleEnvWith (verify : JsVal → JsVal → Except JsVal JsVal) : Env :=
  { sampleEnv with verify := verify }

/-- Lower-cased request headers carrying the given `authorization` value. -/
def sampleHeaders (authorization : String) : JsVal :=
  objectLiteral [("authorization", .str authorization),
    ("x-cognito-issuer", .str "https://issuer.example")]

/-- A gateway event whose headers carry the given `Authorization` value. -/
def sampleEvent (authorization : String) : JsVal :=
  objectLiteral [("headers", objectLiteral [("Authorization", .str authorization),
    ("X-Cognito-Issuer", .str "https://issuer.example")])]

/-- The key set the sample issuer resolves to. -/
def sampleKeys : JsVal :=
  objectLiteral [("k1", objectLiteral [
    ("instance", objectLiteral [("kid", .str "k1"), ("kty", .str "RSA")]),
    ("pem", .str "-----BEGIN PUBLIC KEY-----")])]

/-! ## `errors.js` and the classification of errors -/

/-- `new CustomError(name, message)` for the subclass whose prototype is
`cls`, `errors.js` lines 3-9: `super(name, message)` installs `name` as the
non-enumerable `message`, then `this.name` and `this.message` are assigned. -/
def newCustomError (cls : Proto) (name : String) (message : JsVal) : JsVal :=
  let self := JsVal.obj (.proto cls) [] [("message", .str name)]
  let self := assign self "name" (.str name)
  let self := assign self "message" message
  self

/-- `new ParamMissingError(params)`, `errors.js` lines 33-46, for a list of
parameter names. -/
def newParamMissingError (params : List String) : JsVal :=
  newCustomError .paramMissingError "ParamMissingError"
    (.str ("Please specify the following parameters in body: " ++ ", ".intercalate params))

/-- `new NotFoundError(message)`, `errors.js` lines 19-24. -/
def newNotFoundError (message : JsVal) : JsVal :=
  newCustomError .notFoundError "NotFoundError" message

/-- The tests `makeResponse` applies to a populated error, lines 35-79, in
the order of the source, each with the status code its branch assigns. -/
def statusRules : List ((JsVal → Bool) × JsVal) := [
  (fun error => instanceOf error .paramMissingError, StatusCodes.UNPROCESSABLE_ENTITY),
  (fun error => instanceOf error .fieldError, StatusCodes.UNPROCESSABLE_ENTITY),
  (fun error => instanceOf error .notFoundError, StatusCodes.NOT_FOUND),
  (fun error => instanceOf error .queryError, StatusCodes.UNPROCESSABLE_ENTITY),
  (fun error => instanceOf error .notSupportedError, StatusCodes.NOT_ACCEPTABLE),
  (fun error => instanceOf error .badRequestError, StatusCodes.BAD_REQUEST),
  (fun error => isStr (getMember error "name") "UserNotFoundException", StatusCodes.NOT_FOUND),
  (fun error => isStr (getMember error "name") "ValidationError", StatusCodes.BAD_REQUEST),
  (fun error => isStr (getMember error "name") "ConditionalCheckFailedException",
    StatusCodes.BAD_REQUEST),
  (fun error => isStr (getMember error "name") "AmbulanceRequestError", StatusCodes.BAD_REQUEST),
  (fun error => isStr (getMember error "name") "SubscriptionError", StatusCodes.BAD_REQUEST)]

/-- The tests that hold of an error, in the order of the source. -/
def matchingRules (error : JsVal) : List ((JsVal → Bool) × JsVal) :=
  statusRules.filter (fun rule => rule.1 error)

/-- The status code `makeResponse` starts from for a populated error, lines
18 and 27-33: the caller's status code, 200 when omitted, turned into 500 when
it is 200. -/
def unclassifiedStatus (statusCode : JsVal) : JsVal :=
  let statusCode := if isUndefined statusCode then StatusCodes.OK else statusCode
  if truthy statusCode && isNum statusCode 200 then StatusCodes.INTERNAL_SERVER_ERROR
  else statusCode

/-- The error object as `makeResponse` leaves it, lines 67-71: the message of
an error named `ConditionalCheckFailedException` is overwritten. -/
def rewrittenError (error : JsVal) : JsVal :=
  if isStr (getMember error "name") "ConditionalCheckFailedException" then
    assign error "message"
      (.str "Condition request failed; This resource may not exist in the table")
  else error

/-- Modelled from the spec: the priority order in which section 4.4 lists the
mapping from error classification to status ("missing/invalid field or query
error, 422; not-found, 404; bad request, malformed condition-check,
business-rule violation, 400; not-supported, 406; validation error (generic),
400"), of which the first match is said to win. -/
def specPriorityRules : List ((JsVal → Bool) × JsVal) := [
  (fun error => instanceOf error .paramMissingError, .num 422),
  (fun error => instanceOf error .fieldError, .num 422),
  (fun error => instanceOf error .queryError, .num 422),
  (fun error => instanceOf error .notFoundError, .num 404),
  (fun error => instanceOf error .badRequestError, .num 400),
  (fun error => isStr (getMember error "name") "ConditionalCheckFailedException", .num 400),
  (fun error => isStr (getMember error "name") "AmbulanceRequestError", .num 400),
  (fun error => isStr (getMember error "name") "SubscriptionError", .num 400),
  (fun error => instanceOf error .notSupportedError, .num 406),
  (fun error => isStr (getMember error "name") "ValidationError", .num 400)]

/-- Modelled from the spec: the status of the first rule, in the spec's
priority order, that an error matches. -/
def specFirstMatch (error : JsVal) : Option JsVal :=
  ((specPriorityRules.filter (fun rule => rule.1 error)).head?).map Prod.snd

/-! ## `auth-utils.js`: claims of an authorized request -/

/-- Strict equality `a === b`.  Objects are equal only to themselves; the
operands the source compares never are the same object, so two objects
compare unequal. -/
def strictEq : JsVal → JsVal → Bool
  | .undefined, .undefined => true
  | .null, .null => true
  | .bool a, .bool b => a == b
  | .num a, .num b => a == b
  | .str a, .str b => a == b
  | _, _ => false

/-- `getUserClaims(event)`, lines 87-96. -/
def getUserClaims (env : Env) (event : JsVal) : Except JsVal JsVal := do
  let requestContext ← getProp event "requestContext"
  let authorizer ← getProp requestContext "authorizer"
  if truthy authorizer && truthy (getMember authorizer "claims") then
    env.jsonParse (toStr env (getMember authorizer "claims"))
  else
    let e := newError "No claims found in request"
    let e := assign e "code" (.str "authorizer_error")
    .error e

/-- `getUserID(event)`, lines 102-105. -/
def getUserID (env : Env) (event : JsVal) : Except JsVal JsVal := do
  let claims ← getUserClaims env event
  let sub ← getProp claims "sub"
  pure sub

/-- `isUserAllowed(event, userId)`, lines 113-123. -/
def isUserAllowed (env : Env) (event userId : JsVal) : Except JsVal JsVal := do
  let claims ← getUserClaims env event
  let sub ← getProp claims "sub"
  if strictEq sub userId then pure (.bool true)
  else
    let error := AuthError "not_allowed"
      ("User " ++ toStr env userId ++
        " is not the same as user who has a claim to this resource: " ++ toStr env sub)
    makeResponse env (objectLiteral [("error", error)]) StatusCodes.FORBIDDEN

/-- An instance of `ParamMissingError` whose `name` was set to
"ValidationError": it satisfies two tests of `makeResponse`. -/
def twoRuleError : JsVal :=
  assign (newParamMissingError ["email"]) "name" (.str "ValidationError")

/-- Text of the serialized claims of user `u1`. -/
def sampleClaimsText : String := "\x7b\"sub\":\"u1\"\x7d"

/-- The sample environment, whose `JSON.parse` also reads the sample claims. -/
def claimsEnv : Env :=
  { sampleEnv with
    jsonParse := fun s =>
      if s = sampleClaimsText then .ok (objectLiteral [("sub", .str "u1")])
      else sampleEnv.jsonParse s }

/-- An event of an authorized request: the gateway attached the verification
context with the given serialized claims. -/
def authorizedEvent (claims : JsVal) : JsVal :=
  objectLiteral [("requestContext", objectLiteral [
    ("authorizer", objectLiteral [("claims", claims)])])]

/-! ## `auth-utils.js`: the user directory -/

/-- The Cognito client, which the repository only calls.
* `adminGetUser params`: the answer of `cognito.adminGetUser(params).promise()`;
* `listUsers n params`: the answer of `cognito.listUsers(params).promise()` to
  the call that `n` earlier `listUsers` calls of the same run preceded; a
  directory may answer the same request differently each time. -/
structure Cognito where
  adminGetUser : JsVal → Except JsVal JsVal
  listUsers : Nat → JsVal → Except JsVal JsVal

/-- `_parseUserAttributes(Attributes)`, lines 364-369. -/
def parseUserAttributes (env : Env) (Attributes : JsVal) : Except JsVal JsVal :=
  callReduce Attributes (fun acc item => do
    let name ← getProp item "Name"
    let value ← getProp item "Value"
    setProp acc (toStr env name) value) (objectLiteral [])

/-- `parseUser(User)`, lines 345-358. -/
def parseUser (env : Env) (User : JsVal) : Except JsVal JsVal := do
  let userAttributes ← getProp User "UserAttributes"
  let userAttributes ← if truthy userAttributes then pure userAttributes
    else getProp User "Attributes"
  let attributes ← parseUserAttributes env userAttributes
  pure (objectLiteral [
    ("id", ← getProp attributes "sub"),
    ("username", ← getProp User "Username"),
    ("attributes", attributes),
    ("status", ← getProp User "UserStatus"),
    ("enabled", ← getProp User "Enabled"),
    ("created_at", ← getProp User "UserCreateDate"),
    ("updated_at", ← getProp User "UserLastModifiedDate")])

/-- `cognitoAdminGetUser(options, poolId)`, lines 173-218, where the first
parameter is destructured for `userId`. -/
def cognitoAdminGetUser (env : Env) (cognito : Cognito) (options poolId : JsVal) :
    Except JsVal JsVal := do
  let userId ← getProp options "userId"
  let user ← cognito.adminGetUser
    (objectLiteral [("UserPoolId", poolId), ("Username", userId)])
  let status ← getProp user "UserStatus"
  if isStr status "UNCONFIRMED" then
    .error (AuthError "unconfirmed_user" "User has been created but not confirmed")
  else if isStr status "ARCHIVED" then
    .error (AuthError "archived_user" "User is no longer active")
  else if isStr status "COMPROMISED" then
    .error (AuthError "compromised_user" "User is disabled due to a potential security threat.")
  else if isStr status "UNKNOWN" then
    .error (AuthError "unknown_user" "User status is unknown")
  else if isStr status "RESET_REQUIRED" then
    .error (AuthError "reset_required_user"
      ("User is confirmed, but the user must request a code and reset his or her password " ++
        "before he or she can sign in"))
  else if isStr status "FORCE_CHANGE_PASSWORD" then
    .error (AuthError "force_change_password"
      ("The user is confirmed and the user can sign in using a temporary password, but on " ++
        "first sign-in, the user must change his or her password to a new value before " ++
        "doing anything else"))
  else if isStr status "CONFIRMED" then parseUser env user
  else .error (AuthError "unknown_user" "User status is unknown")

/-- The array spread `[...v]`: the elements of an array, a `TypeError` for a
value that is not iterable. -/
def spreadArray (v : JsVal) : Except JsVal (List JsVal) :=
  match v with
  | .arr items => .ok items
  | _ => .error (typeError "Spread syntax requires ...iterable[Symbol.iterator] to be a function")

/-- What a listing did: the `listUsers` requests it sent, in order, and what
it returned or threw; `none` while its loop is still running. -/
structure ListRun where
  requests : List JsVal
  outcome : Option (Except JsVal JsVal)

/-- The last statements of `cognitoAdminListUsers`, lines 295-296. -/
def parseUsers (env : Env) (users : List JsVal) : Except JsVal JsVal := do
  let parsed ← users.mapM (parseUser env)
  pure (.arr parsed)

/-- The `while` loop of `cognitoAdminListUsers`, lines 278-292, run for at
most `fuel` iterations after the requests `requests` were sent; the loop ends
through `break` once `n` is set to 2, or by an exception. -/
def listUsersLoop (env : Env) (cognito : Cognito) (poolId pagToken : JsVal) :
    Nat → List JsVal → List JsVal → ListRun
  | 0, requests, _ => ⟨requests, none⟩
  | fuel + 1, requests, users =>
    let request := objectLiteral [("UserPoolId", poolId), ("PaginationToken", pagToken)]
    let step : Except JsVal (List JsVal × Bool) := do
      let newUsers ← cognito.listUsers requests.length request
      let page ← getProp newUsers "Users"
      let items ← spreadArray page
      let users := users ++ items
      let length ← getProp page "length"
      pure (users, match length with | .num n => decide (n < 60) | _ => false)
    match step with
    | .error e => ⟨requests ++ [request], some (.error e)⟩
    | .ok (users, true) => ⟨requests ++ [request], some (parseUsers env users)⟩
    | .ok (users, false) =>
      listUsersLoop env cognito poolId pagToken fuel (requests ++ [request]) users

/-- `cognitoAdminListUsers(poolId)`, lines 261-297, with the loop run for at
most `fuel` iterations. -/
def cognitoAdminListUsers (env : Env) (cognito : Cognito) (poolId : JsVal) (fuel : Nat) :
    ListRun :=
  let request := objectLiteral [("UserPoolId", poolId)]
  let first : Except JsVal (List JsVal × JsVal × Bool) := do
    let cognitoUsers ← cognito.listUsers 0 request
    let page ← getProp cognitoUsers "Users"
    let users ← spreadArray page
    let pagToken ← getProp cognitoUsers "PaginationToken"
    let length ← getProp page "length"
    pure (users, pagToken, isNum length 60)
  match first with
  | .error e => ⟨[request], some (.error e)⟩
  | .ok (users, pagToken, true) => listUsersLoop env cognito poolId pagToken fuel [request] users
  | .ok (users, _, false) => ⟨[request], some (parseUsers env users)⟩

/-- A user record of the directory with the given user name, `sub` attribute
and status. -/
def directoryUser (username sub status : String) : JsVal :=
  objectLiteral [
    ("Username", .str username),
    ("Attributes", .arr [
      objectLiteral [("Name", .str "sub"), ("Value", .str sub)],
      objectLiteral [("Name", .str "email"), ("Value", .str (username ++ "@example.org"))]]),
    ("UserStatus", .str status),
    ("Enabled", .bool true),
    ("UserCreateDate", .str "2021-03-01T10:00:00.000Z"),
    ("UserLastModifiedDate", .str "2021-03-02T10:00:00.000Z")]

/-- The `n`-th listed user of a large pool. -/
def listedUser (n : Nat) : JsVal :=
  directoryUser ("user" ++ toString n) ("sub-" ++ toString n) "CONFIRMED"

/-- The `k`-th full page of a large pool: 60 user records. -/
def fullPage (k : Nat) : List JsVal :=
  (List.range 60).map (fun i => listedUser (60 * k + i))

/-- The answer of a paged directory for page `i`: the records of the page
and, when a page follows, the continuation token that requests it. -/
def pageResponse (pages : List (List JsVal)) (i : Nat) : JsVal :=
  objectLiteral ([("Users", .arr (pages.getD i []))] ++
    (if i + 1 < pages.length then [("PaginationToken", .num (i + 1))] else []))

/-- A directory that serves its listing in the given pages: the first page to
a request without continuation token, page `i` to the token returned with
page `i - 1`.  Its single-user lookup knows the user `u1`. -/
def pagedDirectory (pages : List (List JsVal)) : Cognito where
  adminGetUser := fun _ => .ok (directoryUser "u1" "sub-u1" "CONFIRMED")
  listUsers := fun _ request =>
    match getMember request "PaginationToken" with
    | .num i => .ok (pageResponse pages i.toNat)
    | _ => .ok (pageResponse pages 0)

/-- A pool of 121 users: two full pages and a last page of one record. -/
def threePages : List (List JsVal) := [fullPage 0, fullPage 1, [listedUser 120]]

/-- A directory that answers every listing request with a full page and a
continuation token. -/
def endlessDirectory : Cognito where
  adminGetUser := fun _ => .ok (directoryUser "u1" "sub-u1" "CONFIRMED")
  listUsers := fun n _ =>
    .ok (objectLiteral [("Users", .arr (fullPage n)), ("PaginationToken", .num (n + 1))])

/-- A directory whose lookup finds a user with the given status. -/
def statusDirectory (status : String) : Cognito where
  adminGetUser := fun _ => .ok (directoryUser "u1" "sub-u1" status)
  listUsers := fun _ _ => .ok (objectLiteral [("Users", .arr [])])

/-- The request a listing sends as its `i`-th: the first names the pool only,
every later one carries the continuation token `pagToken`. -/
def listRequest (poolId pagToken : JsVal) (i : Nat) : JsVal :=
  if i = 0 then objectLiteral [("UserPoolId", poolId)]
  else objectLiteral [("UserPoolId", poolId), ("PaginationToken", pagToken)]

/-- A pool of 61 users: one full page and a last page of one record. -/
def twoPages : List (List JsVal) := [fullPage 0, [listedUser 60]]

/-! ## `lambda.js`: fields of a request body -/

/-- Names a `for (attr in value)` loop visits: the enumerable own properties,
then the names inherited along the prototype chain that no own property,
enumerable or not, shadows.  The pre-existing prototypes have no enumerable
property. -/
def forInKeys : JsVal → List String
  | .obj proto props hidden =>
    props.map Prod.fst ++
      (forInKeys proto).filter (fun k => !(hasBinding k props) && !(hasBinding k hidden))
  | .arr items => (indexed items).map Prod.fst
  | _ => []

/-- Characters the regular expression class `\s` matches. -/
def isSpaceChar (c : Char) : Bool :=
  c.val.toNat ∈ [0x09, 0x0a, 0x0b, 0x0c, 0x0d, 0x20, 0xa0, 0x1680, 0x2028, 0x2029, 0x202f,
    0x205f, 0x3000, 0xfeff] || (0x2000 ≤ c.val.toNat && c.val.toNat ≤ 0x200a)

/-- The library call `validate.isEmpty(value)` of the package `validate.js`:
`undefined` and `null` are empty, functions are not, a string is empty when
it holds only white space, an array when it has no element, any other object
when a `for`-`in` loop finds no property; numbers and booleans are not
empty. -/
def isEmpty : JsVal → Bool
  | .undefined => true
  | .null => true
  | .builtin _ => false
  | .str s => s.toList.all isSpaceChar
  | .arr items => items.isEmpty
  | .obj proto props hidden => (forInKeys (.obj proto props hidden)).isEmpty
  | .proto _ => true
  | .bool _ => false
  | .num _ => false

/-- The error `e` of `const e = new Error(message); e.name = "ValidationError"`. -/
def newValidationError (message : String) : JsVal :=
  let e := newError message
  let e := assign e "name" (.str "ValidationError")
  e

/-- `checkRequiredValues(required, reqBody)`, lines 128-144, for a list of
field names. -/
def checkRequiredValues (required : List String) (reqBody : JsVal) : Except JsVal JsVal := do
  if isEmpty reqBody then
    throw (newValidationError "Body is empty")
  let keys ← objectKeys reqBody
  let params := keys.filter (fun param => !(isStr (getMember reqBody param) ""))
  let missing := required.filter (fun value => !(params.contains value))
  if missing.length ≠ 0 then
    throw (newParamMissingError missing)
  pure reqBody

/-- Modelled from the claim: the required fields that are not a key of the
body or have the empty string as value, in the order of `required`. -/
def specMissingFields (required : List String) (reqBody : JsVal) : List String :=
  required.filter (fun field =>
    decide (field ∉ (ownEnumerable reqBody).map Prod.fst) || isStr (getMember reqBody field) "")

/-- `getUpdateableFields(updateables, reqBody)`, lines 151-166, for a list of
field names.  The source reads `reqBody` and assigns only to `newReqBody`. -/
def getUpdateableFields (updateables : List String) (reqBody : JsVal) :
    Except JsVal JsVal := do
  if isEmpty reqBody then
    throw (newValidationError "Body is empty, no field(s) to update")
  let newReqBody := objectLiteral []
  let bodyObjKeys ← objectKeys reqBody
  updateables.foldlM (fun newReqBody key =>
    if bodyObjKeys.contains key then setProp newReqBody key (getMember reqBody key)
    else pure newReqBody) newReqBody

/-! ## `utils/index.js`: identifiers -/

/-- The sixteen hexadecimal digits, in lower case. -/
def hexDigits : List Char :=
  ['0', '1', '2', '3', '4', '5', '6', '7', '8', '9', 'a', 'b', 'c', 'd', 'e', 'f']

/-- The two hexadecimal digits of a byte. -/
def hexOfByte (b : Nat) : List Char :=
  [hexDigits.getD (b / 16 % 16) '0', hexDigits.getD (b % 16) '0']

/-- The call `crypto.randomBytes(size)`: the first `size` bytes the source of
randomness `source` delivers.  Sizes beyond the buffer limit of the platform,
on which the call throws, are not told apart. -/
def randomBytes (source : Nat → Nat) (size : Nat) : List Nat :=
  (List.range size).map (fun i => source i % 256)

/-- The call `buffer.toString("hex")`. -/
def bufferToHex (bytes : List Nat) : String :=
  String.mk (bytes.map hexOfByte).flatten

/-- `generateID(length = 16)` of `utils/index.js`, lines 9-11; `none` is the
omitted argument. -/
def generateID (source : Nat → Nat) (length : Option Nat) : String :=
  bufferToHex (randomBytes source (length.getD 16))

/-- `generateKeyID()` of `services/dynamodb/index.js`, line 38. -/
def generateKeyID (source : Nat → Nat) : String :=
  "cas-" ++ generateID source none

/-! ## Sample requests -/

/-- An issuer whose published key list has one descriptor, with key id
`__proto__`. -/
def protoKidEnv : Env :=
  { sampleEnv with
    fetchJson := fun _ =>
      .ok (objectLiteral [("keys", .arr [objectLiteral [("kid", .str "__proto__"),
        ("kty", .str "RSA")]])]) }

/-- An issuer whose published key list names `k1` twice and `k2` once. -/
def threeKeyEnv : Env :=
  { sampleEnv with
    fetchJson := fun _ =>
      .ok (objectLiteral [("keys", .arr [
        objectLiteral [("kid", .str "k1"), ("n", .str "first")],
        objectLiteral [("kid", .str "k2"), ("n", .str "second")],
        objectLiteral [("kid", .str "k1"), ("n", .str "third")]])])
    jwkToPem := fun jwk => .ok (.str ("PEM " ++ toStr sampleEnv (getMember jwk "n"))) }

/-- A request body as `JSON.parse` builds it from a text with the key
`__proto__`: the key is an own property. -/
def protoBody : JsVal :=
  objectLiteral [("__proto__", objectLiteral [("role", .str "admin")]), ("name", .str "n")]

/-- An event with a header named `__proto__` next to `Accept`. -/
def protoHeaderEvent : JsVal :=
  objectLiteral [("headers", objectLiteral [("__proto__", .str "x"), ("Accept", .str "a")])]

/-! ## Strings: segments of a token -/

theorem splitChars_length (sep : Char) (cs : List Char) :
    (splitChars sep cs).length = cs.count sep + 1 := by
  induction cs with
  | nil => simp [splitChars]
  | cons c cs ih =>
    by_cases h : c = sep
    · subst h
      simp [splitChars, ih]
    · have hne : (c == sep) = false := by simpa using h
      simp only [splitChars, if_neg h, List.count_cons, hne]
      cases hs : splitChars sep cs with
      | nil => rw [hs] at ih; simp at ih
      | cons p ps => rw [hs] at ih; simpa using ih

theorem jsSplit_length_lt_two (sep : Char) (s : String) :
    (jsSplit sep s).length < 2 ↔ sep ∉ s.toList := by
  simp only [jsSplit, List.length_map, splitChars_length]
  rw [← List.count_eq_zero]
  omega

theorem bearer_or_empty (parts : List String) :
    jsOr ((parts.map JsVal.str).getD 1 .undefined) (.str "") = .str (parts.getD 1 "") := by
  match parts with
  | [] => rfl
  | [_] => rfl
  | _ :: t :: _ =>
    by_cases h : t = ""
    · subst h; rfl
    · simp [jsOr, truthy, h]

theorem jsOr_str_empty (s : String) : jsOr (.str s) (.str "") = .str s := by
  by_cases h : s = ""
  · subst h; rfl
  · simp [jsOr, truthy, h]

theorem second_piece (parts : List String)
    (h : 2 ≤ (jsSplit '.' (parts.getD 1 "")).length) :
    (parts.map JsVal.str).getD 1 .undefined = .str (parts.getD 1 "") := by
  match parts, h with
  | [], h => exact absurd (show 2 ≤ (jsSplit '.' "").length from h) (by decide)
  | [_], h => exact absurd (show 2 ≤ (jsSplit '.' "").length from h) (by decide)
  | _ :: _ :: _, _ => rfl

theorem first_section (sections : List String) (h : 2 ≤ sections.length) :
    (sections.map JsVal.str).getD 0 .undefined = .str (sections.getD 0 "") := by
  match sections, h with
  | _ :: _, _ => rfl

/-! ## Sequencing of effects -/

theorem Run.bind_lift_ok {α β : Type} (a : α) (f : α → Run β) :
    (Run.lift (.ok a) >>= f) = f a := by
  show Run.bind _ _ = _
  simp [Run.bind, Run.lift]

theorem Run.bind_lift_error {α β : Type} (e : JsVal) (f : α → Run β) :
    (Run.lift (.error e : Except JsVal α) >>= f) = Run.lift (.error e) := by
  show Run.bind _ _ = _
  simp [Run.bind, Run.lift]

theorem Run.bind_of_ok {α β : Type} (r : Run α) (a : α) (f : α → Run β)
    (h : r.outcome = .ok a) :
    (r >>= f) = ⟨r.calls ++ (f a).calls, (f a).outcome⟩ := by
  show Run.bind _ _ = _
  simp [Run.bind, h]

theorem Run.bind_of_error {α β : Type} (r : Run α) (e : JsVal) (f : α → Run β)
    (h : r.outcome = .error e) :
    (r >>= f) = ⟨r.calls, .error e⟩ := by
  show Run.bind _ _ = _
  simp [Run.bind, h]

theorem Run.bind_outcome_ok {α β : Type} (r : Run α) (f : α → Run β) (b : β)
    (h : (r >>= f).outcome = .ok b) :
    ∃ a, r.outcome = .ok a ∧ (f a).outcome = .ok b := by
  cases hr : r.outcome with
  | ok a =>
    rw [Run.bind_of_ok r a f hr] at h
    exact ⟨a, rfl, h⟩
  | error e =>
    rw [Run.bind_of_error r e f hr] at h
    cases h

theorem getProp_defined (v : JsVal) (k : String) (h1 : v ≠ .undefined) (h2 : v ≠ .null) :
    getProp v k = .ok (getMember v k) := by
  cases v <;> first | rfl | exact absurd rfl h1 | exact absurd rfl h2

theorem getProp_ok_defined (v x : JsVal) (k : String) (h : getProp v k = .ok x) :
    v ≠ .undefined ∧ v ≠ .null := by
  cases v <;> simp [getProp] at h ⊢

theorem getProp_ok_all (v x : JsVal) (k k2 : String) (h : getProp v k = .ok x) :
    getProp v k2 = .ok (getMember v k2) :=
  getProp_defined v k2 (getProp_ok_defined v x k h).1 (getProp_ok_defined v x k h).2

/-! ## Token verification -/

theorem getPublicKeys_calls (env : Env) (cognitoIssuer : JsVal) :
    (getPublicKeys env cognitoIssuer).calls =
      [.fetch (toStr env cognitoIssuer ++ "/.well-known/jwks.json")] := by
  simp only [getPublicKeys, bind, Run.bind, Run.call, Run.lift]
  split <;> simp

theorem grantAPIAccessTry_reaches_verify (env : Env)
    (headers cognitoIssuer header keys kid key pem : JsVal) (authorization : String)
    (hIss : getProp headers "x-cognito-issuer" = .ok cognitoIssuer)
    (hAuth : getProp headers "authorization" = .ok (.str authorization))
    (hSeg : 2 ≤ (jsSplit '.' ((jsSplit ' ' authorization).getD 1 "")).length)
    (hHdr : env.jsonParse (env.base64Decode
      ((jsSplit '.' ((jsSplit ' ' authorization).getD 1 "")).getD 0 "")) = .ok header)
    (hKeys : (getPublicKeys env cognitoIssuer).outcome = .ok keys)
    (hKid : getProp header "kid" = .ok kid)
    (hKey : getProp keys (toStr env kid) = .ok key)
    (hDef : isUndefined key = false)
    (hPem : getProp key "pem" = .ok pem) :
    grantAPIAccessTry env headers =
      ⟨[.fetch (toStr env cognitoIssuer ++ "/.well-known/jwks.json"),
        .verify (.str ((jsSplit ' ' authorization).getD 1 "")) pem],
       match env.verify (.str ((jsSplit ' ' authorization).getD 1 "")) pem with
       | .ok claims => .ok (objectLiteral [("claims", jsonStringify env claims)])
       | .error e => .error e⟩ := by
  have h2 := second_piece _ hSeg
  have h0 := first_section _ hSeg
  have hlen : ¬ (jsSplit '.' ((jsSplit ' ' authorization).getD 1 "")).length < 2 := by omega
  have hcalls := getPublicKeys_calls env cognitoIssuer
  unfold grantAPIAccessTry
  simp only [hIss, hAuth, Run.bind_lift_ok, callSplit, bearer_or_empty, jsOr_str_empty,
    List.length_map, hlen, if_false, h0, h2, bufferFromBase64, hHdr,
    Run.bind_of_ok _ _ _ hKeys, hKid, hKey, hDef, hPem, hcalls, Bool.false_eq_true]
  cases hv : env.verify (JsVal.str ((jsSplit ' ' authorization).getD 1 "")) pem with
  | ok claims =>
    show (⟨_, _⟩ : Run JsVal) = _
    simp [Run.call, Run.lift, pure, bind, Run.bind, hv]
  | error e =>
    simp [Run.call, Run.lift, pure, bind, Run.bind, hv]


theorem catch_authError (env : Env) (code message : String) :
    grantAPIAccessCatch env (AuthError code message) = .error (AuthError code message) := by
  rfl

/-- C1: when the `authorization` header is a string whose bearer token (the
second space-separated piece, empty when absent) has fewer than two
dot-separated segments, which is the same as containing no dot,
`grantAPIAccess` makes no outbound call (no key resolution, no signature
verification) and throws the `AuthError` with code `auth/invalid_token` and
message "Requested token is incomplete". -/
theorem grantAPIAccess_incomplete_token (env : Env) (proto : JsVal)
    (props hidden : List (String × JsVal)) (authorization : String)
    (hAuth : getMember (.obj proto props hidden) "authorization" = .str authorization)
    (hSeg : (jsSplit '.' ((jsSplit ' ' authorization).getD 1 "")).length < 2) :
    ((jsSplit '.' ((jsSplit ' ' authorization).getD 1 "")).length < 2 ↔
        '.' ∉ ((jsSplit ' ' authorization).getD 1 "").toList) ∧
    grantAPIAccess env (.obj proto props hidden) =
        ⟨[], .error (AuthError "invalid_token" "Requested token is incomplete")⟩ ∧
    getMember (AuthError "invalid_token" "Requested token is incomplete") "name" =
        .str "AuthError" ∧
    getMember (AuthError "invalid_token" "Requested token is incomplete") "code" =
        .str "auth/invalid_token" ∧
    getMember (AuthError "invalid_token" "Requested token is incomplete") "message" =
        .str "Requested token is incomplete" := by
  refine ⟨jsSplit_length_lt_two _ _, ?_, rfl, rfl, rfl⟩
  simp only [grantAPIAccess, grantAPIAccessTry, Run.tryCatch, bind, Run.bind, Run.lift, getProp,
    hAuth, callSplit, bearer_or_empty, List.length_map, hSeg, if_true, List.nil_append,
    catch_authError]

theorem grantAPIAccess_incomplete_token_witness :
    getMember (sampleHeaders "Bearer abc") "authorization" = .str "Bearer abc" ∧
    (jsSplit '.' ((jsSplit ' ' "Bearer abc").getD 1 "")).length < 2 ∧
    grantAPIAccess sampleEnv (sampleHeaders "Bearer abc") =
      ⟨[], .error (AuthError "invalid_token" "Requested token is incomplete")⟩ :=
  ⟨rfl, by decide,
   (grantAPIAccess_incomplete_token sampleEnv (.proto .object)
      [("authorization", .str "Bearer abc"), ("x-cognito-issuer", .str "https://issuer.example")]
      [] "Bearer abc" rfl (by decide)).2.1⟩

/-- C3: a token that passes the segment and kid checks and whose verification
fails with an error named `TokenExpiredError` makes `grantAPIAccess` throw
the `AuthError` with code `auth/expired_token`, which is not
`auth/invalid_token`. -/
theorem grantAPIAccess_expired_token (env : Env)
    (headers cognitoIssuer header keys kid key pem e : JsVal) (authorization : String)
    (hIss : getProp headers "x-cognito-issuer" = .ok cognitoIssuer)
    (hAuth : getProp headers "authorization" = .ok (.str authorization))
    (hSeg : 2 ≤ (jsSplit '.' ((jsSplit ' ' authorization).getD 1 "")).length)
    (hHdr : env.jsonParse (env.base64Decode
      ((jsSplit '.' ((jsSplit ' ' authorization).getD 1 "")).getD 0 "")) = .ok header)
    (hKeys : (getPublicKeys env cognitoIssuer).outcome = .ok keys)
    (hKid : getProp header "kid" = .ok kid)
    (hKey : getProp keys (toStr env kid) = .ok key)
    (hDef : isUndefined key = false)
    (hPem : getProp key "pem" = .ok pem)
    (hVerify : env.verify (.str ((jsSplit ' ' authorization).getD 1 "")) pem = .error e)
    (hName : getProp e "name" = .ok (.str "TokenExpiredError")) :
    grantAPIAccess env headers =
      ⟨[.fetch (toStr env cognitoIssuer ++ "/.well-known/jwks.json"),
        .verify (.str ((jsSplit ' ' authorization).getD 1 "")) pem],
       .error (AuthError "expired_token"
         ("TokenExpiredError - " ++ toStr env (getMember e "message")))⟩ ∧
    getMember (AuthError "expired_token"
        ("TokenExpiredError - " ++ toStr env (getMember e "message"))) "code" =
      .str "auth/expired_token" ∧
    getMember (AuthError "expired_token"
        ("TokenExpiredError - " ++ toStr env (getMember e "message"))) "code" ≠
      .str "auth/invalid_token" := by
  have hMsg := getProp_ok_all e _ "name" "message" hName
  have hcode : getMember (AuthError "expired_token"
      ("TokenExpiredError - " ++ toStr env (getMember e "message"))) "code" =
      .str "auth/expired_token" := rfl
  refine ⟨?_, hcode, ?_⟩
  · rw [grantAPIAccess, grantAPIAccessTry_reaches_verify env headers cognitoIssuer header keys
      kid key pem authorization hIss hAuth hSeg hHdr hKeys hKid hKey hDef hPem, hVerify]
    simp [Run.tryCatch, grantAPIAccessCatch, hName, hMsg, bind, Except.bind, isStr, toStr]
  · rw [hcode]
    intro h
    injection h with h
    exact absurd h (by decide)

theorem grantAPIAccess_expired_token_witness :
    getProp (sampleHeaders "Bearer eyJraWQiOiJrMSJ9.expired.sig") "x-cognito-issuer" =
      .ok (.str "https://issuer.example") ∧
    getProp (sampleHeaders "Bearer eyJraWQiOiJrMSJ9.expired.sig") "authorization" =
      .ok (.str "Bearer eyJraWQiOiJrMSJ9.expired.sig") ∧
    2 ≤ (jsSplit '.' ((jsSplit ' ' "Bearer eyJraWQiOiJrMSJ9.expired.sig").getD 1 "")).length ∧
    (getPublicKeys sampleEnv (.str "https://issuer.example")).outcome = .ok sampleKeys ∧
    getProp sampleKeys "k1" = .ok (objectLiteral [
      ("instance", objectLiteral [("kid", .str "k1"), ("kty", .str "RSA")]),
      ("pem", .str "-----BEGIN PUBLIC KEY-----")]) ∧
    sampleEnv.verify (.str "eyJraWQiOiJrMSJ9.expired.sig") (.str "-----BEGIN PUBLIC KEY-----") =
      .error (libraryError "TokenExpiredError" "jwt expired") ∧
    grantAPIAccess sampleEnv (sampleHeaders "Bearer eyJraWQiOiJrMSJ9.expired.sig") =
      ⟨[.fetch "https://issuer.example/.well-known/jwks.json",
        .verify (.str "eyJraWQiOiJrMSJ9.expired.sig") (.str "-----BEGIN PUBLIC KEY-----")],
       .error (AuthError "expired_token" "TokenExpiredError - jwt expired")⟩ :=
  ⟨rfl, rfl, by decide, rfl, rfl, rfl,
   (grantAPIAccess_expired_token sampleEnv
      (sampleHeaders "Bearer eyJraWQiOiJrMSJ9.expired.sig") (.str "https://issuer.example")
      (objectLiteral [("kid", .str "k1")]) sampleKeys (.str "k1")
      (objectLiteral [
        ("instance", objectLiteral [("kid", .str "k1"), ("kty", .str "RSA")]),
        ("pem", .str "-----BEGIN PUBLIC KEY-----")])
      (.str "-----BEGIN PUBLIC KEY-----") (libraryError "TokenExpiredError" "jwt expired")
      "Bearer eyJraWQiOiJrMSJ9.expired.sig" rfl rfl (by decide) rfl rfl rfl rfl rfl rfl rfl
      rfl).1⟩

/-- C4, as stated, fails: a token that passes the segment and kid checks and
whose verification fails with the library error named `NotBeforeError` makes
`grantAPIAccess` rethrow that error unchanged; its `code` is `undefined`, not
`auth/invalid_token`. -/
theorem grantAPIAccess_notBefore_rethrown :
    sampleEnv.verify (.str "eyJraWQiOiJrMSJ9.early.sig") (.str "-----BEGIN PUBLIC KEY-----") =
      .error (libraryError "NotBeforeError" "jwt not active") ∧
    grantAPIAccess sampleEnv (sampleHeaders "Bearer eyJraWQiOiJrMSJ9.early.sig") =
      ⟨[.fetch "https://issuer.example/.well-known/jwks.json",
        .verify (.str "eyJraWQiOiJrMSJ9.early.sig") (.str "-----BEGIN PUBLIC KEY-----")],
       .error (libraryError "NotBeforeError" "jwt not active")⟩ ∧
    getMember (libraryError "NotBeforeError" "jwt not active") "code" = .undefined ∧
    getMember (libraryError "NotBeforeError" "jwt not active") "code" ≠
      .str "auth/invalid_token" := by
  refine ⟨rfl, rfl, rfl, ?_⟩
  show JsVal.undefined ≠ _
  intro h
  cases h

/-- C4, amended: a token that passes the segment and kid checks and whose
verification fails with an error named `JsonWebTokenError` (a bad signature,
a malformed token) makes `grantAPIAccess` throw the `AuthError` with code
`auth/invalid_token`. -/
theorem grantAPIAccess_rejected_token (env : Env)
    (headers cognitoIssuer header keys kid key pem e : JsVal) (authorization : String)
    (hIss : getProp headers "x-cognito-issuer" = .ok cognitoIssuer)
    (hAuth : getProp headers "authorization" = .ok (.str authorization))
    (hSeg : 2 ≤ (jsSplit '.' ((jsSplit ' ' authorization).getD 1 "")).length)
    (hHdr : env.jsonParse (env.base64Decode
      ((jsSplit '.' ((jsSplit ' ' authorization).getD 1 "")).getD 0 "")) = .ok header)
    (hKeys : (getPublicKeys env cognitoIssuer).outcome = .ok keys)
    (hKid : getProp header "kid" = .ok kid)
    (hKey : getProp keys (toStr env kid) = .ok key)
    (hDef : isUndefined key = false)
    (hPem : getProp key "pem" = .ok pem)
    (hVerify : env.verify (.str ((jsSplit ' ' authorization).getD 1 "")) pem = .error e)
    (hName : getProp e "name" = .ok (.str "JsonWebTokenError")) :
    grantAPIAccess env headers =
      ⟨[.fetch (toStr env cognitoIssuer ++ "/.well-known/jwks.json"),
        .verify (.str ((jsSplit ' ' authorization).getD 1 "")) pem],
       .error (AuthError "invalid_token"
         ("JsonWebTokenError - " ++ toStr env (getMember e "message")))⟩ ∧
    getMember (AuthError "invalid_token"
        ("JsonWebTokenError - " ++ toStr env (getMember e "message"))) "code" =
      .str "auth/invalid_token" := by
  have hMsg := getProp_ok_all e _ "name" "message" hName
  refine ⟨?_, rfl⟩
  rw [grantAPIAccess, grantAPIAccessTry_reaches_verify env headers cognitoIssuer header keys
    kid key pem authorization hIss hAuth hSeg hHdr hKeys hKid hKey hDef hPem, hVerify]
  simp [Run.tryCatch, grantAPIAccessCatch, hName, hMsg, bind, Except.bind, isStr, toStr]

theorem grantAPIAccess_rejected_token_witness :
    getProp (sampleHeaders "Bearer eyJraWQiOiJrMSJ9.forged.sig") "x-cognito-issuer" =
      .ok (.str "https://issuer.example") ∧
    getProp (sampleHeaders "Bearer eyJraWQiOiJrMSJ9.forged.sig") "authorization" =
      .ok (.str "Bearer eyJraWQiOiJrMSJ9.forged.sig") ∧
    2 ≤ (jsSplit '.' ((jsSplit ' ' "Bearer eyJraWQiOiJrMSJ9.forged.sig").getD 1 "")).length ∧
    (getPublicKeys sampleEnv (.str "https://issuer.example")).outcome = .ok sampleKeys ∧
    sampleEnv.verify (.str "eyJraWQiOiJrMSJ9.forged.sig") (.str "-----BEGIN PUBLIC KEY-----") =
      .error (libraryError "JsonWebTokenError" "invalid signature") ∧
    grantAPIAccess sampleEnv (sampleHeaders "Bearer eyJraWQiOiJrMSJ9.forged.sig") =
      ⟨[.fetch "https://issuer.example/.well-known/jwks.json",
        .verify (.str "eyJraWQiOiJrMSJ9.forged.sig") (.str "-----BEGIN PUBLIC KEY-----")],
       .error (AuthError "invalid_token" "JsonWebTokenError - invalid signature")⟩ :=
  ⟨rfl, rfl, by decide, rfl, rfl,
   (grantAPIAccess_rejected_token sampleEnv
      (sampleHeaders "Bearer eyJraWQiOiJrMSJ9.forged.sig") (.str "https://issuer.example")
      (objectLiteral [("kid", .str "k1")]) sampleKeys (.str "k1")
      (objectLiteral [
        ("instance", objectLiteral [("kid", .str "k1"), ("kty", .str "RSA")]),
        ("pem", .str "-----BEGIN PUBLIC KEY-----")])
      (.str "-----BEGIN PUBLIC KEY-----") (libraryError "JsonWebTokenError" "invalid signature")
      "Bearer eyJraWQiOiJrMSJ9.forged.sig" rfl rfl (by decide) rfl rfl rfl rfl rfl rfl rfl
      rfl).1⟩

/-- C2, at a failing input: the token header names the key id `constructor`,
which no published key carries.  The key set built by `getPublicKeys` has the
single own entry `k1`, yet the lookup `keys[header.kid]` finds the inherited
`Object.prototype.constructor`, the unknown-kid check passes, and the
verification library is called with the key `undefined`; whatever it answers
decides the outcome. -/
theorem grantAPIAccess_inherited_kid (verify : JsVal → JsVal → Except JsVal JsVal) :
    (getPublicKeys (sampleEnvWith verify) (.str "https://issuer.example")).outcome =
      .ok sampleKeys ∧
    ownEnumerable sampleKeys = [("k1", objectLiteral [
      ("instance", objectLiteral [("kid", .str "k1"), ("kty", .str "RSA")]),
      ("pem", .str "-----BEGIN PUBLIC KEY-----")])] ∧
    getProp sampleKeys "constructor" = .ok (.builtin "Object") ∧
    grantAPIAccess (sampleEnvWith verify)
        (sampleHeaders "Bearer eyJraWQiOiJjb25zdHJ1Y3RvciJ9.payload.sig") =
      ⟨[.fetch "https://issuer.example/.well-known/jwks.json",
        .verify (.str "eyJraWQiOiJjb25zdHJ1Y3RvciJ9.payload.sig") .undefined],
       match verify (.str "eyJraWQiOiJjb25zdHJ1Y3RvciJ9.payload.sig") .undefined with
       | .ok claims =>
         .ok (objectLiteral [("claims", jsonStringify (sampleEnvWith verify) claims)])
       | .error e => grantAPIAccessCatch (sampleEnvWith verify) e⟩ := by
  refine ⟨rfl, rfl, rfl, ?_⟩
  rw [grantAPIAccess, grantAPIAccessTry_reaches_verify (sampleEnvWith verify)
    (sampleHeaders "Bearer eyJraWQiOiJjb25zdHJ1Y3RvciJ9.payload.sig")
    (.str "https://issuer.example") (objectLiteral [("kid", .str "constructor")]) sampleKeys
    (.str "constructor") (.builtin "Object") .undefined
    "Bearer eyJraWQiOiJjb25zdHJ1Y3RvciJ9.payload.sig" rfl rfl (by decide) rfl rfl rfl rfl rfl rfl]
  show Run.tryCatch ⟨_, match verify (.str "eyJraWQiOiJjb25zdHJ1Y3RvciJ9.payload.sig")
    .undefined with | .ok claims => _ | .error e => _⟩ _ = _
  cases verify (.str "eyJraWQiOiJjb25zdHJ1Y3RvciJ9.payload.sig") .undefined <;> rfl

/-- C5, at a failing input: with no `authorization` header the call
`authorization.split` throws a `TypeError`, which the catch block rethrows;
the failure carries no code, so it is not the `AuthError` with code
`auth/invalid_token`, and the handler answers with a `Deny` policy instead of
the rejection "Unauthorized". -/
theorem grantAPIAccess_missing_authorization (env : Env) :
    getMember (objectLiteral [("x-cognito-issuer", .str "https://issuer.example")])
      "authorization" = .undefined ∧
    grantAPIAccess env (objectLiteral [("x-cognito-issuer", .str "https://issuer.example")]) =
      ⟨[], .error (typeError "Cannot read properties of undefined (reading \x27split\x27)")⟩ ∧
    getMember (typeError "Cannot read properties of undefined (reading \x27split\x27)") "name" =
      .str "TypeError" ∧
    getMember (typeError "Cannot read properties of undefined (reading \x27split\x27)") "code" =
      .undefined ∧
    (handler env (objectLiteral [("headers",
        objectLiteral [("X-Cognito-Issuer", .str "https://issuer.example")])])).callbacks =
      [(.null, generatePolicy (.str "client") (.str "Deny") .undefined .undefined)] :=
  ⟨rfl, rfl, rfl, rfl, rfl⟩

/-! ## The authorizer handler -/

theorem AuthError_defined (code message : String) :
    AuthError code message ≠ .undefined ∧ AuthError code message ≠ .null := by
  constructor <;> (intro h; cases h)

theorem typeError_defined (msg : String) :
    typeError msg ≠ .undefined ∧ typeError msg ≠ .null := by
  constructor <;> (intro h; cases h)

theorem getProp_error_defined (v x : JsVal) (k : String) (h : getProp v k = .error x) :
    x ≠ .undefined ∧ x ≠ .null := by
  cases v <;> simp [getProp] at h <;> subst h <;> exact typeError_defined _

theorem grantAPIAccessCatch_error (env : Env) (e : JsVal) :
    ∃ x, grantAPIAccessCatch env e = .error x ∧ x ≠ .undefined ∧ x ≠ .null := by
  unfold grantAPIAccessCatch
  cases hn : getProp e "name" with
  | error x => exact ⟨x, rfl, getProp_error_defined e x _ hn⟩
  | ok name =>
    have hm := getProp_ok_all e name "name" "message" hn
    have hd := getProp_ok_defined e name "name" hn
    simp only [hm, bind, Except.bind]
    split
    · exact ⟨_, rfl, AuthError_defined _ _⟩
    · split
      · exact ⟨_, rfl, AuthError_defined _ _⟩
      · exact ⟨e, rfl, hd⟩

theorem grantAPIAccess_error_defined (env : Env) (headers x : JsVal)
    (h : (grantAPIAccess env headers).outcome = .error x) : x ≠ .undefined ∧ x ≠ .null := by
  unfold grantAPIAccess Run.tryCatch at h
  split at h
  · cases h
  · obtain ⟨y, hy, hd⟩ := grantAPIAccessCatch_error env ‹JsVal›
    simp only [hy] at h
    cases h
    exact hd

theorem grantAPIAccess_ok_try (env : Env) (headers c : JsVal)
    (h : (grantAPIAccess env headers).outcome = .ok c) :
    (grantAPIAccessTry env headers).outcome = .ok c := by
  unfold grantAPIAccess Run.tryCatch at h
  split at h
  · rename_i a ha
    simp only at h
    rw [ha, h]
  · obtain ⟨y, hy, _⟩ := grantAPIAccessCatch_error env ‹JsVal›
    simp only [hy] at h
    cases h

theorem lift_error_outcome {α : Type} (e : JsVal) (a : α) :
    (Run.lift (.error e : Except JsVal α)).outcome ≠ .ok a := by
  intro h
  cases h

theorem grantAPIAccess_ok_shape (env : Env) (headers c : JsVal)
    (h : (grantAPIAccess env headers).outcome = .ok c) :
    ∃ claims, c = objectLiteral [("claims", jsonStringify env claims)] := by
  have h := grantAPIAccess_ok_try env headers c h
  unfold grantAPIAccessTry at h
  obtain ⟨cognitoIssuer, _, h⟩ := Run.bind_outcome_ok _ _ _ h
  obtain ⟨authorization, _, h⟩ := Run.bind_outcome_ok _ _ _ h
  obtain ⟨parts, _, h⟩ := Run.bind_outcome_ok _ _ _ h
  obtain ⟨tokenSections, _, h⟩ := Run.bind_outcome_ok _ _ _ h
  split at h
  · exact absurd h (lift_error_outcome _ _)
  · obtain ⟨headerJSON, _, h⟩ := Run.bind_outcome_ok _ _ _ h
    obtain ⟨header, _, h⟩ := Run.bind_outcome_ok _ _ _ h
    obtain ⟨keys, _, h⟩ := Run.bind_outcome_ok _ _ _ h
    obtain ⟨kid, _, h⟩ := Run.bind_outcome_ok _ _ _ h
    obtain ⟨key, _, h⟩ := Run.bind_outcome_ok _ _ _ h
    split at h
    · exact absurd h (lift_error_outcome _ _)
    · obtain ⟨pem, _, h⟩ := Run.bind_outcome_ok _ _ _ h
      obtain ⟨claims, _, h⟩ := Run.bind_outcome_ok _ _ _ h
      refine ⟨claims, ?_⟩
      have h2 : (Except.ok (objectLiteral [("claims", jsonStringify env claims)]) :
          Except JsVal JsVal) = .ok c := h
      cases h2
      rfl

theorem foldlM_setProp_error_defined (g : String → String) (f : String → JsVal)
    (keys : List String) (init x : JsVal)
    (h : keys.foldlM (fun acc key => setProp acc (g key) (f key)) init = .error x) :
    x ≠ .undefined ∧ x ≠ .null := by
  induction keys generalizing init with
  | nil => cases h
  | cons key rest ih =>
    simp only [List.foldlM, bind, Except.bind] at h
    cases hs : setProp init (g key) (f key) with
    | error y =>
      rw [hs] at h
      cases h
      cases init <;> simp [setProp] at hs <;> subst hs <;> exact typeError_defined _
    | ok acc =>
      rw [hs] at h
      exact ih acc h

theorem parseEventHeaders_error_defined (event x : JsVal)
    (h : parseEventHeaders event = .error x) : x ≠ .undefined ∧ x ≠ .null := by
  unfold parseEventHeaders at h
  cases hh : getProp event "headers" with
  | error y =>
    simp only [hh, bind, Except.bind] at h
    cases h
    exact getProp_error_defined _ _ _ hh
  | ok headers =>
    simp only [hh, bind, Except.bind] at h
    cases hk : objectKeys headers with
    | error y =>
      simp only [hk] at h
      cases h
      cases headers <;> simp [objectKeys] at hk <;> subst hk <;> exact typeError_defined _
    | ok keys =>
      simp only [hk] at h
      exact foldlM_setProp_error_defined _ _ _ _ _ h

theorem handlerTry_error_defined (env : Env) (event x : JsVal)
    (h : (handlerTry env event).outcome = .error x) : x ≠ .undefined ∧ x ≠ .null := by
  unfold handlerTry at h
  cases hp : parseEventHeaders event with
  | error y =>
    rw [hp, Run.bind_lift_error] at h
    cases h
    exact parseEventHeaders_error_defined _ _ hp
  | ok headers =>
    rw [hp, Run.bind_lift_ok] at h
    exact grantAPIAccess_error_defined env headers x h

theorem handlerTry_of_headers (env : Env) (event headers : JsVal)
    (h : parseEventHeaders event = .ok headers) :
    handlerTry env event = grantAPIAccess env headers := by
  unfold handlerTry
  rw [h, Run.bind_lift_ok]

theorem includesStr_deny (code : JsVal) :
    includesStr ["auth/invalid_token", "auth/expired_token"] code = true ↔
      (code = .str "auth/invalid_token" ∨ code = .str "auth/expired_token") := by
  cases code <;> simp [includesStr, isStr]

theorem handler_of_ok (env : Env) (event c : JsVal)
    (h : (handlerTry env event).outcome = .ok c) :
    handler env event = ⟨(handlerTry env event).calls,
      [(.null, generatePolicy (.str "client") (.str "Allow") (.str "*") c)], none⟩ := by
  simp only [handler, h]

theorem handler_of_error (env : Env) (event e : JsVal)
    (h : (handlerTry env event).outcome = .error e) :
    handler env event = ⟨(handlerTry env event).calls,
      if includesStr ["auth/invalid_token", "auth/expired_token"] (getMember e "code") then
        [(.str "Unauthorized", .undefined)]
      else [(.null, generatePolicy (.str "client") (.str "Deny") .undefined .undefined)],
      none⟩ := by
  have hd := handlerTry_error_defined env event e h
  simp only [handler, h, getProp_defined e "code" hd.1 hd.2]
  split <;> rfl

/-- C6: for an event whose headers parse, the handler calls the gateway
callback according to the outcome of `grantAPIAccess`: on success with
context `c` (an object that carries `claims`) it passes the policy for
principal "client" with Effect "Allow", Resource "*" and context `c`; on a
failure whose code is `auth/invalid_token` or `auth/expired_token` it passes
the rejection "Unauthorized" and no policy; on a failure with any other code
it passes the policy with Effect "Deny" and an empty context. -/
theorem handler_policy_decision (env : Env) (event headers : JsVal)
    (hHeaders : parseEventHeaders event = .ok headers) :
    (∀ c, (grantAPIAccess env headers).outcome = .ok c →
      (handler env event).callbacks = [(.null, objectLiteral [
          ("principalId", .str "client"),
          ("policyDocument", objectLiteral [
            ("Version", .str "2012-10-17"),
            ("Statement", .arr [objectLiteral [
              ("Action", .str "execute-api:Invoke"),
              ("Effect", .str "Allow"),
              ("Resource", .str "*")]])]),
          ("context", c)])] ∧
      (∃ claims, c = objectLiteral [("claims", jsonStringify env claims)]) ∧
      hasBinding "claims" (ownEnumerable c) = true) ∧
    (∀ e, (grantAPIAccess env headers).outcome = .error e →
      (getMember e "code" = .str "auth/invalid_token" ∨
        getMember e "code" = .str "auth/expired_token") →
      (handler env event).callbacks = [(.str "Unauthorized", .undefined)]) ∧
    (∀ e, (grantAPIAccess env headers).outcome = .error e →
      getMember e "code" ≠ .str "auth/invalid_token" →
      getMember e "code" ≠ .str "auth/expired_token" →
      (handler env event).callbacks = [(.null, objectLiteral [
          ("principalId", .str "client"),
          ("policyDocument", objectLiteral [
            ("Version", .str "2012-10-17"),
            ("Statement", .arr [objectLiteral [
              ("Action", .str "execute-api:Invoke"),
              ("Effect", .str "Deny"),
              ("Resource", .str "*")]])]),
          ("context", objectLiteral [])])]) := by
  have hTry := handlerTry_of_headers env event headers hHeaders
  refine ⟨fun c hc => ?_, fun e he hcode => ?_, fun e he h1 h2 => ?_⟩
  · obtain ⟨claims, hclaims⟩ := grantAPIAccess_ok_shape env headers c hc
    rw [← hTry] at hc
    rw [handler_of_ok env event c hc]
    subst hclaims
    exact ⟨rfl, ⟨claims, rfl⟩, rfl⟩
  · rw [← hTry] at he
    rw [handler_of_error env event e he]
    simp only [(includesStr_deny _).mpr hcode, if_true]
  · rw [← hTry] at he
    rw [handler_of_error env event e he]
    have hn : ¬ includesStr ["auth/invalid_token", "auth/expired_token"] (getMember e "code")
        = true := by
      rw [includesStr_deny]
      exact fun h => h.elim h1 h2
    simp only [hn, if_false]
    rfl

theorem handler_policy_decision_witness :
    parseEventHeaders (sampleEvent "Bearer eyJraWQiOiJrMSJ9.payload.sig") =
      .ok (sampleHeaders "Bearer eyJraWQiOiJrMSJ9.payload.sig") ∧
    (grantAPIAccess sampleEnv (sampleHeaders "Bearer eyJraWQiOiJrMSJ9.payload.sig")).outcome =
      .ok (objectLiteral [("claims", .str "\x7b\"sub\":\"u1\"\x7d")]) ∧
    (handler sampleEnv (sampleEvent "Bearer eyJraWQiOiJrMSJ9.payload.sig")).callbacks =
      [(.null, objectLiteral [
          ("principalId", .str "client"),
          ("policyDocument", objectLiteral [
            ("Version", .str "2012-10-17"),
            ("Statement", .arr [objectLiteral [
              ("Action", .str "execute-api:Invoke"),
              ("Effect", .str "Allow"),
              ("Resource", .str "*")]])]),
          ("context", objectLiteral [("claims", .str "\x7b\"sub\":\"u1\"\x7d")])])] :=
  ⟨rfl, rfl,
   ((handler_policy_decision sampleEnv (sampleEvent "Bearer eyJraWQiOiJrMSJ9.payload.sig")
      (sampleHeaders "Bearer eyJraWQiOiJrMSJ9.payload.sig") rfl).1 _ rfl).1⟩

/-- C7: for every event the handler lets no exception escape and calls the
gateway callback exactly once: with the Allow policy when the attempt
succeeds, with the rejection "Unauthorized" exactly when the failure's code
is `auth/invalid_token` or `auth/expired_token`, and with the Deny policy
(empty context) for every other failure. -/
theorem handler_never_throws (env : Env) (event : JsVal) :
    (handler env event).escaped = none ∧
    (handler env event).callbacks.length = 1 ∧
    (∀ c, (handlerTry env event).outcome = .ok c →
      (handler env event).callbacks =
        [(.null, generatePolicy (.str "client") (.str "Allow") (.str "*") c)]) ∧
    (∀ e, (handlerTry env event).outcome = .error e →
      ((handler env event).callbacks = [(.str "Unauthorized", .undefined)] ↔
        (getMember e "code" = .str "auth/invalid_token" ∨
          getMember e "code" = .str "auth/expired_token")) ∧
      ((handler env event).callbacks ≠ [(.str "Unauthorized", .undefined)] →
        (handler env event).callbacks = [(.null, objectLiteral [
          ("principalId", .str "client"),
          ("policyDocument", objectLiteral [
            ("Version", .str "2012-10-17"),
            ("Statement", .arr [objectLiteral [
              ("Action", .str "execute-api:Invoke"),
              ("Effect", .str "Deny"),
              ("Resource", .str "*")]])]),
          ("context", objectLiteral [])])])) := by
  cases h : (handlerTry env event).outcome with
  | ok c =>
    rw [handler_of_ok env event c h]
    refine ⟨rfl, rfl, fun c2 hc => ?_, fun e he => ?_⟩
    · cases hc; rfl
    · cases he
  | error e =>
    rw [handler_of_error env event e h]
    refine ⟨rfl, ?_, fun c hc => ?_, fun e2 he => ?_⟩
    · split <;> rfl
    · cases hc
    · cases he
      by_cases hin : includesStr ["auth/invalid_token", "auth/expired_token"]
          (getMember e "code") = true
      · rw [if_pos hin]
        exact ⟨⟨fun _ => (includesStr_deny _).mp hin, fun _ => rfl⟩, fun hne => absurd rfl hne⟩
      · rw [if_neg hin]
        refine ⟨⟨fun heq => ?_, fun hcode => absurd ((includesStr_deny _).mpr hcode) hin⟩,
          fun _ => rfl⟩
        simp at heq

/-- C8: `generatePolicy` returns exactly the object with the given
`principalId`, a policy document of version "2012-10-17" whose single
statement has Action "execute-api:Invoke", the given Effect and the given
Resource, and the given context; an omitted resource is "*" and an omitted
context is the empty object. -/
theorem generatePolicy_shape (principalId effect resource context : JsVal) :
    generatePolicy principalId effect resource context = objectLiteral [
      ("principalId", principalId),
      ("policyDocument", objectLiteral [
        ("Version", .str "2012-10-17"),
        ("Statement", .arr [objectLiteral [
          ("Action", .str "execute-api:Invoke"),
          ("Effect", effect),
          ("Resource", if isUndefined resource then .str "*" else resource)]])]),
      ("context", if isUndefined context then objectLiteral [] else context)] ∧
    generatePolicy principalId effect .undefined .undefined = objectLiteral [
      ("principalId", principalId),
      ("policyDocument", objectLiteral [
        ("Version", .str "2012-10-17"),
        ("Statement", .arr [objectLiteral [
          ("Action", .str "execute-api:Invoke"),
          ("Effect", effect),
          ("Resource", .str "*")]])]),
      ("context", objectLiteral [])] ∧
    (isUndefined resource = false → isUndefined context = false →
      generatePolicy principalId effect resource context = objectLiteral [
        ("principalId", principalId),
        ("policyDocument", objectLiteral [
          ("Version", .str "2012-10-17"),
          ("Statement", .arr [objectLiteral [
            ("Action", .str "execute-api:Invoke"),
            ("Effect", effect),
            ("Resource", resource)]])]),
        ("context", context)]) ∧
    getMember (getMember (getMember (generatePolicy principalId effect resource context)
      "policyDocument") "Statement") "length" = .num 1 := by
  refine ⟨rfl, rfl, fun hr hc => ?_, rfl⟩
  simp only [generatePolicy, hr, hc, Bool.false_eq_true, if_false]

theorem makeResponseParts_error (proto : JsVal) (props hidden : List (String × JsVal))
    (statusCode : JsVal)
    (h : truthy (getMember (.obj proto props hidden) "error") = true) :
    ∃ status error, makeResponseParts (.obj proto props hidden) statusCode =
      .ok (status, objectLiteral (spreadProps
        (spreadProps [] (spreadProps [] (props.filter (fun p => p.1 ∉ destructured))))
        [("error", objectLiteral [
            ("name", getMember error "name"),
            ("message", jsOr (getMember error "message") (.str "")),
            ("code", jsOr (getMember error "code")
              (jsOr (getMember (.obj proto props hidden) "code") (.str "error")))]),
         ("message", jsOr (getMember error "message") (.str "")),
         ("status", .str "error")])) := by
  simp only [makeResponseParts, getProp, bind, Except.bind, h, if_true, pure, Except.pure]
  cases hf : (truthy (if isUndefined statusCode = true then StatusCodes.OK else statusCode) &&
      isNum (if isUndefined statusCode = true then StatusCodes.OK else statusCode) 200)
  · exact ⟨_, _, rfl⟩
  · exact ⟨_, _, rfl⟩

theorem makeResponseParts_success (proto : JsVal) (props hidden : List (String × JsVal))
    (statusCode : JsVal)
    (h : truthy (getMember (.obj proto props hidden) "error") = false) :
    makeResponseParts (.obj proto props hidden) statusCode =
      .ok (.num 200, objectLiteral (spreadProps
        (spreadProps [] (spreadProps [] (props.filter (fun p => p.1 ∉ destructured))))
        [("data", getMember (.obj proto props hidden) "data"),
         ("message", getMember (.obj proto props hidden) "message"),
         ("status", .str "success")])) := by
  simp only [makeResponseParts, getProp, bind, Except.bind, h, pure, Except.pure]
  rfl

/-! ## Property lists -/

theorem hasBinding_eq_false_iff (k : String) (l : List (String × JsVal)) :
    hasBinding k l = false ↔ l.lookup k = none := by
  induction l with
  | nil => simp [hasBinding]
  | cons p l ih =>
    obtain ⟨a, b⟩ := p
    simp only [hasBinding, List.any_cons, List.lookup_cons] at ih ⊢
    by_cases h : k = a
    · subst h; simp
    · have h1 : (k == a) = false := by simpa using h
      have h2 : (a == k) = false := by simpa using fun h3 => h h3.symm
      simp only [h1, h2, Bool.false_or]
      exact ih

theorem hasBinding_eq_true_iff (k : String) (l : List (String × JsVal)) :
    hasBinding k l = true ↔ ∃ v, l.lookup k = some v := by
  cases h : hasBinding k l with
  | false =>
    rw [hasBinding_eq_false_iff] at h
    simp [h]
  | true =>
    have : l.lookup k ≠ none := by
      intro hn
      rw [← hasBinding_eq_false_iff] at hn
      rw [hn] at h
      cases h
    cases hl : l.lookup k with
    | none => exact absurd hl this
    | some v => simp

theorem lookup_updateBinding_ne (k k2 : String) (v : JsVal) (l : List (String × JsVal))
    (h : k ≠ k2) : (updateBinding k2 v l).lookup k = l.lookup k := by
  induction l with
  | nil => rfl
  | cons p l ih =>
    obtain ⟨a, b⟩ := p
    have ih2 : (List.map (fun p => if p.1 = k2 then (k2, v) else p) l).lookup k = l.lookup k := ih
    by_cases ha : a = k2
    · subst ha
      have h1 : (k == a) = false := by simpa using h
      simp only [updateBinding, List.map_cons, if_true, List.lookup_cons, h1, ih2]
    · simp only [updateBinding, List.map_cons, if_neg ha, List.lookup_cons, ih2]

theorem lookup_updateBinding_self (k : String) (v : JsVal) (l : List (String × JsVal))
    (h : hasBinding k l = true) : (updateBinding k v l).lookup k = some v := by
  induction l with
  | nil => simp [hasBinding] at h
  | cons p l ih =>
    obtain ⟨a, b⟩ := p
    simp only [updateBinding, List.map_cons, List.lookup_cons] at ih ⊢
    by_cases ha : a = k
    · subst ha
      simp
    · have h1 : (k == a) = false := by simpa using fun h3 => ha h3.symm
      have h2 : (a == k) = false := by simpa using ha
      simp only [if_neg ha, List.lookup_cons, h1]
      apply ih
      simpa [hasBinding, h2] using h

theorem lookup_append_single (k k2 : String) (v : JsVal) (l : List (String × JsVal)) :
    (l ++ [(k2, v)]).lookup k =
      match l.lookup k with
      | some x => some x
      | none => if k = k2 then some v else none := by
  induction l with
  | nil =>
    by_cases h : k = k2
    · subst h; simp
    · have h1 : (k == k2) = false := by simpa using h
      simp [List.lookup_cons, h1, h]
  | cons p l ih =>
    obtain ⟨a, b⟩ := p
    simp only [List.cons_append, List.lookup_cons]
    cases hka : (k == a) with
    | true => rfl
    | false => exact ih

theorem lookup_defineBinding (k k2 : String) (v : JsVal) (l : List (String × JsVal)) :
    (defineBinding k2 v l).lookup k = if k = k2 then some v else l.lookup k := by
  unfold defineBinding
  by_cases hb : hasBinding k2 l = true
  · rw [if_pos hb]
    by_cases h : k = k2
    · subst h
      rw [if_pos rfl, lookup_updateBinding_self k v l hb]
    · rw [if_neg h, lookup_updateBinding_ne k k2 v l h]
  · rw [if_neg hb, lookup_append_single]
    have hb2 : hasBinding k2 l = false := by simpa using hb
    rw [hasBinding_eq_false_iff] at hb2
    by_cases h : k = k2
    · subst h
      rw [hb2, if_pos rfl]
    · simp only [if_neg h]
      cases l.lookup k <;> rfl

theorem lookup_spreadProps_of_unbound (k : String) (a b : List (String × JsVal))
    (h : hasBinding k b = false) : (spreadProps a b).lookup k = a.lookup k := by
  induction b generalizing a with
  | nil => rfl
  | cons p b ih =>
    obtain ⟨k2, v⟩ := p
    have hne : k2 ≠ k := by
      intro heq
      subst heq
      simp [hasBinding] at h
    have hb : hasBinding k b = false := by
      have : (k2 == k) = false := by simpa using hne
      simpa [hasBinding, this] using h
    show (spreadProps (defineBinding k2 v a) b).lookup k = _
    rw [ih _ hb, lookup_defineBinding, if_neg (fun h3 => hne h3.symm)]

theorem hasBinding_filter_destructured (k : String) (l : List (String × JsVal))
    (h : k ∈ destructured) :
    hasBinding k (l.filter (fun p => p.1 ∉ destructured)) = false := by
  induction l with
  | nil => rfl
  | cons p l ih =>
    obtain ⟨a, b⟩ := p
    simp only [List.filter_cons]
    split
    · rename_i ha
      have hne : (a == k) = false := by
        have : a ≠ k := by
          intro heq
          subst heq
          simp [h] at ha
        simpa using this
      simpa [hasBinding, hne] using ih
    · exact ih

theorem lookup_rest (k : String) (l : List (String × JsVal)) (h : k ∈ destructured) :
    (spreadProps [] (spreadProps [] (l.filter (fun p => p.1 ∉ destructured)))).lookup k =
      none := by
  have h1 := lookup_spreadProps_of_unbound k [] _ (hasBinding_filter_destructured k l h)
  have h2 : hasBinding k (spreadProps [] (l.filter (fun p => p.1 ∉ destructured))) = false := by
    rw [hasBinding_eq_false_iff, h1]; rfl
  rw [lookup_spreadProps_of_unbound k [] _ h2]
  rfl

theorem toJsonProps_lookup_none (k : String) (l : List (String × JsVal))
    (h : l.lookup k = none) : (toJsonProps l).lookup k = none := by
  induction l with
  | nil => rfl
  | cons p l ih =>
    obtain ⟨a, b⟩ := p
    simp only [List.lookup_cons] at h
    cases hka : (k == a) with
    | true => rw [hka] at h; cases h
    | false =>
      rw [hka] at h
      simp only [toJsonProps]
      cases toJson b with
      | none => exact ih h
      | some j =>
        simp only [List.lookup_cons, hka]
        exact ih h

theorem toJsonProps_lookup_some (k : String) (v j : JsVal) (l : List (String × JsVal))
    (h : l.lookup k = some v) (hj : toJson v = some j) :
    (toJsonProps l).lookup k = some j := by
  induction l with
  | nil => cases h
  | cons p l ih =>
    obtain ⟨a, b⟩ := p
    simp only [List.lookup_cons] at h
    cases hka : (k == a) with
    | true =>
      rw [hka] at h
      cases h
      simp only [toJsonProps, hj, List.lookup_cons, hka]
    | false =>
      rw [hka] at h
      simp only [toJsonProps]
      cases toJson b with
      | none => exact ih h
      | some j2 =>
        simp only [List.lookup_cons, hka]
        exact ih h

theorem lookup_none_of_not_mem (k : String) (l : List (String × JsVal))
    (h : k ∉ l.map Prod.fst) : l.lookup k = none := by
  induction l with
  | nil => rfl
  | cons p l ih =>
    obtain ⟨a, b⟩ := p
    simp only [List.map_cons, List.mem_cons, not_or] at h
    have h1 : (k == a) = false := by simpa using h.1
    simp only [List.lookup_cons, h1]
    exact ih h.2

theorem not_mem_of_lookup_none (k : String) (l : List (String × JsVal))
    (h : l.lookup k = none) : k ∉ l.map Prod.fst := by
  induction l with
  | nil => simp
  | cons p l ih =>
    obtain ⟨a, b⟩ := p
    simp only [List.lookup_cons] at h
    cases hka : (k == a) with
    | true => rw [hka] at h; cases h
    | false =>
      rw [hka] at h
      have hne : k ≠ a := by simpa using hka
      simp only [List.map_cons, List.mem_cons, not_or]
      exact ⟨hne, ih h⟩

theorem keys_updateBinding (k : String) (v : JsVal) (l : List (String × JsVal)) :
    (updateBinding k v l).map Prod.fst = l.map Prod.fst := by
  induction l with
  | nil => rfl
  | cons p l ih =>
    have ih2 : List.map Prod.fst (List.map (fun p => if p.1 = k then (k, v) else p) l) =
      List.map Prod.fst l := ih
    by_cases hp : p.1 = k
    · simp only [updateBinding, List.map_cons, if_pos hp, ih2]
      rw [hp]
    · simp only [updateBinding, List.map_cons, if_neg hp, ih2]

theorem keysNodup_defineBinding (k : String) (v : JsVal) (l : List (String × JsVal))
    (h : (l.map Prod.fst).Nodup) : ((defineBinding k v l).map Prod.fst).Nodup := by
  unfold defineBinding
  by_cases hb : hasBinding k l = true
  · rw [if_pos hb, keys_updateBinding]
    exact h
  · rw [if_neg hb]
    have hb2 : hasBinding k l = false := by simpa using hb
    rw [hasBinding_eq_false_iff] at hb2
    have hk := not_mem_of_lookup_none k l hb2
    rw [List.map_append, List.nodup_append]
    refine ⟨h, by simp, ?_⟩
    intro a ha hb3
    simp only [List.map_cons, List.map_nil, List.mem_singleton] at hb3
    subst hb3
    exact hk ha

theorem keysNodup_spreadProps (a b : List (String × JsVal))
    (h : (a.map Prod.fst).Nodup) : ((spreadProps a b).map Prod.fst).Nodup := by
  induction b generalizing a with
  | nil => exact h
  | cons p b ih => exact ih _ (keysNodup_defineBinding p.1 p.2 a h)

theorem toJsonProps_lookup (k : String) (l : List (String × JsVal))
    (h : (l.map Prod.fst).Nodup) :
    (toJsonProps l).lookup k = (l.lookup k).bind toJson := by
  induction l with
  | nil => rfl
  | cons p l ih =>
    obtain ⟨a, b⟩ := p
    simp only [List.map_cons, List.nodup_cons] at h
    cases hka : (k == a) with
    | true =>
      have hk : k = a := by simpa using hka
      subst hk
      simp only [List.lookup_cons, hka, Option.some_bind, toJsonProps]
      cases hj : toJson b with
      | none =>
        exact toJsonProps_lookup_none k l (lookup_none_of_not_mem k l h.1)
      | some j => simp only [List.lookup_cons, hka]
    | false =>
      simp only [List.lookup_cons, hka, toJsonProps]
      cases toJson b with
      | none => exact ih h.2
      | some j =>
        simp only [List.lookup_cons, hka]
        exact ih h.2

theorem serializedBody_of_parts (rb sc status : JsVal) (props : List (String × JsVal))
    (h : makeResponseParts rb sc = .ok (status, objectLiteral props)) (k : String)
    (hn : (props.map Prod.fst).Nodup) :
    docField (serializedBody rb sc) k = (props.lookup k).bind toJson := by
  simp only [serializedBody, h, objectLiteral, toJson, docField, ownEnumerable]
  exact toJsonProps_lookup k props hn

theorem makeResponse_of_parts (env : Env) (rb sc status : JsVal) (props : List (String × JsVal))
    (h : makeResponseParts rb sc = .ok (status, objectLiteral props)) :
    makeResponse env rb sc = .ok (objectLiteral [
      ("headers", corsHeaders),
      ("statusCode", status),
      ("body", .str (env.renderJson (objectLiteral (toJsonProps props))))]) ∧
    serializedBody rb sc = some (objectLiteral (toJsonProps props)) := by
  simp only [makeResponse, serializedBody, h, bind, Except.bind, pure, Except.pure,
    jsonStringify, objectLiteral, toJson, and_self]

/-! ## The response envelope -/

theorem rest_keysNodup (l : List (String × JsVal)) :
    ((spreadProps [] (spreadProps [] l)).map Prod.fst).Nodup :=
  keysNodup_spreadProps [] _ (by simp)

theorem lookup_three (k : String) (rest : List (String × JsVal)) (k1 k2 k3 : String)
    (v1 v2 v3 : JsVal) :
    (spreadProps rest [(k1, v1), (k2, v2), (k3, v3)]).lookup k =
      if k = k3 then some v3 else if k = k2 then some v2 else if k = k1 then some v1
      else rest.lookup k := by
  show (defineBinding k3 v3 (defineBinding k2 v2 (defineBinding k1 v1 rest))).lookup k = _
  simp only [lookup_defineBinding]

theorem serializedBody_error (proto : JsVal) (props hidden : List (String × JsVal))
    (statusCode : JsVal)
    (h : truthy (getMember (.obj proto props hidden) "error") = true) :
    docHasKey (serializedBody (.obj proto props hidden) statusCode) "error" = true ∧
    docHasKey (serializedBody (.obj proto props hidden) statusCode) "data" = false := by
  obtain ⟨status, error, hp⟩ := makeResponseParts_error proto props hidden statusCode h
  have hn := keysNodup_spreadProps _ [("error", objectLiteral [
      ("name", getMember error "name"),
      ("message", jsOr (getMember error "message") (.str "")),
      ("code", jsOr (getMember error "code")
        (jsOr (getMember (.obj proto props hidden) "code") (.str "error")))]),
    ("message", jsOr (getMember error "message") (.str "")),
    ("status", .str "error")] (rest_keysNodup (props.filter (fun p => p.1 ∉ destructured)))
  constructor
  · rw [docHasKey, serializedBody_of_parts _ _ _ _ hp "error" hn, lookup_three]
    simp [objectLiteral, toJson]
  · rw [docHasKey, serializedBody_of_parts _ _ _ _ hp "data" hn, lookup_three,
      lookup_rest "data" props (by decide)]
    simp

theorem serializedBody_success (proto : JsVal) (props hidden : List (String × JsVal))
    (statusCode : JsVal)
    (h : truthy (getMember (.obj proto props hidden) "error") = false) :
    docField (serializedBody (.obj proto props hidden) statusCode) "error" = none ∧
    docField (serializedBody (.obj proto props hidden) statusCode) "status" =
      some (.str "success") ∧
    docField (serializedBody (.obj proto props hidden) statusCode) "data" =
      toJson (getMember (.obj proto props hidden) "data") ∧
    docField (serializedBody (.obj proto props hidden) statusCode) "message" =
      toJson (getMember (.obj proto props hidden) "message") := by
  have hp := makeResponseParts_success proto props hidden statusCode h
  have hn := keysNodup_spreadProps _ [("data", getMember (.obj proto props hidden) "data"),
    ("message", getMember (.obj proto props hidden) "message"),
    ("status", .str "success")] (rest_keysNodup (props.filter (fun p => p.1 ∉ destructured)))
  refine ⟨?_, ?_, ?_, ?_⟩
  · rw [serializedBody_of_parts _ _ _ _ hp "error" hn, lookup_three,
      lookup_rest "error" props (by decide)]
    simp
  · rw [serializedBody_of_parts _ _ _ _ hp "status" hn, lookup_three]
    simp [toJson]
  · rw [serializedBody_of_parts _ _ _ _ hp "data" hn, lookup_three]
    simp
  · rw [serializedBody_of_parts _ _ _ _ hp "message" hn, lookup_three]
    simp

/-- C9: for every response body (an object, whatever extra fields it carries)
and every status code, `makeResponse` returns a response whose `body` is the
serialization of a document that has an `error` key and no `data` key when the
error is populated, and no `error` key when there is no error; the document
never has both `data` and `error`. -/
theorem makeResponse_data_error_exclusive (env : Env) (proto : JsVal)
    (props hidden : List (String × JsVal)) (statusCode : JsVal) :
    (∃ status doc,
      makeResponse env (.obj proto props hidden) statusCode = .ok (objectLiteral [
        ("headers", corsHeaders), ("statusCode", status),
        ("body", .str (env.renderJson doc))]) ∧
      serializedBody (.obj proto props hidden) statusCode = some doc) ∧
    (truthy (getMember (.obj proto props hidden) "error") = true →
      docHasKey (serializedBody (.obj proto props hidden) statusCode) "error" = true ∧
      docHasKey (serializedBody (.obj proto props hidden) statusCode) "data" = false) ∧
    (truthy (getMember (.obj proto props hidden) "error") = false →
      docHasKey (serializedBody (.obj proto props hidden) statusCode) "error" = false) ∧
    ¬ (docHasKey (serializedBody (.obj proto props hidden) statusCode) "data" = true ∧
       docHasKey (serializedBody (.obj proto props hidden) statusCode) "error" = true) := by
  have hErr := serializedBody_error proto props hidden statusCode
  have hOk : truthy (getMember (.obj proto props hidden) "error") = false →
      docHasKey (serializedBody (.obj proto props hidden) statusCode) "error" = false := by
    intro h
    rw [docHasKey, (serializedBody_success proto props hidden statusCode h).1]
    rfl
  refine ⟨?_, hErr, hOk, ?_⟩
  · cases h : truthy (getMember (.obj proto props hidden) "error") with
    | true =>
      obtain ⟨status, error, hp⟩ := makeResponseParts_error proto props hidden statusCode h
      exact ⟨status, _, makeResponse_of_parts env _ _ status _ hp⟩
    | false =>
      exact ⟨_, _, makeResponse_of_parts env _ _ _ _
        (makeResponseParts_success proto props hidden statusCode h)⟩
  · intro hboth
    cases h : truthy (getMember (.obj proto props hidden) "error") with
    | true =>
      rw [(hErr h).2] at hboth
      exact absurd hboth.1 (by decide)
    | false =>
      rw [hOk h] at hboth
      exact absurd hboth.2 (by decide)

/-- C10: for every response body with no error and every status code the
caller supplies, `makeResponse` returns statusCode 200 and a body that
serializes a document whose `status` is "success" and whose `data` and
`message` are the supplied ones, as `JSON.stringify` writes them. -/
theorem makeResponse_success (env : Env) (proto : JsVal)
    (props hidden : List (String × JsVal)) (statusCode : JsVal)
    (hError : truthy (getMember (.obj proto props hidden) "error") = false) :
    (∃ doc,
      makeResponse env (.obj proto props hidden) statusCode = .ok (objectLiteral [
        ("headers", corsHeaders), ("statusCode", .num 200),
        ("body", .str (env.renderJson doc))]) ∧
      serializedBody (.obj proto props hidden) statusCode = some doc) ∧
    docField (serializedBody (.obj proto props hidden) statusCode) "status" =
      some (.str "success") ∧
    docField (serializedBody (.obj proto props hidden) statusCode) "data" =
      toJson (getMember (.obj proto props hidden) "data") ∧
    docField (serializedBody (.obj proto props hidden) statusCode) "message" =
      toJson (getMember (.obj proto props hidden) "message") ∧
    docField (serializedBody (.obj proto props hidden) statusCode) "error" = none := by
  have hs := serializedBody_success proto props hidden statusCode hError
  exact ⟨⟨_, makeResponse_of_parts env _ _ _ _
    (makeResponseParts_success proto props hidden statusCode hError)⟩, hs.2.1, hs.2.2.1,
    hs.2.2.2, hs.1⟩

theorem makeResponse_success_witness :
    truthy (getMember (objectLiteral [("data", .arr [.num 1, .num 2]),
      ("message", .str "found"), ("status", .str "draft")]) "error") = false ∧
    makeResponse sampleEnv (objectLiteral [("data", .arr [.num 1, .num 2]),
        ("message", .str "found"), ("status", .str "draft")]) (.num 404) =
      .ok (objectLiteral [("headers", corsHeaders), ("statusCode", .num 200),
        ("body", .str (sampleEnv.renderJson (objectLiteral [("status", .str "success"),
          ("data", .arr [.num 1, .num 2]), ("message", .str "found")])))]) ∧
    docField (serializedBody (objectLiteral [("data", .arr [.num 1, .num 2]),
        ("message", .str "found"), ("status", .str "draft")]) (.num 404)) "status" =
      some (.str "success") :=
  ⟨rfl, rfl,
   (makeResponse_success sampleEnv (.proto .object) [("data", .arr [.num 1, .num 2]),
      ("message", .str "found"), ("status", .str "draft")] [] (.num 404) rfl).2.1⟩

/-! ## Classification of errors -/

theorem getMember_assign_ne (e v : JsVal) (k k2 : String) (hk : k ≠ k2)
    (hp : k2 ≠ "__proto__") : getMember (assign e k2 v) k = getMember e k := by
  cases e with
  | obj proto props hidden =>
    unfold assign
    by_cases h1 : hasBinding k2 props = true
    · simp only [h1, if_true, getMember, findProp, lookup_updateBinding_ne k k2 v props hk,
        reachesObjectPrototype, prototypeOf]
    · by_cases h2 : hasBinding k2 hidden = true
      · simp only [h1, h2, if_true, if_false, getMember, findProp,
          lookup_updateBinding_ne k k2 v hidden hk, reachesObjectPrototype, prototypeOf,
          Bool.false_eq_true]
      · have h3 : ¬ (k2 = "__proto__" ∧ (findProp proto k2).isNone = true ∧
            reachesObjectPrototype proto = true) := fun h => hp h.1
        simp only [h1, h2, h3, if_false, getMember, findProp, lookup_append_single,
          reachesObjectPrototype, prototypeOf, Bool.false_eq_true, if_neg hk]
        cases props.lookup k <;> rfl
  | _ => rfl

theorem name_rewrittenError (e : JsVal) :
    getMember (rewrittenError e) "name" = getMember e "name" := by
  unfold rewrittenError
  split
  · exact getMember_assign_ne e _ "name" "message" (by decide) (by decide)
  · rfl

theorem makeResponseParts_error_eq (proto : JsVal) (props hidden : List (String × JsVal))
    (statusCode : JsVal)
    (h : truthy (getMember (.obj proto props hidden) "error") = true) :
    makeResponseParts (.obj proto props hidden) statusCode =
      .ok (statusRules.foldl
          (fun status rule =>
            if rule.1 (getMember (.obj proto props hidden) "error") then rule.2 else status)
          (unclassifiedStatus statusCode),
        objectLiteral (spreadProps
          (spreadProps [] (spreadProps [] (props.filter (fun p => p.1 ∉ destructured))))
          [("error", objectLiteral [
              ("name", getMember (rewrittenError (getMember (.obj proto props hidden) "error"))
                "name"),
              ("message", jsOr (getMember
                (rewrittenError (getMember (.obj proto props hidden) "error")) "message")
                (.str "")),
              ("code", jsOr (getMember
                (rewrittenError (getMember (.obj proto props hidden) "error")) "code")
                (jsOr (getMember (.obj proto props hidden) "code") (.str "error")))]),
           ("message", jsOr (getMember
              (rewrittenError (getMember (.obj proto props hidden) "error")) "message")
              (.str "")),
           ("status", .str "error")])) := by
  have hn := name_rewrittenError (getMember (.obj proto props hidden) "error")
  simp only [makeResponseParts, getProp, bind, Except.bind, h, if_true, pure, Except.pure]
  refine congrArg Except.ok (Prod.ext ?_ ?_)
  · show (if isStr (getMember (rewrittenError (getMember (.obj proto props hidden) "error"))
        "name") "SubscriptionError" = true then _ else
        if isStr (getMember (rewrittenError (getMember (.obj proto props hidden) "error"))
        "name") "AmbulanceRequestError" = true then _ else _) = _
    rw [hn]
    rfl
  · cases hf : (truthy (if isUndefined statusCode = true then StatusCodes.OK else statusCode) &&
        isNum (if isUndefined statusCode = true then StatusCodes.OK else statusCode) 200)
    · rfl
    · rfl

theorem foldl_rules_last (rules : List ((JsVal → Bool) × JsVal)) (e base : JsVal) :
    rules.foldl (fun status rule => if rule.1 e then rule.2 else status) base =
      (((rules.filter (fun rule => rule.1 e)).getLast?).map Prod.snd).getD base := by
  induction rules generalizing base with
  | nil => rfl
  | cons r rs ih =>
    rw [List.foldl_cons, ih]
    cases hr : r.1 e with
    | false => simp [List.filter_cons, hr]
    | true =>
      simp only [List.filter_cons, hr, if_true]
      cases hf : rs.filter (fun rule => rule.1 e) with
      | nil => simp
      | cons x xs =>
        rw [List.getLast?_cons_cons, List.getLast?_eq_getLast (x :: xs) (by simp)]
        rfl

theorem makeResponse_error_status (env : Env) (proto : JsVal)
    (props hidden : List (String × JsVal)) (statusCode : JsVal)
    (h : truthy (getMember (.obj proto props hidden) "error") = true) :
    ∃ doc, makeResponse env (.obj proto props hidden) statusCode = .ok (objectLiteral [
        ("headers", corsHeaders),
        ("statusCode", (((matchingRules (getMember (.obj proto props hidden) "error")).getLast?).map
          Prod.snd).getD (unclassifiedStatus statusCode)),
        ("body", .str (env.renderJson doc))]) := by
  have hp := makeResponseParts_error_eq proto props hidden statusCode h
  rw [foldl_rules_last] at hp
  exact ⟨_, (makeResponse_of_parts env _ _ _ _ hp).1⟩

/-- C12, as stated, fails: an error named `UserNotFoundException` satisfies
none of the ten rules the claim lists, for which the claim gives 500 under
the default status code and the caller's 418 otherwise; `makeResponse`
answers 404 in both cases, the status of its test of that name. -/
theorem makeResponse_user_not_found :
    specPriorityRules.filter (fun rule =>
      rule.1 (libraryError "UserNotFoundException" "User does not exist.")) = [] ∧
    unclassifiedStatus .undefined = .num 500 ∧
    unclassifiedStatus (.num 418) = .num 418 ∧
    (makeResponseParts (objectLiteral [
        ("error", libraryError "UserNotFoundException" "User does not exist.")])
      .undefined).map Prod.fst = .ok (.num 404) ∧
    (makeResponseParts (objectLiteral [
        ("error", libraryError "UserNotFoundException" "User does not exist.")])
      (.num 418)).map Prod.fst = .ok (.num 404) ∧
    makeResponse sampleEnv (objectLiteral [
        ("error", libraryError "UserNotFoundException" "User does not exist.")]) (.num 418) =
      .ok (objectLiteral [("headers", corsHeaders), ("statusCode", .num 404),
        ("body", .str (sampleEnv.renderJson (objectLiteral [
          ("error", objectLiteral [("name", .str "UserNotFoundException"),
            ("message", .str "User does not exist."),
            ("code", .str "error")]),
          ("message", .str "User does not exist."),
          ("status", .str "error")])))]) :=
  ⟨rfl, rfl, rfl, rfl, rfl, rfl⟩

/-- C12, amended: for a populated error that satisfies exactly one of the
eleven tests of `makeResponse`, the status code is the one of that test: 422 for instances of
ParamMissingError, FieldError and QueryError, 404 for instances of
NotFoundError (and for the name UserNotFoundException), 406 for instances of
NotSupportedError, 400 for instances of BadRequestError and for the names
ValidationError, ConditionalCheckFailedException, AmbulanceRequestError and
SubscriptionError.  For an error that satisfies none it is 500 when the
caller's status code is 200 or omitted, and the caller's status code
otherwise. -/
theorem makeResponse_status_classification (env : Env) (proto : JsVal)
    (props hidden : List (String × JsVal)) (statusCode : JsVal)
    (hError : truthy (getMember (.obj proto props hidden) "error") = true) :
    (∃ status doc,
      makeResponse env (.obj proto props hidden) statusCode = .ok (objectLiteral [
        ("headers", corsHeaders), ("statusCode", status),
        ("body", .str (env.renderJson doc))]) ∧
      (∀ rule, matchingRules (getMember (.obj proto props hidden) "error") = [rule] →
        status = rule.2) ∧
      (matchingRules (getMember (.obj proto props hidden) "error") = [] →
        status = unclassifiedStatus statusCode)) ∧
    statusRules.map Prod.snd =
      [.num 422, .num 422, .num 404, .num 422, .num 406, .num 400, .num 404, .num 400,
       .num 400, .num 400, .num 400] ∧
    unclassifiedStatus .undefined = .num 500 ∧
    unclassifiedStatus (.num 200) = .num 500 ∧
    (isUndefined statusCode = false → isNum statusCode 200 = false →
      unclassifiedStatus statusCode = statusCode) := by
  refine ⟨?_, rfl, rfl, rfl, fun hu hn => ?_⟩
  · obtain ⟨doc, hdoc⟩ := makeResponse_error_status env proto props hidden statusCode hError
    refine ⟨_, doc, hdoc, fun rule hr => ?_, fun hr => ?_⟩
    · rw [hr]; rfl
    · rw [hr]; rfl
  · simp [unclassifiedStatus, hu, hn]

theorem makeResponse_status_classification_witness :
    truthy (getMember (objectLiteral [("error", newParamMissingError ["email"])]) "error") =
      true ∧
    matchingRules (newParamMissingError ["email"]) =
      [(fun error => instanceOf error .paramMissingError, StatusCodes.UNPROCESSABLE_ENTITY)] ∧
    (∃ doc, makeResponse sampleEnv (objectLiteral [("error", newParamMissingError ["email"])])
        .undefined = .ok (objectLiteral [
          ("headers", corsHeaders), ("statusCode", .num 422),
          ("body", .str (sampleEnv.renderJson doc))])) := by
  have hm : matchingRules (newParamMissingError ["email"]) =
      [(fun error => instanceOf error .paramMissingError, StatusCodes.UNPROCESSABLE_ENTITY)] :=
    rfl
  obtain ⟨⟨status, doc, hdoc, hone, _⟩, _⟩ := makeResponse_status_classification sampleEnv
    (.proto .object) [("error", newParamMissingError ["email"])] [] .undefined rfl
  have hs := hone _ hm
  subst hs
  exact ⟨rfl, hm, doc, hdoc⟩

/-- C13, as stated, fails: an instance of ParamMissingError named
"ValidationError" satisfies the 422 test and the 400 test; the first of the
two in the spec's priority order is the 422 one, but `makeResponse` answers
with 400, the status of the test that comes last in the source. -/
theorem makeResponse_later_rule_wins :
    instanceOf twoRuleError .paramMissingError = true ∧
    isStr (getMember twoRuleError "name") "ValidationError" = true ∧
    specFirstMatch twoRuleError = some (.num 422) ∧
    (makeResponseParts (objectLiteral [("error", twoRuleError)]) .undefined).map Prod.fst =
      .ok (.num 400) ∧
    makeResponse sampleEnv (objectLiteral [("error", twoRuleError)]) .undefined =
      .ok (objectLiteral [("headers", corsHeaders), ("statusCode", .num 400),
        ("body", .str (sampleEnv.renderJson (objectLiteral [
          ("error", objectLiteral [("name", .str "ValidationError"),
            ("message", .str "Please specify the following parameters in body: email"),
            ("code", .str "error")]),
          ("message", .str "Please specify the following parameters in body: email"),
          ("status", .str "error")])))]) :=
  ⟨rfl, rfl, rfl, rfl, rfl⟩

/-- C13, amended: when a populated error satisfies several tests of
`makeResponse`, exactly one of them decides the status code, and it is the
one that comes last in the order in which the source applies them
(ParamMissingError, FieldError, NotFoundError, QueryError, NotSupportedError,
BadRequestError, then the names UserNotFoundException, ValidationError,
ConditionalCheckFailedException, AmbulanceRequestError, SubscriptionError). -/
theorem makeResponse_last_match (env : Env) (proto : JsVal)
    (props hidden : List (String × JsVal)) (statusCode : JsVal)
    (rule : (JsVal → Bool) × JsVal)
    (hError : truthy (getMember (.obj proto props hidden) "error") = true)
    (hLast : (matchingRules (getMember (.obj proto props hidden) "error")).getLast? =
      some rule) :
    ∃ doc, makeResponse env (.obj proto props hidden) statusCode = .ok (objectLiteral [
        ("headers", corsHeaders), ("statusCode", rule.2),
        ("body", .str (env.renderJson doc))]) := by
  obtain ⟨doc, hdoc⟩ := makeResponse_error_status env proto props hidden statusCode hError
  rw [hLast] at hdoc
  exact ⟨doc, hdoc⟩

theorem makeResponse_last_match_witness :
    truthy (getMember (objectLiteral [("error", twoRuleError)]) "error") = true ∧
    matchingRules twoRuleError =
      [(fun error => instanceOf error .paramMissingError, StatusCodes.UNPROCESSABLE_ENTITY),
       (fun error => isStr (getMember error "name") "ValidationError",
        StatusCodes.BAD_REQUEST)] ∧
    (∃ doc, makeResponse sampleEnv (objectLiteral [("error", twoRuleError)]) (.num 200) =
      .ok (objectLiteral [("headers", corsHeaders), ("statusCode", .num 400),
        ("body", .str (sampleEnv.renderJson doc))])) :=
  ⟨rfl, rfl,
   makeResponse_last_match sampleEnv (.proto .object) [("error", twoRuleError)] [] (.num 200)
     (fun error => isStr (getMember error "name") "ValidationError", StatusCodes.BAD_REQUEST)
     rfl rfl⟩

theorem getMember_assign_self (proto v : JsVal) (props hidden : List (String × JsVal))
    (k : String) (hp : k ≠ "__proto__") :
    getMember (assign (.obj proto props hidden) k v) k = v := by
  unfold assign
  by_cases h1 : hasBinding k props = true
  · simp only [h1, if_true, getMember, findProp, lookup_updateBinding_self k v props h1]
  · have h1f : hasBinding k props = false := by simpa using h1
    have hl := (hasBinding_eq_false_iff k props).mp h1f
    by_cases h2 : hasBinding k hidden = true
    · simp only [h1, h2, if_true, if_false, getMember, findProp, hl,
        lookup_updateBinding_self k v hidden h2, Bool.false_eq_true]
    · have h3 : ¬ (k = "__proto__" ∧ (findProp proto k).isNone = true ∧
          reachesObjectPrototype proto = true) := fun h => hp h.1
      simp only [h1, h2, h3, if_false, getMember, findProp, lookup_append_single, hl,
        if_true, Bool.false_eq_true]

theorem isStr_eq_true (v : JsVal) (s : String) (h : isStr v s = true) : v = .str s := by
  cases v <;> simp [isStr] at h
  subst h
  rfl

theorem serializedBody_error_fields (proto : JsVal) (props hidden : List (String × JsVal))
    (statusCode : JsVal)
    (h : truthy (getMember (.obj proto props hidden) "error") = true) :
    docField (serializedBody (.obj proto props hidden) statusCode) "error" =
      some (objectLiteral (toJsonProps [
        ("name", getMember (rewrittenError (getMember (.obj proto props hidden) "error"))
          "name"),
        ("message", jsOr (getMember
          (rewrittenError (getMember (.obj proto props hidden) "error")) "message")
          (.str "")),
        ("code", jsOr (getMember
          (rewrittenError (getMember (.obj proto props hidden) "error")) "code")
          (jsOr (getMember (.obj proto props hidden) "code") (.str "error")))])) ∧
    docField (serializedBody (.obj proto props hidden) statusCode) "message" =
      toJson (jsOr (getMember
        (rewrittenError (getMember (.obj proto props hidden) "error")) "message")
        (.str "")) ∧
    docField (serializedBody (.obj proto props hidden) statusCode) "status" =
      some (.str "error") ∧
    docField (serializedBody (.obj proto props hidden) statusCode) "data" = none := by
  have hp := makeResponseParts_error_eq proto props hidden statusCode h
  have hn := keysNodup_spreadProps _ [("error", objectLiteral [
      ("name", getMember (rewrittenError (getMember (.obj proto props hidden) "error"))
        "name"),
      ("message", jsOr (getMember
        (rewrittenError (getMember (.obj proto props hidden) "error")) "message")
        (.str "")),
      ("code", jsOr (getMember
        (rewrittenError (getMember (.obj proto props hidden) "error")) "code")
        (jsOr (getMember (.obj proto props hidden) "code") (.str "error")))]),
    ("message", jsOr (getMember
      (rewrittenError (getMember (.obj proto props hidden) "error")) "message")
      (.str "")),
    ("status", .str "error")] (rest_keysNodup (props.filter (fun p => p.1 ∉ destructured)))
  refine ⟨?_, ?_, ?_, ?_⟩
  · rw [serializedBody_of_parts _ _ _ _ hp "error" hn, lookup_three]
    simp [objectLiteral, toJson]
  · rw [serializedBody_of_parts _ _ _ _ hp "message" hn, lookup_three]
    simp
  · rw [serializedBody_of_parts _ _ _ _ hp "status" hn, lookup_three]
    simp [toJson]
  · rw [serializedBody_of_parts _ _ _ _ hp "data" hn, lookup_three,
      lookup_rest "data" props (by decide)]
    simp

/-- C11: for every error object named "ConditionalCheckFailedException",
whatever its message and whatever status code the caller supplies,
`makeResponse` returns statusCode 400 and a body whose `message` and
`error.message` are both the text "Condition request failed; This resource
may not exist in the table". -/
theorem makeResponse_conditional_check (env : Env) (proto eproto : JsVal)
    (props hidden eprops ehidden : List (String × JsVal)) (statusCode : JsVal)
    (hError : getMember (.obj proto props hidden) "error" = .obj eproto eprops ehidden)
    (hName : getMember (.obj eproto eprops ehidden) "name" =
      .str "ConditionalCheckFailedException") :
    (∃ doc, makeResponse env (.obj proto props hidden) statusCode = .ok (objectLiteral [
        ("headers", corsHeaders), ("statusCode", .num 400),
        ("body", .str (env.renderJson doc))]) ∧
      serializedBody (.obj proto props hidden) statusCode = some doc) ∧
    docField (serializedBody (.obj proto props hidden) statusCode) "message" =
      some (.str "Condition request failed; This resource may not exist in the table") ∧
    docField (docField (serializedBody (.obj proto props hidden) statusCode) "error")
      "message" =
      some (.str "Condition request failed; This resource may not exist in the table") := by
  have ht : truthy (getMember (.obj proto props hidden) "error") = true := by
    rw [hError]; rfl
  have hm : getMember (rewrittenError (.obj eproto eprops ehidden)) "message" =
      .str "Condition request failed; This resource may not exist in the table" := by
    simp only [rewrittenError, hName, isStr, beq_self_eq_true, if_true]
    exact getMember_assign_self _ _ _ _ _ (by decide)
  have hf := serializedBody_error_fields proto props hidden statusCode ht
  rw [hError, hm, jsOr_str_empty] at hf
  refine ⟨?_, hf.2.1, ?_⟩
  · have hp := makeResponseParts_error_eq proto props hidden statusCode ht
    have hs : statusRules.foldl
        (fun status rule =>
          if rule.1 (getMember (.obj proto props hidden) "error") then rule.2 else status)
        (unclassifiedStatus statusCode) = .num 400 := by
      rw [hError]
      simp [statusRules, List.foldl, hName, isStr, StatusCodes.BAD_REQUEST]
    rw [hs] at hp
    exact ⟨_, makeResponse_of_parts env _ _ _ _ hp⟩
  · rw [hf.1]
    exact toJsonProps_lookup_some "message" _ _ _ rfl rfl

theorem makeResponse_conditional_check_witness :
    getMember (objectLiteral [("error",
        libraryError "ConditionalCheckFailedException" "The conditional request failed")])
      "error" = libraryError "ConditionalCheckFailedException" "The conditional request failed" ∧
    getMember (libraryError "ConditionalCheckFailedException" "The conditional request failed")
      "name" = .str "ConditionalCheckFailedException" ∧
    docField (serializedBody (objectLiteral [("error",
        libraryError "ConditionalCheckFailedException" "The conditional request failed")])
      (.num 503)) "message" =
      some (.str "Condition request failed; This resource may not exist in the table") :=
  ⟨rfl, rfl,
   (makeResponse_conditional_check sampleEnv (.proto .object) (.proto .error)
      [("error", libraryError "ConditionalCheckFailedException" "The conditional request failed")]
      [] [("name", .str "ConditionalCheckFailedException")]
      [("message", .str "The conditional request failed")] (.num 503) rfl rfl).2.1⟩

/-- C14, as stated, fails: for the populated error `{message: "disk full"}`,
which has no name, the `error` object of the serialized body has the keys
`message` and `code` only; it has no `name` key. -/
theorem makeResponse_error_without_name :
    truthy (getMember (objectLiteral [("error", objectLiteral [("message", .str "disk full")])])
      "error") = true ∧
    serializedBody (objectLiteral [("error", objectLiteral [("message", .str "disk full")])])
        (.num 503) =
      some (objectLiteral [
        ("error", objectLiteral [("message", .str "disk full"), ("code", .str "error")]),
        ("message", .str "disk full"),
        ("status", .str "error")]) ∧
    docHasKey (docField (serializedBody
      (objectLiteral [("error", objectLiteral [("message", .str "disk full")])]) (.num 503))
      "error") "name" = false :=
  ⟨rfl, rfl, rfl⟩

/-- C14, amended: for every populated error the `error` object of the
serialized body has no key other than `name`, `message` and `code`; each of
the three is present when its value is written by `JSON.stringify` and left
out otherwise.  `name` is the error's name, `message` is the error's message
as `makeResponse` leaves it (the empty string when it has none), `code` is the
error's code, else the caller's `code`, else "error"; the top-level `message`
of the body equals `error.message`. -/
theorem makeResponse_error_triple (proto : JsVal) (props hidden : List (String × JsVal))
    (statusCode : JsVal)
    (hError : truthy (getMember (.obj proto props hidden) "error") = true) :
    (∀ k, docField (docField (serializedBody (.obj proto props hidden) statusCode) "error") k =
      if k = "name" then toJson (getMember (getMember (.obj proto props hidden) "error") "name")
      else if k = "message" then
        toJson (jsOr (getMember
          (rewrittenError (getMember (.obj proto props hidden) "error")) "message") (.str ""))
      else if k = "code" then
        toJson (jsOr (getMember
          (rewrittenError (getMember (.obj proto props hidden) "error")) "code")
          (jsOr (getMember (.obj proto props hidden) "code") (.str "error")))
      else none) ∧
    docField (serializedBody (.obj proto props hidden) statusCode) "message" =
      toJson (jsOr (getMember
        (rewrittenError (getMember (.obj proto props hidden) "error")) "message") (.str "")) ∧
    (isStr (getMember (getMember (.obj proto props hidden) "error") "name")
        "ConditionalCheckFailedException" = false →
      rewrittenError (getMember (.obj proto props hidden) "error") =
        getMember (.obj proto props hidden) "error") := by
  have hf := serializedBody_error_fields proto props hidden statusCode hError
  refine ⟨fun k => ?_, hf.2.1, fun hn => ?_⟩
  · rw [hf.1, name_rewrittenError]
    show (toJsonProps _).lookup k = _
    rw [toJsonProps_lookup k _ (by simp)]
    by_cases h1 : k = "name"
    · subst h1; rfl
    · by_cases h2 : k = "message"
      · subst h2; rfl
      · by_cases h3 : k = "code"
        · subst h3; rfl
        · have e1 : (k == "name") = false := by simpa using h1
          have e2 : (k == "message") = false := by simpa using h2
          have e3 : (k == "code") = false := by simpa using h3
          simp only [List.lookup_cons, e1, e2, e3, List.lookup_nil, if_neg h1, if_neg h2,
            if_neg h3, Option.none_bind]
  · simp only [rewrittenError, hn, Bool.false_eq_true, if_false]

theorem makeResponse_error_triple_witness :
    truthy (getMember (objectLiteral [("error", AuthError "not_allowed" "no access"),
      ("code", .str "fallback")]) "error") = true ∧
    docField (docField (serializedBody (objectLiteral [
        ("error", AuthError "not_allowed" "no access"), ("code", .str "fallback")]) (.num 403))
      "error") "code" = some (.str "auth/not_allowed") ∧
    docField (docField (serializedBody (objectLiteral [
        ("error", AuthError "not_allowed" "no access"), ("code", .str "fallback")]) (.num 403))
      "error") "stack" = none :=
  ⟨rfl,
   (makeResponse_error_triple (.proto .object) [("error", AuthError "not_allowed" "no access"),
      ("code", .str "fallback")] [] (.num 403) rfl).1 "code",
   (makeResponse_error_triple (.proto .object) [("error", AuthError "not_allowed" "no access"),
      ("code", .str "fallback")] [] (.num 403) rfl).1 "stack"⟩

theorem spreadProps_eq_append (a l : List (String × JsVal))
    (h : ((a ++ l).map Prod.fst).Nodup) : spreadProps a l = a ++ l := by
  induction l generalizing a with
  | nil => simp [spreadProps]
  | cons p l ih =>
    have hk : p.1 ∉ a.map Prod.fst := by
      rw [List.map_append, List.nodup_append] at h
      intro hmem
      exact h.2.2 hmem (by simp)
    have hb : hasBinding p.1 a = false :=
      (hasBinding_eq_false_iff p.1 a).mpr (lookup_none_of_not_mem p.1 a hk)
    show spreadProps (defineBinding p.1 p.2 a) l = _
    have hd : defineBinding p.1 p.2 a = a ++ [p] := by
      simp [defineBinding, hb]
    rw [hd, ih (a ++ [p]) (by simpa using h)]
    simp

theorem lookup_filter_destructured (k : String) (l : List (String × JsVal))
    (h : k ∉ destructured) :
    (l.filter (fun p => p.1 ∉ destructured)).lookup k = l.lookup k := by
  induction l with
  | nil => rfl
  | cons p l ih =>
    obtain ⟨a, b⟩ := p
    by_cases ha : a ∈ destructured
    · have hne : (k == a) = false := by
        have : k ≠ a := fun heq => h (heq ▸ ha)
        simpa using this
      simp only [List.filter_cons, ha, not_true_eq_false, decide_False, Bool.false_eq_true,
        if_false, List.lookup_cons, hne]
      exact ih
    · simp only [List.filter_cons, ha, not_false_eq_true, decide_True, if_true,
        List.lookup_cons]
      rw [ih]

theorem lookup_rest_of_nodup (k : String) (l : List (String × JsVal))
    (hn : (l.map Prod.fst).Nodup) (h : k ∉ destructured) :
    (spreadProps [] (spreadProps [] (l.filter (fun p => p.1 ∉ destructured)))).lookup k =
      l.lookup k := by
  have hf : ((l.filter (fun p => p.1 ∉ destructured)).map Prod.fst).Nodup :=
    hn.sublist ((List.filter_sublist l).map Prod.fst)
  have hinner : spreadProps [] (l.filter (fun p => p.1 ∉ destructured)) =
      l.filter (fun p => p.1 ∉ destructured) := by
    simpa using spreadProps_eq_append [] (l.filter (fun p => p.1 ∉ destructured))
      (by simpa using hf)
  rw [hinner, hinner]
  exact lookup_filter_destructured k l h

/-- C15: for every response body (a well-formed object, whatever extra fields
it carries, also one named `status`) the serialized body's `status` is
"error" when an error is populated and "success" otherwise; every extra field
is passed through as `JSON.stringify` writes it; and `message`, `data` and
`error` are the ones `makeResponse` computes from the error, or from the data
and message supplied, never an extra field. -/
theorem makeResponse_envelope_fields (proto : JsVal) (props hidden : List (String × JsVal))
    (statusCode : JsVal) (hWellFormed : (props.map Prod.fst).Nodup) :
    docField (serializedBody (.obj proto props hidden) statusCode) "status" =
      some (.str (if truthy (getMember (.obj proto props hidden) "error") then "error"
        else "success")) ∧
    (∀ k, k ∉ ["error", "code", "data", "message", "status"] →
      docField (serializedBody (.obj proto props hidden) statusCode) k =
        (props.lookup k).bind toJson) ∧
    (truthy (getMember (.obj proto props hidden) "error") = true →
      docField (serializedBody (.obj proto props hidden) statusCode) "data" = none ∧
      docField (serializedBody (.obj proto props hidden) statusCode) "message" =
        toJson (jsOr (getMember
          (rewrittenError (getMember (.obj proto props hidden) "error")) "message")
          (.str "")) ∧
      docHasKey (serializedBody (.obj proto props hidden) statusCode) "error" = true) ∧
    (truthy (getMember (.obj proto props hidden) "error") = false →
      docField (serializedBody (.obj proto props hidden) statusCode) "error" = none ∧
      docField (serializedBody (.obj proto props hidden) statusCode) "data" =
        toJson (getMember (.obj proto props hidden) "data") ∧
      docField (serializedBody (.obj proto props hidden) statusCode) "message" =
        toJson (getMember (.obj proto props hidden) "message")) := by
  refine ⟨?_, fun k hk => ?_, fun h => ?_, fun h => ?_⟩
  · cases h : truthy (getMember (.obj proto props hidden) "error") with
    | true => exact (serializedBody_error_fields proto props hidden statusCode h).2.2.1
    | false => exact (serializedBody_success proto props hidden statusCode h).2.1
  · simp only [List.mem_cons, List.mem_singleton, List.not_mem_nil, or_false, not_or] at hk
    obtain ⟨k1, k2, k3, k4, k5⟩ := hk
    have hd : k ∉ destructured := by
      simp [destructured, k1, k2, k3, k4]
    have hrest := lookup_rest_of_nodup k props hWellFormed hd
    cases h : truthy (getMember (.obj proto props hidden) "error") with
    | true =>
      have hp := makeResponseParts_error_eq proto props hidden statusCode h
      rw [serializedBody_of_parts _ _ _ _ hp k
        (keysNodup_spreadProps _ _ (rest_keysNodup _)), lookup_three, if_neg k5, if_neg k4,
        if_neg k1, hrest]
    | false =>
      have hp := makeResponseParts_success proto props hidden statusCode h
      rw [serializedBody_of_parts _ _ _ _ hp k
        (keysNodup_spreadProps _ _ (rest_keysNodup _)), lookup_three, if_neg k5, if_neg k4,
        if_neg k3, hrest]
  · have hf := serializedBody_error_fields proto props hidden statusCode h
    exact ⟨hf.2.2.2, hf.2.1, (serializedBody_error proto props hidden statusCode h).1⟩
  · have hs := serializedBody_success proto props hidden statusCode h
    exact ⟨hs.1, hs.2.2.1, hs.2.2.2⟩

theorem makeResponse_envelope_fields_witness :
    ([("data", JsVal.num 7), ("status", JsVal.str "draft"), ("page", JsVal.num 2)].map
      Prod.fst).Nodup ∧
    docField (serializedBody (objectLiteral [("data", .num 7), ("status", .str "draft"),
      ("page", .num 2)]) .undefined) "status" = some (.str "success") ∧
    docField (serializedBody (objectLiteral [("data", .num 7), ("status", .str "draft"),
      ("page", .num 2)]) .undefined) "page" = some (.num 2) :=
  ⟨by decide,
   (makeResponse_envelope_fields (.proto .object) [("data", .num 7), ("status", .str "draft"),
      ("page", .num 2)] [] .undefined (by decide)).1,
   (makeResponse_envelope_fields (.proto .object) [("data", .num 7), ("status", .str "draft"),
      ("page", .num 2)] [] .undefined (by decide)).2.1 "page" (by decide)⟩

/-! ## Claims of an authorized request -/

/-- C17: for an event with a request context, `getUserClaims` throws the error
with code "authorizer_error" and message "No claims found in request" when the
authorizer context is absent or carries no claims; otherwise it returns what
`JSON.parse` makes of `authorizer.claims`, and `getUserID` returns the `sub` of
that mapping. -/
theorem getUserClaims_contract (env : Env) (event requestContext authorizer : JsVal)
    (hContext : getProp event "requestContext" = .ok requestContext)
    (hAuthorizer : getProp requestContext "authorizer" = .ok authorizer) :
    ((truthy authorizer = false ∨ truthy (getMember authorizer "claims") = false) →
      getUserClaims env event =
        .error (assign (newError "No claims found in request") "code"
          (.str "authorizer_error"))) ∧
    getMember (assign (newError "No claims found in request") "code" (.str "authorizer_error"))
      "code" = .str "authorizer_error" ∧
    getMember (assign (newError "No claims found in request") "code" (.str "authorizer_error"))
      "message" = .str "No claims found in request" ∧
    (truthy authorizer = true → truthy (getMember authorizer "claims") = true →
      getUserClaims env event = env.jsonParse (toStr env (getMember authorizer "claims")) ∧
      (∀ claims, env.jsonParse (toStr env (getMember authorizer "claims")) = .ok claims →
        getUserID env event = getProp claims "sub") ∧
      (∀ cproto cprops chidden,
        env.jsonParse (toStr env (getMember authorizer "claims")) =
          .ok (.obj cproto cprops chidden) →
        getUserID env event = .ok (getMember (.obj cproto cprops chidden) "sub"))) := by
  refine ⟨fun h => ?_, rfl, rfl, fun h1 h2 => ?_⟩
  · have hb : (truthy authorizer && truthy (getMember authorizer "claims")) = false := by
      rcases h with h | h <;> simp [h]
    simp only [getUserClaims, hContext, hAuthorizer, bind, Except.bind, hb, Bool.false_eq_true,
      if_false]
  · have hc : getUserClaims env event =
        env.jsonParse (toStr env (getMember authorizer "claims")) := by
      simp only [getUserClaims, hContext, hAuthorizer, bind, Except.bind, h1, h2, Bool.and_self,
        if_true]
    refine ⟨hc, fun claims hp => ?_, fun cproto cprops chidden hp => ?_⟩
    · simp only [getUserID, hc, hp, bind, Except.bind, pure, Except.pure]
      cases getProp claims "sub" <;> rfl
    · simp only [getUserID, hc, hp, bind, Except.bind, pure, Except.pure, getProp]

theorem getUserClaims_contract_witness :
    getProp (authorizedEvent (.str sampleClaimsText)) "requestContext" =
      .ok (objectLiteral [("authorizer", objectLiteral [("claims", .str sampleClaimsText)])]) ∧
    getProp (objectLiteral [("authorizer", objectLiteral [("claims", .str sampleClaimsText)])])
      "authorizer" = .ok (objectLiteral [("claims", .str sampleClaimsText)]) ∧
    getUserClaims claimsEnv (authorizedEvent (.str sampleClaimsText)) =
      .ok (objectLiteral [("sub", .str "u1")]) ∧
    getUserID claimsEnv (authorizedEvent (.str sampleClaimsText)) = .ok (.str "u1") :=
  ⟨rfl, rfl,
   ((getUserClaims_contract claimsEnv (authorizedEvent (.str sampleClaimsText))
      (objectLiteral [("authorizer", objectLiteral [("claims", .str sampleClaimsText)])])
      (objectLiteral [("claims", .str sampleClaimsText)]) rfl rfl).2.2.2 rfl rfl).1,
   ((getUserClaims_contract claimsEnv (authorizedEvent (.str sampleClaimsText))
      (objectLiteral [("authorizer", objectLiteral [("claims", .str sampleClaimsText)])])
      (objectLiteral [("claims", .str sampleClaimsText)]) rfl rfl).2.2.2 rfl rfl).2.2
      (.proto .object) [("sub", .str "u1")] [] rfl⟩

theorem makeResponse_not_allowed (env : Env) (message : String) :
    makeResponse env (objectLiteral [("error", AuthError "not_allowed" message)])
        StatusCodes.FORBIDDEN =
      .ok (objectLiteral [
        ("headers", corsHeaders),
        ("statusCode", .num 403),
        ("body", .str (env.renderJson (objectLiteral [
          ("error", objectLiteral [("name", .str "AuthError"), ("message", .str message),
            ("code", .str "auth/not_allowed")]),
          ("message", .str message),
          ("status", .str "error")])))]) ∧
    serializedBody (objectLiteral [("error", AuthError "not_allowed" message)])
        StatusCodes.FORBIDDEN =
      some (objectLiteral [
          ("error", objectLiteral [("name", .str "AuthError"), ("message", .str message),
            ("code", .str "auth/not_allowed")]),
          ("message", .str message),
          ("status", .str "error")]) := by
  have hp := makeResponseParts_error_eq (.proto .object)
    [("error", AuthError "not_allowed" message)] [] StatusCodes.FORBIDDEN rfl
  have hm : getMember (rewrittenError (getMember (.obj (.proto .object)
      [("error", AuthError "not_allowed" message)] []) "error")) "message" = .str message := rfl
  rw [hm, jsOr_str_empty] at hp
  exact makeResponse_of_parts env _ _ _ _ hp

/-- C16: for an event whose authorizer context carries the claims of a user
and every `userId`, `isUserAllowed` returns `true` when `claims.sub === userId`;
when they differ it throws nothing and returns the response with statusCode 403
whose body has status "error", no `data` key, and the error named "AuthError"
with code "auth/not_allowed". -/
theorem isUserAllowed_contract (env : Env) (event userId cproto : JsVal)
    (cprops chidden : List (String × JsVal))
    (hClaims : getUserClaims env event = .ok (.obj cproto cprops chidden)) :
    (strictEq (getMember (.obj cproto cprops chidden) "sub") userId = true →
      isUserAllowed env event userId = .ok (.bool true)) ∧
    (strictEq (getMember (.obj cproto cprops chidden) "sub") userId = false →
      ∃ message,
        isUserAllowed env event userId = .ok (objectLiteral [
          ("headers", corsHeaders),
          ("statusCode", .num 403),
          ("body", .str (env.renderJson (objectLiteral [
            ("error", objectLiteral [("name", .str "AuthError"), ("message", .str message),
              ("code", .str "auth/not_allowed")]),
            ("message", .str message),
            ("status", .str "error")])))]) ∧
        message = "User " ++ toStr env userId ++
          " is not the same as user who has a claim to this resource: " ++
          toStr env (getMember (.obj cproto cprops chidden) "sub") ∧
        docHasKey (some (objectLiteral [
            ("error", objectLiteral [("name", .str "AuthError"), ("message", .str message),
              ("code", .str "auth/not_allowed")]),
            ("message", .str message),
            ("status", .str "error")])) "data" = false) := by
  refine ⟨fun h => ?_, fun h => ⟨_, ?_, rfl, rfl⟩⟩
  · simp only [isUserAllowed, hClaims, bind, Except.bind, getProp, h, if_true, pure, Except.pure]
  · simp only [isUserAllowed, hClaims, bind, Except.bind, getProp, h, Bool.false_eq_true,
      if_false]
    exact (makeResponse_not_allowed env _).1

theorem isUserAllowed_contract_witness :
    getUserClaims claimsEnv (authorizedEvent (.str sampleClaimsText)) =
      .ok (objectLiteral [("sub", .str "u1")]) ∧
    isUserAllowed claimsEnv (authorizedEvent (.str sampleClaimsText)) (.str "u1") =
      .ok (.bool true) ∧
    (∃ message, isUserAllowed claimsEnv (authorizedEvent (.str sampleClaimsText)) (.str "u2") =
      .ok (objectLiteral [
          ("headers", corsHeaders),
          ("statusCode", .num 403),
          ("body", .str (claimsEnv.renderJson (objectLiteral [
            ("error", objectLiteral [("name", .str "AuthError"), ("message", .str message),
              ("code", .str "auth/not_allowed")]),
            ("message", .str message),
            ("status", .str "error")])))])) :=
  ⟨rfl,
   (isUserAllowed_contract claimsEnv (authorizedEvent (.str sampleClaimsText)) (.str "u1")
      (.proto .object) [("sub", .str "u1")] [] rfl).1 rfl,
   ((isUserAllowed_contract claimsEnv (authorizedEvent (.str sampleClaimsText)) (.str "u2")
      (.proto .object) [("sub", .str "u1")] [] rfl).2 rfl).imp (fun _ h => h.1)⟩

/-! ## The user directory -/

theorem assign_plain (proto v : JsVal) (props : List (String × JsVal)) (k j : String)
    (hj : j ≠ "__proto__") :
    ∃ proto2 props2, assign (.obj proto props []) k v = .obj proto2 props2 [] ∧
      props2.lookup j = if j = k then some v else props.lookup j := by
  simp only [assign]
  have h2 : ¬ hasBinding k ([] : List (String × JsVal)) = true := by simp [hasBinding]
  by_cases h1 : hasBinding k props = true
  · refine ⟨proto, updateBinding k v props, by rw [if_pos h1], ?_⟩
    by_cases hjk : j = k
    · subst hjk
      rw [if_pos rfl, lookup_updateBinding_self j v props h1]
    · rw [if_neg hjk, lookup_updateBinding_ne j k v props hjk]
  · have h1f : hasBinding k props = false := by simpa using h1
    have hl := (hasBinding_eq_false_iff k props).mp h1f
    by_cases h3 : k = "__proto__" ∧ (findProp proto k).isNone = true ∧
        reachesObjectPrototype proto = true
    · have hjk : j ≠ k := fun h => hj (h.trans h3.1)
      by_cases h4 : isObjectOrNull v = true
      · exact ⟨v, props, by rw [if_neg h1, if_neg h2, if_pos h3, if_pos h4],
          by rw [if_neg hjk]⟩
      · exact ⟨proto, props, by rw [if_neg h1, if_neg h2, if_pos h3, if_neg h4],
          by rw [if_neg hjk]⟩
    · refine ⟨proto, props ++ [(k, v)], by rw [if_neg h1, if_neg h2, if_neg h3], ?_⟩
      rw [lookup_append_single]
      by_cases hjk : j = k
      · subst hjk
        rw [hl, if_pos rfl]
      · rw [if_neg hjk]
        cases props.lookup j <;> simp [hjk]

theorem foldl_assign_lookup (attrs : List (String × JsVal)) (proto : JsVal)
    (props : List (String × JsVal)) (j : String) (hj : j ≠ "__proto__") :
    ∃ proto2 props2,
      attrs.foldl (fun acc p => assign acc p.1 p.2) (.obj proto props []) =
        .obj proto2 props2 [] ∧
      props2.lookup j =
        match attrs.reverse.lookup j with
        | some v => some v
        | none => props.lookup j := by
  induction attrs generalizing proto props with
  | nil => exact ⟨proto, props, rfl, rfl⟩
  | cons a rest ih =>
    obtain ⟨p1, q1, h1, hl1⟩ := assign_plain proto a.2 props a.1 j hj
    obtain ⟨p2, q2, h2, hl2⟩ := ih p1 q1
    refine ⟨p2, q2, by rw [List.foldl_cons, h1, h2], ?_⟩
    rw [hl2, List.reverse_cons, lookup_append_single, hl1]
    cases rest.reverse.lookup j with
    | some x => rfl
    | none =>
      by_cases hja : j = a.1
      · simp [hja]
      · simp [hja]

theorem assign_obj (proto v : JsVal) (props hidden : List (String × JsVal)) (k : String) :
    ∃ proto2 props2 hidden2,
      assign (.obj proto props hidden) k v = .obj proto2 props2 hidden2 := by
  simp only [assign]
  split
  · exact ⟨_, _, _, rfl⟩
  · split
    · exact ⟨_, _, _, rfl⟩
    · split
      · split
        · exact ⟨_, _, _, rfl⟩
        · exact ⟨_, _, _, rfl⟩
      · exact ⟨_, _, _, rfl⟩

theorem foldlM_attributes (env : Env) (attrs : List (String × JsVal)) (proto : JsVal)
    (props hidden : List (String × JsVal)) :
    (attrs.map (fun p => objectLiteral [("Name", .str p.1), ("Value", p.2)])).foldlM
        (fun acc item => do
          let name ← getProp item "Name"
          let value ← getProp item "Value"
          setProp acc (toStr env name) value) (.obj proto props hidden) =
      .ok (attrs.foldl (fun acc p => assign acc p.1 p.2) (.obj proto props hidden)) := by
  induction attrs generalizing proto props hidden with
  | nil => rfl
  | cons a rest ih =>
    obtain ⟨p2, q2, h2, hassign⟩ := assign_obj proto a.2 props hidden a.1
    have hstep : (do
        let name ← getProp (objectLiteral [("Name", .str a.1), ("Value", a.2)]) "Name"
        let value ← getProp (objectLiteral [("Name", .str a.1), ("Value", a.2)]) "Value"
        setProp (.obj proto props hidden) (toStr env name) value) =
        .ok (assign (.obj proto props hidden) a.1 a.2) := rfl
    simp only [List.map_cons, List.foldlM, List.foldl_cons]
    rw [hstep, hassign]
    exact ih p2 q2 h2

theorem parseUserAttributes_items (env : Env) (attrs : List (String × JsVal)) :
    parseUserAttributes env (.arr (attrs.map (fun p =>
        objectLiteral [("Name", .str p.1), ("Value", p.2)]))) =
      .ok (attrs.foldl (fun acc p => assign acc p.1 p.2) (objectLiteral [])) :=
  foldlM_attributes env attrs _ _ _

theorem parseUser_id (env : Env) (user : JsVal) (attrs : List (String × JsVal)) (v : JsVal)
    (h1 : user ≠ .undefined) (h2 : user ≠ .null)
    (hAttrs : jsOr (getMember user "UserAttributes") (getMember user "Attributes") =
      .arr (attrs.map (fun p => objectLiteral [("Name", .str p.1), ("Value", p.2)])))
    (hSub : attrs.reverse.lookup "sub" = some v) :
    ∃ attributes, parseUser env user = .ok (objectLiteral [
      ("id", v),
      ("username", getMember user "Username"),
      ("attributes", attributes),
      ("status", getMember user "UserStatus"),
      ("enabled", getMember user "Enabled"),
      ("created_at", getMember user "UserCreateDate"),
      ("updated_at", getMember user "UserLastModifiedDate")]) := by
  obtain ⟨p2, q2, hfold, hlook⟩ :=
    foldl_assign_lookup attrs (.proto .object) [] "sub" (by decide)
  rw [hSub] at hlook
  have hparsed := parseUserAttributes_items env attrs
  have hobj : objectLiteral [] = JsVal.obj (.proto .object) [] [] := rfl
  rw [hobj, hfold] at hparsed
  have hsub : getProp (.obj p2 q2 []) "sub" = .ok v := by
    simp only [getProp, getMember, findProp, hlook]
  refine ⟨.obj p2 q2 [], ?_⟩
  simp only [parseUser, getProp_defined user _ h1 h2, bind, Except.bind]
  by_cases ht : truthy (getMember user "UserAttributes") = true
  · simp only [jsOr, ht, if_true] at hAttrs
    rw [if_pos ht]
    simp only [pure, Except.pure, hAttrs, hparsed, hsub]
  · simp only [jsOr, ht, if_false, Bool.false_eq_true] at hAttrs
    rw [if_neg ht]
    simp only [pure, Except.pure, hAttrs, hparsed, hsub]

/-- C18: for a user record that the directory lookup returns,
`cognitoAdminGetUser` returns the parsed record when the status is CONFIRMED,
and the `id` of the parsed record is the value of the attribute named `sub`;
for each of the statuses UNCONFIRMED, ARCHIVED, COMPROMISED, UNKNOWN,
RESET_REQUIRED and FORCE_CHANGE_PASSWORD it throws the `AuthError` whose code
is `auth/unconfirmed_user`, `auth/archived_user`, `auth/compromised_user`,
`auth/unknown_user`, `auth/reset_required_user` and
`auth/force_change_password` respectively, six pairwise distinct codes. -/
theorem cognitoAdminGetUser_status (env : Env) (cognito : Cognito)
    (options poolId userId user status : JsVal)
    (hOptions : getProp options "userId" = .ok userId)
    (hLookup : cognito.adminGetUser
      (objectLiteral [("UserPoolId", poolId), ("Username", userId)]) = .ok user)
    (hStatus : getProp user "UserStatus" = .ok status) :
    (status = .str "CONFIRMED" →
      cognitoAdminGetUser env cognito options poolId = parseUser env user ∧
      ∀ (attrs : List (String × JsVal)) (v : JsVal),
        jsOr (getMember user "UserAttributes") (getMember user "Attributes") =
          .arr (attrs.map (fun p => objectLiteral [("Name", .str p.1), ("Value", p.2)])) →
        attrs.reverse.lookup "sub" = some v →
        ∃ record, cognitoAdminGetUser env cognito options poolId = .ok record ∧
          getMember record "id" = v) ∧
    (status = .str "UNCONFIRMED" →
      cognitoAdminGetUser env cognito options poolId =
        .error (AuthError "unconfirmed_user" "User has been created but not confirmed")) ∧
    (status = .str "ARCHIVED" →
      cognitoAdminGetUser env cognito options poolId =
        .error (AuthError "archived_user" "User is no longer active")) ∧
    (status = .str "COMPROMISED" →
      cognitoAdminGetUser env cognito options poolId =
        .error (AuthError "compromised_user"
          "User is disabled due to a potential security threat.")) ∧
    (status = .str "UNKNOWN" →
      cognitoAdminGetUser env cognito options poolId =
        .error (AuthError "unknown_user" "User status is unknown")) ∧
    (status = .str "RESET_REQUIRED" →
      ∃ message, cognitoAdminGetUser env cognito options poolId =
        .error (AuthError "reset_required_user" message)) ∧
    (status = .str "FORCE_CHANGE_PASSWORD" →
      ∃ message, cognitoAdminGetUser env cognito options poolId =
        .error (AuthError "force_change_password" message)) ∧
    (∀ code message, getMember (AuthError code message) "code" = .str ("auth/" ++ code)) ∧
    ["auth/unconfirmed_user", "auth/archived_user", "auth/compromised_user",
      "auth/unknown_user", "auth/reset_required_user", "auth/force_change_password"].Nodup := by
  have hd := getProp_ok_defined user status "UserStatus" hStatus
  refine ⟨fun h => ?_, fun h => ?_, fun h => ?_, fun h => ?_, fun h => ?_, fun h => ?_,
    fun h => ?_, fun _ _ => rfl, by decide⟩
  · subst h
    have hc : cognitoAdminGetUser env cognito options poolId = parseUser env user := by
      simp [cognitoAdminGetUser, hOptions, hLookup, hStatus, bind, Except.bind, isStr]
    refine ⟨hc, fun attrs v hAttrs hSub => ?_⟩
    obtain ⟨attributes, hp⟩ := parseUser_id env user attrs v hd.1 hd.2 hAttrs hSub
    exact ⟨_, hc.trans hp, rfl⟩
  · subst h
    simp [cognitoAdminGetUser, hOptions, hLookup, hStatus, bind, Except.bind, isStr]
  · subst h
    simp [cognitoAdminGetUser, hOptions, hLookup, hStatus, bind, Except.bind, isStr]
  · subst h
    simp [cognitoAdminGetUser, hOptions, hLookup, hStatus, bind, Except.bind, isStr]
  · subst h
    simp [cognitoAdminGetUser, hOptions, hLookup, hStatus, bind, Except.bind, isStr]
  · subst h
    exact ⟨_, by
      simp only [cognitoAdminGetUser, hOptions, hLookup, hStatus, bind, Except.bind, isStr]
      rfl⟩
  · subst h
    exact ⟨_, by
      simp only [cognitoAdminGetUser, hOptions, hLookup, hStatus, bind, Except.bind, isStr]
      rfl⟩

theorem cognitoAdminGetUser_status_witness :
    getProp (objectLiteral [("userId", .str "u1")]) "userId" = .ok (.str "u1") ∧
    (statusDirectory "ARCHIVED").adminGetUser
      (objectLiteral [("UserPoolId", .str "pool"), ("Username", .str "u1")]) =
      .ok (directoryUser "u1" "sub-u1" "ARCHIVED") ∧
    getProp (directoryUser "u1" "sub-u1" "ARCHIVED") "UserStatus" = .ok (.str "ARCHIVED") ∧
    cognitoAdminGetUser sampleEnv (statusDirectory "ARCHIVED")
      (objectLiteral [("userId", .str "u1")]) (.str "pool") =
      .error (AuthError "archived_user" "User is no longer active") ∧
    (cognitoAdminGetUser sampleEnv (statusDirectory "CONFIRMED")
      (objectLiteral [("userId", .str "u1")]) (.str "pool")).map
        (fun record => getMember record "id") = .ok (.str "sub-u1") :=
  ⟨rfl, rfl, rfl,
   (cognitoAdminGetUser_status sampleEnv (statusDirectory "ARCHIVED")
      (objectLiteral [("userId", .str "u1")]) (.str "pool") (.str "u1")
      (directoryUser "u1" "sub-u1" "ARCHIVED") (.str "ARCHIVED") rfl rfl rfl).2.2.1 rfl,
   rfl⟩

theorem fullPage_length (k : Nat) : (fullPage k).length = 60 := by
  simp [fullPage]

theorem listUsersLoop_threePages (env : Env) (poolId : JsVal) (fuel : Nat)
    (requests users : List JsVal) :
    listUsersLoop env (pagedDirectory threePages) poolId (.num 1) fuel requests users =
      ⟨requests ++ List.replicate fuel
        (objectLiteral [("UserPoolId", poolId), ("PaginationToken", .num 1)]), none⟩ := by
  induction fuel generalizing requests users with
  | zero => simp [listUsersLoop]
  | succ n ih =>
    have hresp : (pagedDirectory threePages).listUsers requests.length
        (objectLiteral [("UserPoolId", poolId), ("PaginationToken", .num 1)]) =
        .ok (objectLiteral [("Users", .arr (fullPage 1)), ("PaginationToken", .num 2)]) := rfl
    have hpage : getProp (objectLiteral [("Users", .arr (fullPage 1)),
        ("PaginationToken", .num 2)]) "Users" = .ok (.arr (fullPage 1)) := rfl
    have hlen : getProp (.arr (fullPage 1)) "length" = .ok (.num 60) := by
      show Except.ok (JsVal.num ((fullPage 1).length : Nat)) = _
      rw [fullPage_length]
      rfl
    simp only [listUsersLoop, hresp, hpage, hlen, spreadArray, bind, Except.bind, pure,
      Except.pure]
    rw [show decide ((60 : Int) < 60) = false from rfl]
    simp only [ih, List.append_assoc, List.singleton_append, List.replicate_succ]

/-- C19, at a failing input: a pool of 121 users, served as two pages of 60
and a last page of one.  The loop of `cognitoAdminListUsers` sends the
continuation token of the first page in every request, so the directory keeps
serving the second page; however many iterations are run, the third page is
never requested and the function has not returned. -/
theorem cognitoAdminListUsers_repeats_second_page (env : Env) (poolId : JsVal) (fuel : Nat) :
    cognitoAdminListUsers env (pagedDirectory threePages) poolId fuel =
      ⟨objectLiteral [("UserPoolId", poolId)] :: List.replicate fuel
        (objectLiteral [("UserPoolId", poolId), ("PaginationToken", .num 1)]), none⟩ := by
  have hresp : (pagedDirectory threePages).listUsers 0 (objectLiteral [("UserPoolId", poolId)]) =
      .ok (objectLiteral [("Users", .arr (fullPage 0)), ("PaginationToken", .num 1)]) := rfl
  have hpage : getProp (objectLiteral [("Users", .arr (fullPage 0)),
      ("PaginationToken", .num 1)]) "Users" = .ok (.arr (fullPage 0)) := rfl
  have htok : getProp (objectLiteral [("Users", .arr (fullPage 0)),
      ("PaginationToken", .num 1)]) "PaginationToken" = .ok (.num 1) := rfl
  have hlen : getProp (.arr (fullPage 0)) "length" = .ok (.num 60) := by
    show Except.ok (JsVal.num ((fullPage 0).length : Nat)) = _
    rw [fullPage_length]
    rfl
  simp only [cognitoAdminListUsers, hresp, hpage, htok, hlen, spreadArray, bind, Except.bind,
    pure, Except.pure]
  rw [show isNum (.num 60) 60 = true from rfl]
  simp only [listUsersLoop_threePages, List.singleton_append]

theorem listUsersLoop_endless (env : Env) (poolId pagToken : JsVal) (fuel : Nat)
    (requests users : List JsVal) :
    listUsersLoop env endlessDirectory poolId pagToken fuel requests users =
      ⟨requests ++ List.replicate fuel
        (objectLiteral [("UserPoolId", poolId), ("PaginationToken", pagToken)]), none⟩ := by
  induction fuel generalizing requests users with
  | zero => simp [listUsersLoop]
  | succ n ih =>
    have hresp : endlessDirectory.listUsers requests.length
        (objectLiteral [("UserPoolId", poolId), ("PaginationToken", pagToken)]) =
        .ok (objectLiteral [("Users", .arr (fullPage requests.length)),
          ("PaginationToken", .num (requests.length + 1))]) := rfl
    have hpage : getProp (objectLiteral [("Users", .arr (fullPage requests.length)),
        ("PaginationToken", .num (requests.length + 1))]) "Users" =
        .ok (.arr (fullPage requests.length)) := rfl
    have hlen : getProp (.arr (fullPage requests.length)) "length" = .ok (.num 60) := by
      show Except.ok (JsVal.num ((fullPage requests.length).length : Nat)) = _
      rw [fullPage_length]
      rfl
    simp only [listUsersLoop, hresp, hpage, hlen, spreadArray, bind, Except.bind, pure,
      Except.pure]
    rw [show decide ((60 : Int) < 60) = false from rfl]
    simp only [ih, List.append_assoc, List.singleton_append, List.replicate_succ]

theorem cognitoAdminListUsers_endless (env : Env) (poolId : JsVal) (fuel : Nat) :
    cognitoAdminListUsers env endlessDirectory poolId fuel =
      ⟨objectLiteral [("UserPoolId", poolId)] :: List.replicate fuel
        (objectLiteral [("UserPoolId", poolId), ("PaginationToken", .num 1)]), none⟩ := by
  have hresp : endlessDirectory.listUsers 0 (objectLiteral [("UserPoolId", poolId)]) =
      .ok (objectLiteral [("Users", .arr (fullPage 0)), ("PaginationToken", .num 1)]) := rfl
  have hpage : getProp (objectLiteral [("Users", .arr (fullPage 0)),
      ("PaginationToken", .num 1)]) "Users" = .ok (.arr (fullPage 0)) := rfl
  have htok : getProp (objectLiteral [("Users", .arr (fullPage 0)),
      ("PaginationToken", .num 1)]) "PaginationToken" = .ok (.num 1) := rfl
  have hlen : getProp (.arr (fullPage 0)) "length" = .ok (.num 60) := by
    show Except.ok (JsVal.num ((fullPage 0).length : Nat)) = _
    rw [fullPage_length]
    rfl
  simp only [cognitoAdminListUsers, hresp, hpage, htok, hlen, spreadArray, bind, Except.bind,
    pure, Except.pure]
  rw [show isNum (.num 60) 60 = true from rfl]
  simp only [listUsersLoop_endless, List.singleton_append]

/-- C20, as stated, fails: against a directory that answers every request
with a full page of 60 records, `cognitoAdminListUsers` has not returned after
any number of loop iterations, and the number of requests it sends exceeds
every bound. -/
theorem cognitoAdminListUsers_unbounded :
    (∀ fuel, (cognitoAdminListUsers sampleEnv endlessDirectory (.str "pool") fuel).outcome =
        none ∧
      (cognitoAdminListUsers sampleEnv endlessDirectory (.str "pool") fuel).requests.length =
        fuel + 1) ∧
    (∀ bound, ∃ fuel, bound <
      (cognitoAdminListUsers sampleEnv endlessDirectory (.str "pool") fuel).requests.length) := by
  have h : ∀ fuel,
      (cognitoAdminListUsers sampleEnv endlessDirectory (.str "pool") fuel).outcome = none ∧
      (cognitoAdminListUsers sampleEnv endlessDirectory (.str "pool") fuel).requests.length =
        fuel + 1 := by
    intro fuel
    rw [cognitoAdminListUsers_endless]
    simp
  exact ⟨h, fun bound => ⟨bound, by rw [(h bound).2]; omega⟩⟩

theorem flatten_range_succ (pages : Nat → List JsVal) (n : Nat) :
    ((List.range (n + 1)).map pages).flatten =
      pages 0 ++ ((List.range n).map (fun i => pages (i + 1))).flatten := by
  rw [List.range_succ_eq_map, List.map_cons, List.flatten_cons, List.map_map]
  rfl

theorem flatten_range_one (pages : Nat → List JsVal) :
    ((List.range 1).map pages).flatten = pages 0 := by
  rw [flatten_range_succ]
  simp

theorem listUsersLoop_stops (env : Env) (cognito : Cognito) (poolId pagToken : JsVal)
    (k : Nat) :
    ∀ (fuel : Nat) (requests users : List JsVal) (responses : Nat → JsVal)
      (pages : Nat → List JsVal),
      k < fuel →
      (∀ i, i ≤ k → cognito.listUsers (requests.length + i)
        (objectLiteral [("UserPoolId", poolId), ("PaginationToken", pagToken)]) =
          .ok (responses i)) →
      (∀ i, i ≤ k → getProp (responses i) "Users" = .ok (.arr (pages i))) →
      (∀ i, i < k → (pages i).length = 60) →
      (pages k).length < 60 →
      listUsersLoop env cognito poolId pagToken fuel requests users =
        ⟨requests ++ List.replicate (k + 1)
          (objectLiteral [("UserPoolId", poolId), ("PaginationToken", pagToken)]),
         some (parseUsers env (users ++ ((List.range (k + 1)).map pages).flatten))⟩ := by
  induction k with
  | zero =>
    intro fuel requests users responses pages hfuel hresp husers _ hshort
    obtain ⟨f, rfl⟩ : ∃ f, fuel = f + 1 := ⟨fuel - 1, by omega⟩
    have h0 := hresp 0 (le_refl 0)
    have hu := husers 0 (le_refl 0)
    have hlen : getProp (.arr (pages 0)) "length" = .ok (.num ((pages 0).length : Nat)) := rfl
    have hd : decide (((pages 0).length : Int) < 60) = true := by
      simpa using hshort
    simp only [Nat.add_zero] at h0
    simp only [listUsersLoop, h0, hu, hlen, spreadArray, bind, Except.bind, pure, Except.pure,
      hd]
    rw [flatten_range_one]
    simp
  | succ k ih =>
    intro fuel requests users responses pages hfuel hresp husers hfull hshort
    obtain ⟨f, rfl⟩ : ∃ f, fuel = f + 1 := ⟨fuel - 1, by omega⟩
    have h0 := hresp 0 (Nat.zero_le _)
    have hu := husers 0 (Nat.zero_le _)
    have hlen : getProp (.arr (pages 0)) "length" = .ok (.num ((pages 0).length : Nat)) := rfl
    have hd : decide (((pages 0).length : Int) < 60) = false := by
      rw [hfull 0 (Nat.succ_pos k)]
      rfl
    simp only [Nat.add_zero] at h0
    simp only [listUsersLoop, h0, hu, hlen, spreadArray, bind, Except.bind, pure, Except.pure,
      hd]
    rw [ih f (requests ++ [objectLiteral [("UserPoolId", poolId),
        ("PaginationToken", pagToken)]]) (users ++ pages 0) (fun i => responses (i + 1))
      (fun i => pages (i + 1)) (by omega)
      (fun i hi => by
        have := hresp (i + 1) (by omega)
        simpa [Nat.add_assoc, Nat.add_comm 1 i] using this)
      (fun i hi => husers (i + 1) (by omega))
      (fun i hi => hfull (i + 1) (by omega))
      hshort]
    rw [flatten_range_succ pages (k + 1)]
    simp [List.replicate_succ, List.append_assoc]

/-- C20, amended: `cognitoAdminListUsers` ends with the first response that
is a page of fewer than 60 records.  When the first `k` responses are pages
of exactly 60 records and the next one is shorter, then with at least `k`
loop iterations allowed it returns after `k + 1` requests, with the parsed
records of those pages. -/
theorem cognitoAdminListUsers_stops (env : Env) (cognito : Cognito) (poolId : JsVal)
    (responses : Nat → JsVal) (pages : Nat → List JsVal) (k fuel : Nat)
    (hResponses : ∀ i, i ≤ k → cognito.listUsers i
      (listRequest poolId (getMember (responses 0) "PaginationToken") i) = .ok (responses i))
    (hUsers : ∀ i, i ≤ k → getProp (responses i) "Users" = .ok (.arr (pages i)))
    (hFull : ∀ i, i < k → (pages i).length = 60)
    (hShort : (pages k).length < 60)
    (hFuel : k ≤ fuel) :
    cognitoAdminListUsers env cognito poolId fuel =
      ⟨listRequest poolId (getMember (responses 0) "PaginationToken") 0 ::
        List.replicate k (listRequest poolId (getMember (responses 0) "PaginationToken") 1),
       some (parseUsers env (((List.range (k + 1)).map pages).flatten))⟩ := by
  have h0 := hResponses 0 (Nat.zero_le _)
  have hu := hUsers 0 (Nat.zero_le _)
  have htok := getProp_ok_all (responses 0) _ "Users" "PaginationToken" hu
  have hlen : getProp (.arr (pages 0)) "length" = .ok (.num ((pages 0).length : Nat)) := rfl
  have hreq0 : listRequest poolId (getMember (responses 0) "PaginationToken") 0 =
      objectLiteral [("UserPoolId", poolId)] := rfl
  have hreq1 : listRequest poolId (getMember (responses 0) "PaginationToken") 1 =
      objectLiteral [("UserPoolId", poolId),
        ("PaginationToken", getMember (responses 0) "PaginationToken")] := rfl
  rw [hreq0] at h0
  cases k with
  | zero =>
    have hn : isNum (.num ((pages 0).length : Nat)) 60 = false := by
      simp only [isNum, beq_eq_false_iff_ne, ne_eq]
      omega
    simp only [cognitoAdminListUsers, h0, hu, htok, hlen, spreadArray, bind, Except.bind, pure,
      Except.pure, hn]
    rw [flatten_range_one]
    simp [hreq0]
  | succ k =>
    have hn : isNum (.num ((pages 0).length : Nat)) 60 = true := by
      rw [hFull 0 (Nat.succ_pos k)]
      rfl
    simp only [cognitoAdminListUsers, h0, hu, htok, hlen, spreadArray, bind, Except.bind, pure,
      Except.pure, hn]
    rw [listUsersLoop_stops env cognito poolId _ k fuel _ (pages 0)
      (fun i => responses (i + 1)) (fun i => pages (i + 1)) (by omega)
      (fun i hi => by
        have := hResponses (i + 1) (by omega)
        simpa [listRequest, Nat.add_comm 1 i] using this)
      (fun i hi => hUsers (i + 1) (by omega))
      (fun i hi => hFull (i + 1) (by omega))
      hShort]
    rw [flatten_range_succ pages (k + 1), hreq0, hreq1]
    simp

theorem cognitoAdminListUsers_stops_witness :
    (∀ i, i ≤ 1 → (pagedDirectory twoPages).listUsers i
      (listRequest (.str "pool") (getMember (pageResponse twoPages 0) "PaginationToken") i) =
        .ok (pageResponse twoPages i)) ∧
    (∀ i, i ≤ 1 → getProp (pageResponse twoPages i) "Users" = .ok (.arr (twoPages.getD i []))) ∧
    (∀ i, i < 1 → (twoPages.getD i []).length = 60) ∧
    (twoPages.getD 1 []).length < 60 ∧
    cognitoAdminListUsers sampleEnv (pagedDirectory twoPages) (.str "pool") 1 =
      ⟨[objectLiteral [("UserPoolId", .str "pool")],
        objectLiteral [("UserPoolId", .str "pool"), ("PaginationToken", .num 1)]],
       some (parseUsers sampleEnv (fullPage 0 ++ [listedUser 60]))⟩ := by
  have h1 : ∀ i, i ≤ 1 → (pagedDirectory twoPages).listUsers i
      (listRequest (.str "pool") (getMember (pageResponse twoPages 0) "PaginationToken") i) =
        .ok (pageResponse twoPages i) := by
    intro i hi
    interval_cases i <;> rfl
  have h2 : ∀ i, i ≤ 1 →
      getProp (pageResponse twoPages i) "Users" = .ok (.arr (twoPages.getD i [])) := by
    intro i hi
    interval_cases i <;> rfl
  have h3 : ∀ i, i < 1 → (twoPages.getD i []).length = 60 := by
    intro i hi
    interval_cases i
    exact fullPage_length 0
  have h4 : (twoPages.getD 1 []).length < 60 := by decide
  refine ⟨h1, h2, h3, h4, ?_⟩
  have h := cognitoAdminListUsers_stops sampleEnv (pagedDirectory twoPages) (.str "pool")
    (pageResponse twoPages) (fun i => twoPages.getD i []) 1 1 h1 h2 h3 h4 (le_refl 1)
  rw [h, flatten_range_succ, flatten_range_one]
  rfl

/-! ## Objects used as maps -/

theorem assign_define (props : List (String × JsVal)) (k : String) (v : JsVal)
    (hk : k ≠ "__proto__") :
    assign (objectLiteral props) k v = objectLiteral (defineBinding k v props) := by
  simp only [assign, objectLiteral, defineBinding]
  by_cases h : hasBinding k props = true
  · simp [h]
  · have h2 : hasBinding k ([] : List (String × JsVal)) = false := rfl
    simp [h, h2, hk]

theorem foldl_assign_define (l a : List (String × JsVal))
    (h : ∀ p ∈ l, p.1 ≠ "__proto__") :
    l.foldl (fun acc p => assign acc p.1 p.2) (objectLiteral a) =
      objectLiteral (spreadProps a l) := by
  induction l generalizing a with
  | nil => rfl
  | cons p l ih =>
    rw [List.foldl_cons, assign_define a p.1 p.2 (h p (List.mem_cons_self _ _)),
      ih _ (fun q hq => h q (List.mem_cons_of_mem _ hq))]
    rfl

theorem lookup_spreadProps (k : String) (a b : List (String × JsVal)) :
    (spreadProps a b).lookup k =
      match b.reverse.lookup k with
      | some v => some v
      | none => a.lookup k := by
  induction b generalizing a with
  | nil => rfl
  | cons p b ih =>
    have hstep : spreadProps a (p :: b) = spreadProps (defineBinding p.1 p.2 a) b := rfl
    rw [hstep, ih, List.reverse_cons, lookup_append_single k p.1 p.2 b.reverse,
      lookup_defineBinding]
    cases b.reverse.lookup k with
    | some x => rfl
    | none =>
      by_cases hk : k = p.1
      · simp [hk]
      · simp [hk]

theorem mem_keys_iff_lookup (k : String) (l : List (String × JsVal)) :
    k ∈ l.map Prod.fst ↔ ∃ v, l.lookup k = some v := by
  constructor
  · intro h
    cases hl : l.lookup k with
    | some v => exact ⟨v, rfl⟩
    | none => exact absurd h (not_mem_of_lookup_none k l hl)
  · intro ⟨v, hv⟩
    by_contra hn
    rw [lookup_none_of_not_mem k l hn] at hv
    cases hv

theorem mem_keys_spreadProps (k : String) (a b : List (String × JsVal)) :
    k ∈ (spreadProps a b).map Prod.fst ↔ k ∈ a.map Prod.fst ∨ k ∈ b.map Prod.fst := by
  have hrev : k ∈ b.map Prod.fst ↔ k ∈ b.reverse.map Prod.fst := by
    rw [List.map_reverse, List.mem_reverse]
  rw [hrev, mem_keys_iff_lookup, mem_keys_iff_lookup, mem_keys_iff_lookup, lookup_spreadProps]
  cases b.reverse.lookup k with
  | some x => simp
  | none => simp

theorem lookup_of_all (k : String) (v : JsVal) (l : List (String × JsVal))
    (hmem : k ∈ l.map Prod.fst) (hall : ∀ p ∈ l, p.1 = k → p.2 = v) :
    l.lookup k = some v := by
  induction l with
  | nil => simp at hmem
  | cons p l ih =>
    obtain ⟨pk, pv⟩ := p
    by_cases hk : k = pk
    · subst hk
      have := hall (k, pv) (List.mem_cons_self _ _) rfl
      simp only at this
      simp [List.lookup, this]
    · have hne : (k == pk) = false := by simpa using hk
      rw [List.lookup_cons, hne]
      apply ih
      · simp only [List.map_cons, List.mem_cons] at hmem
        rcases hmem with h | h
        · exact absurd h hk
        · exact h
      · exact fun q hq => hall q (List.mem_cons_of_mem _ hq)

theorem getMember_objectLiteral (props : List (String × JsVal)) (k : String) (v : JsVal)
    (h : props.lookup k = some v) : getMember (objectLiteral props) k = v := by
  simp [getMember, objectLiteral, findProp, h]

/-! ## Fields of a request body -/

theorem newValidationError_name (message : String) :
    getMember (newValidationError message) "name" = .str "ValidationError" := rfl

theorem checkRequiredValues_empty (required : List String) (reqBody : JsVal)
    (h : isEmpty reqBody = true) :
    checkRequiredValues required reqBody = .error (newValidationError "Body is empty") := by
  simp [checkRequiredValues, h, bind, Except.bind, throw, throwThe, MonadExceptOf.throw]

theorem missing_eq_spec (required : List String) (reqBody : JsVal) :
    required.filter (fun value =>
      !(((ownEnumerable reqBody).map Prod.fst).filter
        (fun param => !(isStr (getMember reqBody param) ""))).contains value) =
    specMissingFields required reqBody := by
  unfold specMissingFields
  apply List.filter_congr
  intro f _
  by_cases hmem : f ∈ (ownEnumerable reqBody).map Prod.fst
  · by_cases hs : isStr (getMember reqBody f) "" = true
    · simp [hmem, hs, List.mem_filter]
    · simp [hmem, hs, List.mem_filter]
  · simp [hmem, List.mem_filter]

theorem checkRequiredValues_nonempty (required : List String)
    (proto : JsVal) (props hidden : List (String × JsVal))
    (h : isEmpty (.obj proto props hidden) = false) :
    checkRequiredValues required (.obj proto props hidden) =
      if specMissingFields required (.obj proto props hidden) = [] then
        .ok (.obj proto props hidden)
      else .error (newParamMissingError (specMissingFields required (.obj proto props hidden))) := by
  have hm := missing_eq_spec required (.obj proto props hidden)
  simp only [checkRequiredValues, h, objectKeys, bind, Except.bind, hm, Bool.false_eq_true,
    if_false, pure, Except.pure]
  by_cases hnil : specMissingFields required (.obj proto props hidden) = []
  · simp [hnil]
  · have : (specMissingFields required (.obj proto props hidden)).length ≠ 0 := by
      simpa using hnil
    simp [hnil, this, throw, throwThe, MonadExceptOf.throw]

/-- C22: `checkRequiredValues` throws the error named `ValidationError` on
every empty body.  On a non-empty body object it throws the
`ParamMissingError` exactly when some required field is not a key of the body
or has the empty string as value; the message of the error is
`Please specify the following parameters in body: ` followed by exactly those
fields, in the order of `required`, joined by `, `.  Otherwise it returns the
body unchanged. -/
theorem checkRequiredValues_contract (required : List String)
    (proto : JsVal) (props hidden : List (String × JsVal)) :
    (∀ reqBody : JsVal, isEmpty reqBody = true →
      checkRequiredValues required reqBody = .error (newValidationError "Body is empty") ∧
      getMember (newValidationError "Body is empty") "name" = .str "ValidationError") ∧
    (∀ field, field ∈ specMissingFields required (.obj proto props hidden) ↔
      field ∈ required ∧ (field ∉ props.map Prod.fst ∨
        getMember (.obj proto props hidden) field = .str "")) ∧
    (isEmpty (.obj proto props hidden) = false →
      (specMissingFields required (.obj proto props hidden) ≠ [] →
        checkRequiredValues required (.obj proto props hidden) =
          .error (newParamMissingError (specMissingFields required (.obj proto props hidden))) ∧
        instanceOf (newParamMissingError (specMissingFields required (.obj proto props hidden)))
          .paramMissingError = true ∧
        getMember (newParamMissingError (specMissingFields required (.obj proto props hidden)))
          "name" = .str "ParamMissingError" ∧
        getMember (newParamMissingError (specMissingFields required (.obj proto props hidden)))
          "message" = .str ("Please specify the following parameters in body: " ++
            ", ".intercalate (specMissingFields required (.obj proto props hidden)))) ∧
      (specMissingFields required (.obj proto props hidden) = [] →
        checkRequiredValues required (.obj proto props hidden) =
          .ok (.obj proto props hidden))) := by
  refine ⟨fun reqBody h => ⟨checkRequiredValues_empty required reqBody h, rfl⟩, ?_, ?_⟩
  · intro field
    unfold specMissingFields
    rw [List.mem_filter]
    constructor
    · rintro ⟨hr, hf⟩
      refine ⟨hr, ?_⟩
      simp only [Bool.or_eq_true, decide_eq_true_eq] at hf
      rcases hf with hf | hf
      · exact Or.inl hf
      · exact Or.inr (isStr_eq_true _ _ hf)
    · rintro ⟨hr, hf⟩
      refine ⟨hr, ?_⟩
      simp only [Bool.or_eq_true, decide_eq_true_eq]
      rcases hf with hf | hf
      · exact Or.inl hf
      · right
        rw [hf]
        rfl
  · intro h
    have hc := checkRequiredValues_nonempty required proto props hidden h
    refine ⟨fun hne => ⟨?_, rfl, rfl, rfl⟩, fun hnil => ?_⟩
    · rw [hc, if_neg hne]
    · rw [hc, if_pos hnil]

theorem checkRequiredValues_examples :
    checkRequiredValues ["name", "email", "phone"]
        (objectLiteral [("name", .str "n"), ("email", .str "")]) =
      .error (newParamMissingError ["email", "phone"]) ∧
    getMember (newParamMissingError ["email", "phone"]) "message" =
      .str "Please specify the following parameters in body: email, phone" ∧
    checkRequiredValues ["name"] (objectLiteral [("name", .str "n"), ("email", .str "")]) =
      .ok (objectLiteral [("name", .str "n"), ("email", .str "")]) ∧
    checkRequiredValues ["name"] (objectLiteral []) =
      .error (newValidationError "Body is empty") :=
  ⟨rfl, rfl, rfl, rfl⟩

/-! ## Identifiers -/

theorem hexDigit_unit (d : Nat) : (hexDigits.getD d '0').val < 0x10000 := by
  by_cases h : d < 16
  · interval_cases d <;> decide
  · have : hexDigits.length ≤ d := by
      simp only [hexDigits, List.length_cons, List.length_nil]
      omega
    rw [List.getD_eq_default _ _ this]
    decide

theorem utf16Length_mk (cs : List Char) :
    utf16Length (String.mk cs) = (cs.map (fun c => if c.val < 0x10000 then 1 else 2)).sum :=
  rfl

theorem utf16Length_append (a b : String) :
    utf16Length (a ++ b) = utf16Length a + utf16Length b := by
  simp [utf16Length, String.data_append]

theorem hexUnits (bytes : List Nat) :
    (((bytes.map hexOfByte).flatten).map (fun c => if c.val < 0x10000 then 1 else 2)).sum =
      2 * bytes.length := by
  induction bytes with
  | nil => rfl
  | cons b bytes ih =>
    simp only [List.map_cons, List.flatten_cons, hexOfByte, List.cons_append, List.nil_append,
      List.sum_cons, hexDigit_unit, if_true, List.length_cons] at ih ⊢
    omega

theorem utf16Length_bufferToHex (bytes : List Nat) :
    utf16Length (bufferToHex bytes) = 2 * bytes.length := by
  rw [bufferToHex, utf16Length_mk, hexUnits]

theorem length_bufferToHex (bytes : List Nat) :
    (bufferToHex bytes).length = 2 * bytes.length := by
  show ((bytes.map hexOfByte).flatten).length = 2 * bytes.length
  induction bytes with
  | nil => rfl
  | cons b bytes ih =>
    simp only [List.map_cons, List.flatten_cons, hexOfByte, List.cons_append, List.nil_append,
      List.length_cons] at ih ⊢
    omega

/-- C25, which the code breaks: `generateID(length)` is the hexadecimal text
of `length` random bytes, two characters for each byte, so the ID has
`2 * length` characters, 32 when `length` is omitted, and the key ID
`generateKeyID()` has 36; the ID has `length` characters only for the length
zero. -/
theorem generateID_length (source : Nat → Nat) (length : Option Nat) :
    utf16Length (generateID source length) = 2 * length.getD 16 ∧
    (generateID source length).length = 2 * length.getD 16 ∧
    utf16Length (generateID source none) = 32 ∧
    utf16Length (generateKeyID source) = 36 ∧
    (utf16Length (generateID source length) = length.getD 16 ↔ length = some 0) := by
  have h1 : utf16Length (generateID source length) = 2 * length.getD 16 := by
    simp [generateID, utf16Length_bufferToHex, randomBytes]
  have h2 : utf16Length (generateID source none) = 32 := by
    simp [generateID, utf16Length_bufferToHex, randomBytes]
  refine ⟨h1, ?_, h2, ?_, ?_⟩
  · simp [generateID, length_bufferToHex, randomBytes]
  · rw [generateKeyID, utf16Length_append, h2]
    rfl
  · rw [h1]
    cases length with
    | none => simp
    | some n =>
      simp only [Option.getD_some, Option.some.injEq]
      omega

/-! ## Round trip of the claims -/

theorem getUserClaims_of_text (env : Env) (text : String) (h : text ≠ "") :
    getUserClaims env (objectLiteral [("requestContext", objectLiteral [
      ("authorizer", objectLiteral [("claims", .str text)])])]) = env.jsonParse text := by
  have ht : truthy (.str text) = true := by simpa [truthy] using h
  have ha : truthy (objectLiteral [("claims", JsVal.str text)]) = true := rfl
  have h1 : getProp (objectLiteral [("requestContext", objectLiteral [
      ("authorizer", objectLiteral [("claims", .str text)])])]) "requestContext" =
      .ok (objectLiteral [("authorizer", objectLiteral [("claims", .str text)])]) := rfl
  have h2 : getProp (objectLiteral [("authorizer", objectLiteral [("claims", .str text)])])
      "authorizer" = .ok (objectLiteral [("claims", .str text)]) := rfl
  have h3 : getMember (objectLiteral [("claims", JsVal.str text)]) "claims" = .str text := rfl
  simp only [getUserClaims, h1, h2, h3, ha, ht, bind, Except.bind, Bool.and_self, if_true, toStr]

/-- C26: when the token of a request passes every check and verification
yields the claims mapping `c`, a JSON document that `JSON.parse` reads back
from the text `JSON.stringify` writes for it, `grantAPIAccess` returns the
context `{claims: text of c}`; on the event that carries this context as
`requestContext.authorizer`, `getUserClaims` returns `c` and `getUserID`
returns `c.sub`. -/
theorem claims_round_trip (env : Env)
    (headers cognitoIssuer header keys kid key pem : JsVal) (authorization : String)
    (claims : List (String × JsVal))
    (hIss : getProp headers "x-cognito-issuer" = .ok cognitoIssuer)
    (hAuth : getProp headers "authorization" = .ok (.str authorization))
    (hSeg : 2 ≤ (jsSplit '.' ((jsSplit ' ' authorization).getD 1 "")).length)
    (hHdr : env.jsonParse (env.base64Decode
      ((jsSplit '.' ((jsSplit ' ' authorization).getD 1 "")).getD 0 "")) = .ok header)
    (hKeys : (getPublicKeys env cognitoIssuer).outcome = .ok keys)
    (hKid : getProp header "kid" = .ok kid)
    (hKey : getProp keys (toStr env kid) = .ok key)
    (hDef : isUndefined key = false)
    (hPem : getProp key "pem" = .ok pem)
    (hVerify : env.verify (.str ((jsSplit ' ' authorization).getD 1 "")) pem =
      .ok (objectLiteral claims))
    (hDoc : toJson (objectLiteral claims) = some (objectLiteral claims))
    (hText : env.renderJson (objectLiteral claims) ≠ "")
    (hParse : env.jsonParse (env.renderJson (objectLiteral claims)) =
      .ok (objectLiteral claims)) :
    ∃ context,
      (grantAPIAccess env headers).outcome = .ok context ∧
      context = objectLiteral [("claims", .str (env.renderJson (objectLiteral claims)))] ∧
      getUserClaims env (objectLiteral [("requestContext", objectLiteral [
        ("authorizer", context)])]) = .ok (objectLiteral claims) ∧
      getUserID env (objectLiteral [("requestContext", objectLiteral [
        ("authorizer", context)])]) = .ok (getMember (objectLiteral claims) "sub") := by
  refine ⟨_, ?_, rfl, ?_, ?_⟩
  · rw [grantAPIAccess, grantAPIAccessTry_reaches_verify env headers cognitoIssuer header keys
      kid key pem authorization hIss hAuth hSeg hHdr hKeys hKid hKey hDef hPem, hVerify]
    simp [Run.tryCatch, jsonStringify, hDoc]
  · rw [getUserClaims_of_text env _ hText, hParse]
  · simp only [getUserID, getUserClaims_of_text env _ hText, hParse, bind, Except.bind]
    rfl

theorem claims_round_trip_witness :
    claimsEnv.verify (.str "eyJraWQiOiJrMSJ9.payload.sig") (.str "-----BEGIN PUBLIC KEY-----") =
      .ok (objectLiteral [("sub", .str "u1")]) ∧
    claimsEnv.renderJson (objectLiteral [("sub", .str "u1")]) = sampleClaimsText ∧
    ∃ context,
      (grantAPIAccess claimsEnv (sampleHeaders "Bearer eyJraWQiOiJrMSJ9.payload.sig")).outcome =
        .ok context ∧
      context = objectLiteral [("claims", .str sampleClaimsText)] ∧
      getUserClaims claimsEnv (objectLiteral [("requestContext", objectLiteral [
        ("authorizer", context)])]) = .ok (objectLiteral [("sub", .str "u1")]) ∧
      getUserID claimsEnv (objectLiteral [("requestContext", objectLiteral [
        ("authorizer", context)])]) = .ok (.str "u1") :=
  ⟨rfl, rfl,
   claims_round_trip claimsEnv
      (sampleHeaders "Bearer eyJraWQiOiJrMSJ9.payload.sig") (.str "https://issuer.example")
      (objectLiteral [("kid", .str "k1")]) sampleKeys (.str "k1")
      (objectLiteral [
        ("instance", objectLiteral [("kid", .str "k1"), ("kty", .str "RSA")]),
        ("pem", .str "-----BEGIN PUBLIC KEY-----")])
      (.str "-----BEGIN PUBLIC KEY-----") "Bearer eyJraWQiOiJrMSJ9.payload.sig"
      [("sub", .str "u1")] rfl rfl (by decide) rfl rfl rfl rfl rfl rfl rfl rfl (by decide)
      rfl⟩

/-! ## Header names -/

theorem toLower_toLower (c : Char) : c.toLower.toLower = c.toLower := by
  by_cases h : c.toNat ≥ 65 ∧ c.toNat ≤ 90
  · have hv : (Char.ofNat (c.toNat + 32)).toNat = c.toNat + 32 := by
      have hvalid : (c.toNat + 32).isValidChar := by
        left
        omega
      rw [Char.ofNat, dif_pos hvalid]
      rfl
    have h1 : c.toLower = Char.ofNat (c.toNat + 32) := by
      simp only [Char.toLower, h, and_self, if_true]
    rw [h1]
    have h2 : ¬ ((Char.ofNat (c.toNat + 32)).toNat ≥ 65 ∧ (Char.ofNat (c.toNat + 32)).toNat ≤ 90) := by
      rw [hv]
      omega
    simp only [Char.toLower, h2, if_false]
  · have h1 : c.toLower = c := by
      simp only [Char.toLower, h, if_false]
    rw [h1, h1]

theorem toLowerCase_idem (s : String) : toLowerCase (toLowerCase s) = toLowerCase s := by
  have hc : Char.toLower ∘ Char.toLower = Char.toLower := funext toLower_toLower
  simp [toLowerCase, hc]

theorem foldlM_setProp_define (g : String → String) (f : String → JsVal) (keys : List String)
    (a : List (String × JsVal)) (h : ∀ key ∈ keys, g key ≠ "__proto__") :
    keys.foldlM (fun acc key => setProp acc (g key) (f key)) (objectLiteral a) =
      .ok (objectLiteral (spreadProps a (keys.map (fun key => (g key, f key))))) := by
  induction keys generalizing a with
  | nil => rfl
  | cons key keys ih =>
    have hstep : setProp (objectLiteral a) (g key) (f key) =
        .ok (objectLiteral (defineBinding (g key) (f key) a)) := by
      rw [← assign_define a (g key) (f key) (h key (List.mem_cons_self _ _))]
      rfl
    rw [List.foldlM_cons, hstep]
    show List.foldlM _ (objectLiteral (defineBinding (g key) (f key) a)) keys = _
    rw [ih _ (fun k hk => h k (List.mem_cons_of_mem _ hk))]
    rfl

theorem parseEventHeaders_of_plain (event headersProto : JsVal)
    (props hidden : List (String × JsVal))
    (hHeaders : getProp event "headers" = .ok (.obj headersProto props hidden))
    (hPlain : ∀ name ∈ props.map Prod.fst, toLowerCase name ≠ "__proto__") :
    parseEventHeaders event = .ok (objectLiteral (spreadProps []
      ((props.map Prod.fst).map (fun name =>
        (toLowerCase name, getMember (.obj headersProto props hidden) name))))) := by
  simp only [parseEventHeaders, hHeaders, objectKeys, ownEnumerable, bind, Except.bind]
  exact foldlM_setProp_define toLowerCase (getMember (.obj headersProto props hidden))
    (props.map Prod.fst) [] hPlain

/-- C24, as stated, fails: of the two headers `__proto__` and `Accept`, both
case-insensitively unique, `parseEventHeaders` returns the mapping with the
single key `accept`; the lower-cased name `__proto__` is no key of the result
and reads `Object.prototype`, not the value `x` of the header. -/
theorem parseEventHeaders_proto_header :
    getProp protoHeaderEvent "headers" =
      .ok (objectLiteral [("__proto__", .str "x"), ("Accept", .str "a")]) ∧
    toLowerCase "__proto__" = "__proto__" ∧
    parseEventHeaders protoHeaderEvent = .ok (objectLiteral [("accept", .str "a")]) ∧
    toLowerCase "__proto__" ∉ (ownEnumerable (objectLiteral [("accept", .str "a")])).map Prod.fst ∧
    getMember (objectLiteral [("__proto__", .str "x"), ("Accept", .str "a")]) "__proto__" =
      .str "x" ∧
    getMember (objectLiteral [("accept", .str "a")]) (toLowerCase "__proto__") =
      .proto .object :=
  ⟨rfl, rfl, rfl, by decide, rfl, rfl⟩

/-- C24, amended: for every headers mapping none of whose names lower-cases
to `__proto__`, `parseEventHeaders` returns a mapping all of whose keys are
lower-case, whose key set is exactly the set of lower-cased input names, and
in which every header whose name is case-insensitively unique keeps its value
under its lower-cased name. -/
theorem parseEventHeaders_mapping (event headersProto : JsVal)
    (props hidden : List (String × JsVal))
    (hHeaders : getProp event "headers" = .ok (.obj headersProto props hidden))
    (hPlain : ∀ name ∈ props.map Prod.fst, toLowerCase name ≠ "__proto__") :
    ∃ result, parseEventHeaders event = .ok (objectLiteral result) ∧
      (result.map Prod.fst).Nodup ∧
      (∀ key ∈ result.map Prod.fst, toLowerCase key = key) ∧
      (∀ key, key ∈ result.map Prod.fst ↔
        ∃ name ∈ props.map Prod.fst, toLowerCase name = key) ∧
      (∀ name ∈ props.map Prod.fst,
        (∀ other ∈ props.map Prod.fst, toLowerCase other = toLowerCase name → other = name) →
        getMember (objectLiteral result) (toLowerCase name) =
          getMember (.obj headersProto props hidden) name) := by
  have hkeys : ∀ key, key ∈ (spreadProps [] ((props.map Prod.fst).map (fun name =>
      (toLowerCase name, getMember (.obj headersProto props hidden) name)))).map Prod.fst ↔
      ∃ name ∈ props.map Prod.fst, toLowerCase name = key := by
    intro key
    rw [mem_keys_spreadProps]
    simp only [List.map_nil, List.not_mem_nil, false_or, List.map_map, List.mem_map,
      Function.comp]
    constructor
    · rintro ⟨p, hp, rfl⟩
      exact ⟨p.1, ⟨p, hp, rfl⟩, rfl⟩
    · rintro ⟨name, ⟨p, hp, rfl⟩, rfl⟩
      exact ⟨p, hp, rfl⟩
  refine ⟨_, parseEventHeaders_of_plain event headersProto props hidden hHeaders hPlain,
    keysNodup_spreadProps _ _ List.nodup_nil, ?_, hkeys, ?_⟩
  · intro key hkey
    obtain ⟨name, _, rfl⟩ := (hkeys key).1 hkey
    exact toLowerCase_idem name
  · intro name hname hunique
    apply getMember_objectLiteral
    have hmem : toLowerCase name ∈ (spreadProps [] ((props.map Prod.fst).map (fun name =>
        (toLowerCase name, getMember (.obj headersProto props hidden) name)))).map Prod.fst :=
      (hkeys _).2 ⟨name, hname, rfl⟩
    obtain ⟨v, hv⟩ := (mem_keys_iff_lookup _ _).1 hmem
    rw [hv]
    rw [lookup_spreadProps] at hv
    have hrev : ∀ p ∈ ((props.map Prod.fst).map (fun name =>
        (toLowerCase name, getMember (.obj headersProto props hidden) name))).reverse,
        p.1 = toLowerCase name → p.2 = getMember (.obj headersProto props hidden) name := by
      intro p hp hk
      rw [List.mem_reverse, List.mem_map] at hp
      obtain ⟨other, hother, rfl⟩ := hp
      have := hunique other hother hk
      rw [this]
    cases hl : (((props.map Prod.fst).map (fun name =>
        (toLowerCase name, getMember (.obj headersProto props hidden) name))).reverse).lookup
        (toLowerCase name) with
    | none =>
      rw [hl] at hv
      cases hv
    | some w =>
      rw [hl] at hv
      have hmem2 : toLowerCase name ∈ (((props.map Prod.fst).map (fun name =>
          (toLowerCase name, getMember (.obj headersProto props hidden) name))).reverse).map
          Prod.fst := (mem_keys_iff_lookup _ _).2 ⟨w, hl⟩
      have := lookup_of_all _ _ _ hmem2 hrev
      rw [hl] at this
      rw [← hv, this]

theorem parseEventHeaders_mapping_witness :
    getProp (sampleEvent "Bearer abc") "headers" =
      .ok (objectLiteral [("Authorization", .str "Bearer abc"),
        ("X-Cognito-Issuer", .str "https://issuer.example")]) ∧
    parseEventHeaders (sampleEvent "Bearer abc") = .ok (sampleHeaders "Bearer abc") ∧
    ∃ result, parseEventHeaders (sampleEvent "Bearer abc") = .ok (objectLiteral result) ∧
      (result.map Prod.fst).Nodup ∧
      (∀ key ∈ result.map Prod.fst, toLowerCase key = key) ∧
      (∀ key, key ∈ result.map Prod.fst ↔
        ∃ name ∈ ["Authorization", "X-Cognito-Issuer"], toLowerCase name = key) ∧
      (∀ name ∈ ["Authorization", "X-Cognito-Issuer"],
        (∀ other ∈ ["Authorization", "X-Cognito-Issuer"],
          toLowerCase other = toLowerCase name → other = name) →
        getMember (objectLiteral result) (toLowerCase name) =
          getMember (objectLiteral [("Authorization", .str "Bearer abc"),
            ("X-Cognito-Issuer", .str "https://issuer.example")]) name) :=
  ⟨rfl, rfl,
   parseEventHeaders_mapping (sampleEvent "Bearer abc") (.proto .object)
     [("Authorization", .str "Bearer abc"), ("X-Cognito-Issuer", .str "https://issuer.example")]
     [] rfl (by decide)⟩

/-! ## Updateable fields -/

theorem getUpdateableFields_empty (updateables : List String) (reqBody : JsVal)
    (h : isEmpty reqBody = true) :
    getUpdateableFields updateables reqBody =
      .error (newValidationError "Body is empty, no field(s) to update") := by
  simp [getUpdateableFields, h, bind, Except.bind, throw, throwThe, MonadExceptOf.throw]

theorem foldlM_setProp_filter (c : String → Bool) (f : String → JsVal) (keys : List String)
    (a : List (String × JsVal)) (h : ∀ key ∈ keys, c key = true → key ≠ "__proto__") :
    keys.foldlM (fun acc key => if c key then setProp acc key (f key) else pure acc)
        (objectLiteral a) =
      .ok (objectLiteral (spreadProps a ((keys.filter c).map (fun key => (key, f key))))) := by
  induction keys generalizing a with
  | nil => rfl
  | cons key keys ih =>
    rw [List.foldlM_cons]
    by_cases hc : c key = true
    · have hstep : setProp (objectLiteral a) key (f key) =
          .ok (objectLiteral (defineBinding key (f key) a)) := by
        rw [← assign_define a key (f key) (h key (List.mem_cons_self _ _) hc)]
        rfl
      rw [if_pos hc, hstep, List.filter_cons_of_pos hc]
      show List.foldlM _ (objectLiteral (defineBinding key (f key) a)) keys = _
      rw [ih _ (fun k hk => h k (List.mem_cons_of_mem _ hk))]
      rfl
    · rw [if_neg hc, List.filter_cons_of_neg hc]
      show List.foldlM _ (objectLiteral a) keys = _
      exact ih _ (fun k hk => h k (List.mem_cons_of_mem _ hk))

theorem getUpdateableFields_of_plain (updateables : List String)
    (proto : JsVal) (props hidden : List (String × JsVal))
    (hPlain : "__proto__" ∈ updateables → "__proto__" ∉ props.map Prod.fst)
    (h : isEmpty (.obj proto props hidden) = false) :
    getUpdateableFields updateables (.obj proto props hidden) =
      .ok (objectLiteral (spreadProps []
        ((updateables.filter (fun key => (props.map Prod.fst).contains key)).map
          (fun key => (key, getMember (.obj proto props hidden) key))))) := by
  simp only [getUpdateableFields, h, objectKeys, ownEnumerable, bind, Except.bind,
    Bool.false_eq_true, if_false]
  apply foldlM_setProp_filter (fun key => (props.map Prod.fst).contains key)
  intro key hkey hc hp
  subst hp
  have : "__proto__" ∈ props.map Prod.fst := by simpa using hc
  exact hPlain hkey this

/-- C23, as stated, fails: with `__proto__` among the updateable fields and a
body that has `__proto__` as a key, the assignment replaces the prototype of
the result; `__proto__` is no key of the result, and the field `role`, which
is outside the updateable list, is read from the result. -/
theorem getUpdateableFields_proto_field :
    isEmpty protoBody = false ∧
    (ownEnumerable protoBody).map Prod.fst = ["__proto__", "name"] ∧
    getUpdateableFields ["__proto__", "name"] protoBody =
      .ok (.obj (objectLiteral [("role", .str "admin")]) [("name", .str "n")] []) ∧
    "__proto__" ∉ (ownEnumerable
      (.obj (objectLiteral [("role", .str "admin")]) [("name", .str "n")] [])).map Prod.fst ∧
    "role" ∉ ["__proto__", "name"] ∧
    getMember (.obj (objectLiteral [("role", .str "admin")]) [("name", .str "n")] []) "role" =
      .str "admin" :=
  ⟨rfl, rfl, rfl, by decide, by decide, rfl⟩

/-- C23, amended: an empty body makes `getUpdateableFields` throw the error
named `ValidationError`.  For a non-empty body object, unless `__proto__` is
both an updateable field and a key of the body, it returns a plain object
whose keys are exactly the updateable fields that are keys of the body, each
with the value the body has for it. -/
theorem getUpdateableFields_contract (updateables : List String)
    (proto : JsVal) (props hidden : List (String × JsVal))
    (hPlain : "__proto__" ∈ updateables → "__proto__" ∉ props.map Prod.fst) :
    (∀ reqBody : JsVal, isEmpty reqBody = true →
      getUpdateableFields updateables reqBody =
        .error (newValidationError "Body is empty, no field(s) to update") ∧
      getMember (newValidationError "Body is empty, no field(s) to update") "name" =
        .str "ValidationError") ∧
    (isEmpty (.obj proto props hidden) = false →
      ∃ result, getUpdateableFields updateables (.obj proto props hidden) =
          .ok (objectLiteral result) ∧
        (result.map Prod.fst).Nodup ∧
        (∀ key, key ∈ result.map Prod.fst ↔ key ∈ updateables ∧ key ∈ props.map Prod.fst) ∧
        (∀ key ∈ result.map Prod.fst,
          result.lookup key = some (getMember (.obj proto props hidden) key) ∧
          getMember (objectLiteral result) key = getMember (.obj proto props hidden) key)) := by
  refine ⟨fun reqBody h => ⟨getUpdateableFields_empty updateables reqBody h, rfl⟩, fun h => ?_⟩
  have hkeys : ∀ key, key ∈ (spreadProps []
      ((updateables.filter (fun key => (props.map Prod.fst).contains key)).map
        (fun key => (key, getMember (.obj proto props hidden) key)))).map Prod.fst ↔
      key ∈ updateables ∧ key ∈ props.map Prod.fst := by
    intro key
    rw [mem_keys_spreadProps]
    constructor
    · rintro (hk | hk)
      · simp at hk
      · rw [List.mem_map] at hk
        obtain ⟨p, hp, rfl⟩ := hk
        rw [List.mem_map] at hp
        obtain ⟨k, hk, rfl⟩ := hp
        rw [List.mem_filter] at hk
        exact ⟨hk.1, by simpa using hk.2⟩
    · rintro ⟨hk, hc⟩
      right
      rw [List.mem_map]
      refine ⟨(key, getMember (.obj proto props hidden) key), ?_, rfl⟩
      rw [List.mem_map]
      refine ⟨key, ?_, rfl⟩
      rw [List.mem_filter]
      exact ⟨hk, by simpa using hc⟩
  have hlookup : ∀ key ∈ (spreadProps []
      ((updateables.filter (fun key => (props.map Prod.fst).contains key)).map
        (fun key => (key, getMember (.obj proto props hidden) key)))).map Prod.fst,
      (spreadProps []
      ((updateables.filter (fun key => (props.map Prod.fst).contains key)).map
        (fun key => (key, getMember (.obj proto props hidden) key)))).lookup key =
        some (getMember (.obj proto props hidden) key) := by
    intro key hkey
    obtain ⟨v, hv⟩ := (mem_keys_iff_lookup _ _).1 hkey
    rw [hv]
    rw [lookup_spreadProps] at hv
    have hrev : ∀ p ∈ ((updateables.filter (fun key => (props.map Prod.fst).contains key)).map
        (fun key => (key, getMember (.obj proto props hidden) key))).reverse,
        p.1 = key → p.2 = getMember (.obj proto props hidden) key := by
      intro p hp hk
      rw [List.mem_reverse, List.mem_map] at hp
      obtain ⟨other, _, rfl⟩ := hp
      simp only at hk
      rw [hk]
    cases hl : (((updateables.filter (fun key => (props.map Prod.fst).contains key)).map
        (fun key => (key, getMember (.obj proto props hidden) key))).reverse).lookup key with
    | none =>
      rw [hl] at hv
      cases hv
    | some w =>
      rw [hl] at hv
      have hmem2 : key ∈ (((updateables.filter
          (fun key => (props.map Prod.fst).contains key)).map
          (fun key => (key, getMember (.obj proto props hidden) key))).reverse).map
          Prod.fst := (mem_keys_iff_lookup _ _).2 ⟨w, hl⟩
      have := lookup_of_all _ _ _ hmem2 hrev
      rw [hl] at this
      rw [← hv, this]
  exact ⟨_, getUpdateableFields_of_plain updateables proto props hidden hPlain h,
    keysNodup_spreadProps _ _ List.nodup_nil, hkeys,
    fun key hkey => ⟨hlookup key hkey, getMember_objectLiteral _ _ _ (hlookup key hkey)⟩⟩

theorem getUpdateableFields_contract_witness :
    isEmpty (objectLiteral [("name", .str "n"), ("role", .str "admin"), ("age", .num 3)]) =
      false ∧
    getUpdateableFields ["age", "email", "name"]
        (objectLiteral [("name", .str "n"), ("role", .str "admin"), ("age", .num 3)]) =
      .ok (objectLiteral [("age", .num 3), ("name", .str "n")]) ∧
    (∀ reqBody : JsVal, isEmpty reqBody = true →
      getUpdateableFields ["age", "email", "name"] reqBody =
        .error (newValidationError "Body is empty, no field(s) to update") ∧
      getMember (newValidationError "Body is empty, no field(s) to update") "name" =
        .str "ValidationError") ∧
    (isEmpty (objectLiteral [("name", .str "n"), ("role", .str "admin"), ("age", .num 3)]) =
        false →
      ∃ result, getUpdateableFields ["age", "email", "name"]
          (objectLiteral [("name", .str "n"), ("role", .str "admin"), ("age", .num 3)]) =
          .ok (objectLiteral result) ∧
        (result.map Prod.fst).Nodup ∧
        (∀ key, key ∈ result.map Prod.fst ↔
          key ∈ ["age", "email", "name"] ∧ key ∈ ["name", "role", "age"]) ∧
        (∀ key ∈ result.map Prod.fst,
          result.lookup key = some (getMember
            (objectLiteral [("name", .str "n"), ("role", .str "admin"), ("age", .num 3)]) key) ∧
          getMember (objectLiteral result) key = getMember
            (objectLiteral [("name", .str "n"), ("role", .str "admin"), ("age", .num 3)])
            key)) :=
  ⟨rfl, rfl,
   getUpdateableFields_contract ["age", "email", "name"] (.proto .object)
     [("name", .str "n"), ("role", .str "admin"), ("age", .num 3)] [] (by decide)⟩

/-! ## The signing key set -/

theorem lookup_map_value {β : Type} (h : β → JsVal) (l : List (String × β)) (k : String) :
    (l.map (fun e => (e.1, h e.2))).lookup k = (l.lookup k).map h := by
  induction l with
  | nil => rfl
  | cons e l ih =>
    obtain ⟨ek, ev⟩ := e
    simp only [List.map_cons, List.lookup_cons]
    cases hk : (k == ek) with
    | true => rfl
    | false => exact ih

theorem foldlM_keys (env : Env) (entries : List (String × JsVal × JsVal))
    (a : List (String × JsVal))
    (hKid : ∀ e ∈ entries, getProp e.2.1 "kid" = .ok (.str e.1))
    (hPem : ∀ e ∈ entries, env.jwkToPem e.2.1 = .ok e.2.2)
    (hPlain : ∀ e ∈ entries, e.1 ≠ "__proto__") :
    (entries.map (fun e => e.2.1)).foldlM (fun total currentValue => do
        let pem ← env.jwkToPem currentValue
        let kid ← getProp currentValue "kid"
        setProp total (toStr env kid) (objectLiteral [("instance", currentValue), ("pem", pem)]))
      (objectLiteral a) =
    .ok (objectLiteral (spreadProps a (entries.map (fun e =>
      (e.1, objectLiteral [("instance", e.2.1), ("pem", e.2.2)]))))) := by
  induction entries generalizing a with
  | nil => rfl
  | cons e entries ih =>
    have h1 := hKid e (List.mem_cons_self _ _)
    have h2 := hPem e (List.mem_cons_self _ _)
    have h3 := hPlain e (List.mem_cons_self _ _)
    have hstep : setProp (objectLiteral a) e.1
        (objectLiteral [("instance", e.2.1), ("pem", e.2.2)]) =
        .ok (objectLiteral (defineBinding e.1
          (objectLiteral [("instance", e.2.1), ("pem", e.2.2)]) a)) := by
      rw [← assign_define a e.1 _ h3]
      rfl
    rw [List.map_cons, List.foldlM_cons]
    simp only [h1, h2, bind, Except.bind, toStr, hstep]
    exact ih _ (fun x hx => hKid x (List.mem_cons_of_mem _ hx))
      (fun x hx => hPem x (List.mem_cons_of_mem _ hx))
      (fun x hx => hPlain x (List.mem_cons_of_mem _ hx))

theorem getPublicKeys_of_entries (env : Env) (cognitoIssuer publicKeys : JsVal)
    (entries : List (String × JsVal × JsVal))
    (hFetch : env.fetchJson (toStr env cognitoIssuer ++ "/.well-known/jwks.json") =
      .ok publicKeys)
    (hKeys : getProp publicKeys "keys" = .ok (.arr (entries.map (fun e => e.2.1))))
    (hKid : ∀ e ∈ entries, getProp e.2.1 "kid" = .ok (.str e.1))
    (hPem : ∀ e ∈ entries, env.jwkToPem e.2.1 = .ok e.2.2)
    (hPlain : ∀ e ∈ entries, e.1 ≠ "__proto__") :
    getPublicKeys env cognitoIssuer =
      ⟨[.fetch (toStr env cognitoIssuer ++ "/.well-known/jwks.json")],
       .ok (objectLiteral (spreadProps [] (entries.map (fun e =>
        (e.1, objectLiteral [("instance", e.2.1), ("pem", e.2.2)])))))⟩ := by
  have hfold := foldlM_keys env entries [] hKid hPem hPlain
  simp only [getPublicKeys, Run.call, Run.lift, hFetch, hKeys, callReduce]
  show Run.bind _ _ = _
  simp only [Run.bind, bind, Except.bind, List.append_nil, List.singleton_append, hKeys]
  exact congrArg (Run.mk [.fetch (toStr env cognitoIssuer ++ "/.well-known/jwks.json")]) hfold

/-- C21, as stated, fails: for a published key list whose one descriptor has
the kid `__proto__`, `getPublicKeys` requests the well-known URL and returns
an object without any key: the assignment made the entry the prototype of the
key set, so the kid `__proto__` is no key id of the mapping, while the names
`instance` and `pem`, which are kids of no descriptor, resolve in it. -/
theorem getPublicKeys_proto_kid :
    protoKidEnv.fetchJson "https://issuer.example/.well-known/jwks.json" =
      .ok (objectLiteral [("keys", .arr [objectLiteral [("kid", .str "__proto__"),
        ("kty", .str "RSA")]])]) ∧
    getPublicKeys protoKidEnv (.str "https://issuer.example") =
      ⟨[.fetch "https://issuer.example/.well-known/jwks.json"],
       .ok (.obj (objectLiteral [
          ("instance", objectLiteral [("kid", .str "__proto__"), ("kty", .str "RSA")]),
          ("pem", .str "-----BEGIN PUBLIC KEY-----")]) [] [])⟩ ∧
    (ownEnumerable (.obj (objectLiteral [
          ("instance", objectLiteral [("kid", .str "__proto__"), ("kty", .str "RSA")]),
          ("pem", .str "-----BEGIN PUBLIC KEY-----")]) [] [])).map Prod.fst = [] ∧
    getMember (.obj (objectLiteral [
          ("instance", objectLiteral [("kid", .str "__proto__"), ("kty", .str "RSA")]),
          ("pem", .str "-----BEGIN PUBLIC KEY-----")]) [] []) "pem" =
      .str "-----BEGIN PUBLIC KEY-----" :=
  ⟨rfl, rfl, rfl, rfl⟩

/-- C21, amended: for every issuer and every published key list whose
descriptors convert to PEM and carry string kids other than `__proto__`,
`getPublicKeys` requests exactly `{issuer}/.well-known/jwks.json` and returns
a plain object whose keys are exactly the kids of the list, each kid mapped to
`{instance, pem}` of the last descriptor listed with that kid. -/
theorem getPublicKeys_mapping (env : Env) (cognitoIssuer publicKeys : JsVal)
    (entries : List (String × JsVal × JsVal))
    (hFetch : env.fetchJson (toStr env cognitoIssuer ++ "/.well-known/jwks.json") =
      .ok publicKeys)
    (hKeys : getProp publicKeys "keys" = .ok (.arr (entries.map (fun e => e.2.1))))
    (hKid : ∀ e ∈ entries, getProp e.2.1 "kid" = .ok (.str e.1))
    (hPem : ∀ e ∈ entries, env.jwkToPem e.2.1 = .ok e.2.2)
    (hPlain : ∀ e ∈ entries, e.1 ≠ "__proto__") :
    ∃ keys,
      getPublicKeys env cognitoIssuer =
        ⟨[.fetch (toStr env cognitoIssuer ++ "/.well-known/jwks.json")],
         .ok (objectLiteral keys)⟩ ∧
      (keys.map Prod.fst).Nodup ∧
      (∀ kid, kid ∈ keys.map Prod.fst ↔ kid ∈ entries.map (fun e => e.1)) ∧
      (∀ kid, keys.lookup kid = (entries.reverse.lookup kid).map
        (fun e => objectLiteral [("instance", e.1), ("pem", e.2)])) ∧
      (∀ kid e, entries.reverse.lookup kid = some e →
        getMember (objectLiteral keys) kid = objectLiteral [("instance", e.1), ("pem", e.2)]) := by
  have hlookup : ∀ kid, (spreadProps [] (entries.map (fun e =>
      (e.1, objectLiteral [("instance", e.2.1), ("pem", e.2.2)])))).lookup kid =
      (entries.reverse.lookup kid).map
        (fun e => objectLiteral [("instance", e.1), ("pem", e.2)]) := by
    intro kid
    rw [lookup_spreadProps, ← List.map_reverse]
    have hmap := lookup_map_value
      (fun (e : JsVal × JsVal) => objectLiteral [("instance", e.1), ("pem", e.2)])
      entries.reverse kid
    simp only at hmap
    rw [hmap]
    cases entries.reverse.lookup kid with
    | none => rfl
    | some e => rfl
  refine ⟨_, getPublicKeys_of_entries env cognitoIssuer publicKeys entries hFetch hKeys hKid
    hPem hPlain, keysNodup_spreadProps _ _ List.nodup_nil, ?_, hlookup, ?_⟩
  · intro kid
    rw [mem_keys_spreadProps]
    simp only [List.map_nil, List.not_mem_nil, false_or, List.map_map]
    rfl
  · intro kid e he
    apply getMember_objectLiteral
    rw [hlookup, he]
    rfl

theorem getPublicKeys_mapping_witness :
    ∃ keys,
      getPublicKeys threeKeyEnv (.str "https://issuer.example") =
        ⟨[.fetch "https://issuer.example/.well-known/jwks.json"], .ok (objectLiteral keys)⟩ ∧
      (keys.map Prod.fst).Nodup ∧
      (∀ kid, kid ∈ keys.map Prod.fst ↔ kid ∈ ["k1", "k2", "k1"]) ∧
      (∀ kid, keys.lookup kid = (List.lookup kid
        [("k1", objectLiteral [("kid", .str "k1"), ("n", .str "third")], JsVal.str "PEM third"),
         ("k2", objectLiteral [("kid", .str "k2"), ("n", .str "second")], JsVal.str "PEM second"),
         ("k1", objectLiteral [("kid", .str "k1"), ("n", .str "first")],
           JsVal.str "PEM first")]).map
        (fun e => objectLiteral [("instance", e.1), ("pem", e.2)])) ∧
      (∀ kid e, List.lookup kid
        [("k1", objectLiteral [("kid", .str "k1"), ("n", .str "third")], JsVal.str "PEM third"),
         ("k2", objectLiteral [("kid", .str "k2"), ("n", .str "second")], JsVal.str "PEM second"),
         ("k1", objectLiteral [("kid", .str "k1"), ("n", .str "first")],
           JsVal.str "PEM first")] = some e →
        getMember (objectLiteral keys) kid = objectLiteral [("instance", e.1), ("pem", e.2)]) :=
  getPublicKeys_mapping threeKeyEnv (.str "https://issuer.example")
    (objectLiteral [("keys", .arr [
        objectLiteral [("kid", .str "k1"), ("n", .str "first")],
        objectLiteral [("kid", .str "k2"), ("n", .str "second")],
        objectLiteral [("kid", .str "k1"), ("n", .str "third")]])])
    [("k1", objectLiteral [("kid", .str "k1"), ("n", .str "first")], .str "PEM first"),
     ("k2", objectLiteral [("kid", .str "k2"), ("n", .str "second")], .str "PEM second"),
     ("k1", objectLiteral [("kid", .str "k1"), ("n", .str "third")], .str "PEM third")]
    rfl rfl
    (by
      intro e he
      simp only [List.mem_cons, List.mem_singleton, List.not_mem_nil, or_false] at he
      rcases he with rfl | rfl | rfl <;> rfl)
    (by
      intro e he
      simp only [List.mem_cons, List.mem_singleton, List.not_mem_nil, or_false] at he
      rcases he with rfl | rfl | rfl <;> rfl)
    (by
      intro e he
      simp only [List.mem_cons, List.mem_singleton, List.not_mem_nil, or_false] at he
      rcases he with rfl | rfl | rfl <;> decide)

theorem getPublicKeys_last_descriptor :
    getPublicKeys threeKeyEnv (.str "https://issuer.example") =
      ⟨[.fetch "https://issuer.example/.well-known/jwks.json"],
       .ok (objectLiteral [
        ("k1", objectLiteral [
          ("instance", objectLiteral [("kid", .str "k1"), ("n", .str "third")]),
          ("pem", .str "PEM third")]),
        ("k2", objectLiteral [
          ("instance", objectLiteral [("kid", .str "k2"), ("n", .str "second")]),
          ("pem", .str "PEM second")])])⟩ := rfl

end SamApp
